import Mathlib

/-!
ID3-etCher: tag entry store, UTF codec and binary writer.

A shallow embedding of `source/utf.c`, `source/id3_process.c` and
`source/id3_write.c`.

Conventions of the embedding.

* A C string (`char*`) is the list of its bytes before the terminating NUL,
  each byte a natural number in `1..255`; reading at the end of the list
  yields the terminator `0`.  `strlen` is `List.length`, `strcmp(a, b) == 0`
  is `a = b`.
* `unsigned int` values are natural numbers reduced `% 2 ^ 32` wherever the C
  arithmetic can wrap; `uint16_t` casts reduce `% 2 ^ 16`.
* A singly linked list of nodes (`head`) is a `List` of node records, the
  `next` field being the list structure itself.
* `malloc` always succeeds (the `NODE_MEMORY_ERROR` / `UTF16_PARSE_NO_MEM`
  branches are not reachable in the embedding).
* A block passed to `free` is tracked where the program leaves a pointer to it
  in a node: the description and the file path of a picture entry each carry
  a mark (see `id3_picture_tag_node`).
* A function that mutates through a pointer returns the new value next to
  its return code.
-/

namespace ID3

/-! ## Return codes (`include/utf.h`, `include/id3_process.h`) -/

def UTF8_PARSE_SUCCESS : Nat := 0
def UTF8_PARSE_MALFORMED : Nat := 1
def UTF16_PARSE_SUCCESS : Nat := 4
def UTF16_PARSE_UTF8_MALFORMED : Nat := 5

def NODE_ADD_SUCCESS : Nat := 100
def NODE_UPDATE_SUCCESS : Nat := 101
def NODE_DELETE_SUCCESS : Nat := 102
def NODE_INVALID_TAG_NAME : Nat := 103
def NODE_INVALID_TAG_VALUE : Nat := 104
def NODE_INVALID_HEAD : Nat := 105
def NODE_NOT_FOUND : Nat := 106
def NODE_MEMORY_ERROR : Nat := 107
def NODE_FILE_ERROR : Nat := 108

def APIC_TYPE_FILE_ICON : Nat := 0x01
def APIC_TYPE_OTHER_FILE_ICON : Nat := 0x02
def APIC_TYPE_PUBLISHER_STUDIO_LOGOTYPE : Nat := 0x14

/-! ## UTF codec (`source/utf.c`) -/

/-- Number of bytes announced by the first byte of a UTF-8 character
(`_utf8_char_length`): the tests look at bits 7, 5, 4 and 3 in turn. -/
def _utf8_char_length (val : Nat) : Nat :=
  if val &&& (1 <<< 7) = 0 then 1
  else if val &&& (1 <<< 5) = 0 then 2
  else if val &&& (1 <<< 4) = 0 then 3
  else if val &&& (1 <<< 3) = 0 then 4
  else 0

/-- Classifier `utf8_contains_multibyte_sequence`: `-1` at a byte of length 0,
`1` at the first byte announcing more than one byte, `0` when the scan reaches
the terminator. -/
def utf8_contains_multibyte_sequence : List Nat → Int
  | [] => 0
  | b :: rest =>
    match _utf8_char_length b with
    | 0 => -1
    | 1 => utf8_contains_multibyte_sequence rest
    | _ => 1

/-- One round of the continuation loop of `utf8_to_utf16_le`: the byte under
the read pointer must be `10xxxxxx`; its low six bits are folded into the
32-bit codepoint. -/
def _utf8_fold_continuation (codepoint c : Nat) : Option Nat :=
  if c &&& 0xC0 ≠ 0x80 then none
  else some (((codepoint <<< 6) % 2 ^ 32) ||| (c &&& 0x3F))

/-- The "convert codepoint to utf16" step of `utf8_to_utf16_le`: the units
written through `output_ptr` for one codepoint. -/
def _utf16_units (codepoint : Nat) : List Nat :=
  if codepoint ≤ 0xFFFF then [codepoint % 2 ^ 16]
  else
    let cp := (codepoint - 0x10000) % 2 ^ 32
    [((cp >>> 10) + 0xD800) % 2 ^ 16, ((cp &&& 0x3FF) + 0xDC00) % 2 ^ 16]

mutual
/-- Main loop of `utf8_to_utf16_le` over the bytes left to read, `out` being
the units written so far; `none` is the `UTF16_PARSE_UTF8_MALFORMED` exit.
The `switch` masks the length bits off the first byte, then the continuation
loop reads `current_utf8_char_num_bytes - 1` further bytes. -/
def utf8_to_utf16_le_loop : List Nat → List Nat → Option (List Nat)
  | [], out => some out
  | b :: rest, out =>
    if _utf8_char_length b = 0 then none
    else if _utf8_char_length b = 1 then utf8_to_utf16_le_loop rest (out ++ _utf16_units b)
    else if _utf8_char_length b = 2 then utf8_to_utf16_le_cont 0 (b &&& 0x1F) rest out
    else if _utf8_char_length b = 3 then utf8_to_utf16_le_cont 1 (b &&& 0x0F) rest out
    else utf8_to_utf16_le_cont 2 (b &&& 0x07) rest out
/-- The continuation loop `for (i = 1; i < current_utf8_char_num_bytes; i++)`
of `utf8_to_utf16_le`: the first argument counts the rounds that remain after
the current one, the second is the codepoint so far.  At the end of the string
the byte read is the terminator, which is not a continuation byte; after the
last round the codepoint is converted and the main loop goes on. -/
def utf8_to_utf16_le_cont : Nat → Nat → List Nat → List Nat → Option (List Nat)
  | _, _, [], _ => none
  | 0, codepoint, c :: rest, out =>
    match _utf8_fold_continuation codepoint c with
    | none => none
    | some codepoint => utf8_to_utf16_le_loop rest (out ++ _utf16_units codepoint)
  | n + 1, codepoint, c :: rest, out =>
    match _utf8_fold_continuation codepoint c with
    | none => none
    | some codepoint => utf8_to_utf16_le_cont n codepoint rest out
end

/-- Result of a UTF-16 conversion: the return code, the buffer left in
`*utf16_output_string` (`none` for `NULL`; on success the units followed by the
terminating unit `0`) and the value left in `*utf16_computed_length` (callers
initialise it to 0 and a failing call does not write it). -/
structure utf16_result where
  outcome : Nat
  utf16_output_string : Option (List Nat)
  utf16_computed_length : Nat
deriving DecidableEq, Repr

/-- Conversion `utf8_to_utf16_le`. -/
def utf8_to_utf16_le (utf8_input_string : List Nat) : utf16_result :=
  match utf8_to_utf16_le_loop utf8_input_string [] with
  | none => ⟨UTF16_PARSE_UTF8_MALFORMED, none, 0⟩
  | some units => ⟨UTF16_PARSE_SUCCESS, some (units ++ [0]), units.length % 2 ^ 32⟩

/-- Conversion `utf8_to_utf16_be`: the little-endian conversion, then every
unit below the computed length has its two bytes swapped. -/
def utf8_to_utf16_be (utf8_input_string : List Nat) : utf16_result :=
  let r := utf8_to_utf16_le utf8_input_string
  if r.outcome ≠ UTF16_PARSE_SUCCESS then r
  else
    match r.utf16_output_string with
    | none => r
    | some buf =>
      ⟨UTF16_PARSE_SUCCESS,
        some ((buf.take r.utf16_computed_length).map
            (fun value => ((value >>> 8) ||| ((value <<< 8) % 2 ^ 16)) % 2 ^ 16)
          ++ buf.drop r.utf16_computed_length),
        r.utf16_computed_length⟩

/-! ## Size encoding (`source/id3_write.c`) -/

def _USE_28BIT_FORMAT_SIZE : Nat := 0
def _USE_32BIT_FORMAT_SIZE : Nat := 1

/-- The three shift rounds of the 28-bit format in `_integer_to_four_byte`,
on a 32-bit `unsigned int`. -/
def _spread_28bit (convertee : Nat) : Nat :=
  let temp := convertee &&& 0xFFFFFF80
  let temp := (temp <<< 1) % 2 ^ 32
  let convertee := convertee &&& 0x0000007F
  let convertee := convertee ||| temp
  let temp := convertee &&& 0xFFFF8000
  let temp := (temp <<< 1) % 2 ^ 32
  let convertee := convertee &&& 0x00007FFF
  let convertee := convertee ||| temp
  let temp := convertee &&& 0xFF800000
  let temp := (temp <<< 1) % 2 ^ 32
  let convertee := convertee &&& 0x007FFFFF
  convertee ||| temp

/-- Size encoder `_integer_to_four_byte`: the four bytes stored in `converted`. -/
def _integer_to_four_byte (convertee : Nat) (format_as : Nat) : List Nat :=
  let convertee := if format_as = _USE_28BIT_FORMAT_SIZE then _spread_28bit convertee else convertee
  [(convertee >>> 24) &&& 0xFF, (convertee >>> 16) &&& 0xFF, (convertee >>> 8) &&& 0xFF,
    convertee &&& 0xFF]

/-! ## Tag entry store: text entries (`source/id3_process.c`) -/

def _NUM_TEXT_TAGS : Nat := 38
def _COMMENT_LANGUAGE_LENGTH : Nat := 3
def _ENCODING_BYTE_LENGTH : Nat := 1
def _ENCODING_UNICODE_BOM_LENGTH : Nat := 2
def _ENCODING_UNICODE_NULL_LENGTH : Nat := 2
def _ENCODING_ISO_NULL_LENGTH : Nat := 1
def _ENCODING_APIC_PICTURE_TYPE_LENGTH : Nat := 1

/-- The allow-list `TEXT_TAGS`, every name as its four ASCII bytes. -/
def TEXT_TAGS : List (List Nat) :=
  [[0x54, 0x41, 0x4C, 0x42], [0x54, 0x42, 0x50, 0x4D], [0x54, 0x43, 0x4F, 0x4D],  -- TALB TBPM TCOM
   [0x54, 0x43, 0x4F, 0x4E], [0x54, 0x43, 0x4F, 0x50], [0x54, 0x44, 0x41, 0x54],  -- TCON TCOP TDAT
   [0x54, 0x44, 0x4C, 0x59], [0x54, 0x45, 0x4E, 0x43], [0x54, 0x45, 0x58, 0x54],  -- TDLY TENC TEXT
   [0x54, 0x46, 0x4C, 0x54], [0x54, 0x49, 0x4D, 0x45], [0x54, 0x49, 0x54, 0x31],  -- TFLT TIME TIT1
   [0x54, 0x49, 0x54, 0x32], [0x54, 0x49, 0x54, 0x33], [0x54, 0x4B, 0x45, 0x59],  -- TIT2 TIT3 TKEY
   [0x54, 0x4C, 0x41, 0x4E], [0x54, 0x4C, 0x45, 0x4E], [0x54, 0x4D, 0x45, 0x44],  -- TLAN TLEN TMED
   [0x54, 0x4F, 0x41, 0x4C], [0x54, 0x4F, 0x46, 0x4E], [0x54, 0x4F, 0x4C, 0x59],  -- TOAL TOFN TOLY
   [0x54, 0x4F, 0x50, 0x45], [0x54, 0x4F, 0x52, 0x59], [0x54, 0x4F, 0x57, 0x4E],  -- TOPE TORY TOWN
   [0x54, 0x50, 0x45, 0x31], [0x54, 0x50, 0x45, 0x32], [0x54, 0x50, 0x45, 0x33],  -- TPE1 TPE2 TPE3
   [0x54, 0x50, 0x45, 0x34], [0x54, 0x50, 0x4F, 0x53], [0x54, 0x50, 0x55, 0x42],  -- TPE4 TPOS TPUB
   [0x54, 0x52, 0x43, 0x4B], [0x54, 0x52, 0x44, 0x41], [0x54, 0x52, 0x53, 0x4E],  -- TRCK TRDA TRSN
   [0x54, 0x52, 0x53, 0x4F], [0x54, 0x53, 0x49, 0x5A], [0x54, 0x53, 0x52, 0x43],  -- TRSO TSIZ TSRC
   [0x54, 0x53, 0x53, 0x45], [0x54, 0x59, 0x45, 0x52]]  -- TSSE TYER

/-- Record `struct id3_text_tag_node` without its `next` pointer. -/
structure id3_text_tag_node where
  tag_name : List Nat
  tag_value : List Nat
  num_id3_bytes : Nat
  is_utf8 : Nat
  tag_value_utf16 : Option (List Nat)
deriving DecidableEq, Repr

/-- Metadata pass `_text_node_generate_metadata`: the return code and the node
as the call leaves it. -/
def _text_node_generate_metadata (node : id3_text_tag_node) : Nat × id3_text_tag_node :=
  let has_multibytes := utf8_contains_multibyte_sequence node.tag_value
  let previous_utf8_val := node.is_utf8
  let old_tag_value_utf16 := node.tag_value_utf16
  if has_multibytes = -1 then (UTF8_PARSE_MALFORMED, node)
  else if has_multibytes = 1 then
    let node := { node with is_utf8 := 1 }
    let r := utf8_to_utf16_le node.tag_value
    let node := { node with tag_value_utf16 := r.utf16_output_string }
    if r.outcome ≠ UTF16_PARSE_SUCCESS then
      (r.outcome, { node with is_utf8 := previous_utf8_val, tag_value_utf16 := old_tag_value_utf16 })
    else
      (UTF8_PARSE_SUCCESS,
        { node with
          num_id3_bytes :=
            (_ENCODING_BYTE_LENGTH + _ENCODING_UNICODE_BOM_LENGTH + (r.utf16_computed_length * 2)
              + _ENCODING_UNICODE_NULL_LENGTH) % 2 ^ 32 })
  else
    (UTF8_PARSE_SUCCESS,
      { node with
        is_utf8 := 0
        tag_value_utf16 := none
        num_id3_bytes :=
          (_ENCODING_BYTE_LENGTH + node.tag_value.length + _ENCODING_ISO_NULL_LENGTH) % 2 ^ 32 })

/-- The search loop of `id3_text_tag_node_add_update` followed by the creation
of a new node: a node with the name is updated in place (its old value put back
when the metadata pass fails); when the end of the list is reached a new node
is built and linked after the last one (or becomes the head). -/
def _text_add_update_walk (tag_name tag_value : List Nat) :
    List id3_text_tag_node → Nat × List id3_text_tag_node
  | [] =>
    let new_node : id3_text_tag_node :=
      { tag_name := tag_name, tag_value := tag_value, num_id3_bytes := 0, is_utf8 := 0,
        tag_value_utf16 := none }
    let r := _text_node_generate_metadata new_node
    if r.1 ≠ UTF8_PARSE_SUCCESS then (r.1, [])
    else (NODE_ADD_SUCCESS, [r.2])
  | iter_node :: next =>
    if iter_node.tag_name = tag_name then
      let old_tag_value := iter_node.tag_value
      let r := _text_node_generate_metadata { iter_node with tag_value := tag_value }
      if r.1 ≠ UTF8_PARSE_SUCCESS then (r.1, { r.2 with tag_value := old_tag_value } :: next)
      else (NODE_UPDATE_SUCCESS, r.2 :: next)
    else
      let w := _text_add_update_walk tag_name tag_value next
      (w.1, iter_node :: w.2)

/-- Store operation `id3_text_tag_node_add_update`: the return code and the
list `*head` after the call. -/
def id3_text_tag_node_add_update (head : List id3_text_tag_node) (tag_name tag_value : List Nat) :
    Nat × List id3_text_tag_node :=
  if ¬ TEXT_TAGS.contains tag_name then (NODE_INVALID_TAG_NAME, head)
  else if tag_value.length = 0 then (NODE_INVALID_TAG_VALUE, head)
  else _text_add_update_walk tag_name tag_value head

/-! ## Tag entry store: comment entries -/

/-- Record `struct id3_comment_tag_node` without its `next` pointer. -/
structure id3_comment_tag_node where
  language : List Nat
  short_content_description : List Nat
  comment : List Nat
  num_id3_bytes : Nat
  is_utf8 : Nat
  short_content_description_utf16 : Option (List Nat)
  comment_utf16 : Option (List Nat)
deriving DecidableEq, Repr

/-- Metadata pass `_comment_node_generate_metadata`. -/
def _comment_node_generate_metadata (node : id3_comment_tag_node) : Nat × id3_comment_tag_node :=
  let scd_has_multibytes := utf8_contains_multibyte_sequence node.short_content_description
  let cmt_has_multibytes := utf8_contains_multibyte_sequence node.comment
  let previous_utf8_val := node.is_utf8
  let old_scd_utf16 := node.short_content_description_utf16
  let old_cmt_utf16 := node.comment_utf16
  if scd_has_multibytes = -1 ∨ cmt_has_multibytes = -1 then (UTF8_PARSE_MALFORMED, node)
  else if scd_has_multibytes = 1 ∨ cmt_has_multibytes = 1 then
    let node := { node with is_utf8 := 1 }
    let r_scd := utf8_to_utf16_le node.short_content_description
    let node := { node with short_content_description_utf16 := r_scd.utf16_output_string }
    if r_scd.outcome ≠ UTF16_PARSE_SUCCESS then
      (r_scd.outcome,
        { node with is_utf8 := previous_utf8_val, short_content_description_utf16 := old_scd_utf16 })
    else
      let r_cmt := utf8_to_utf16_le node.comment
      let node := { node with comment_utf16 := r_cmt.utf16_output_string }
      if r_cmt.outcome ≠ UTF16_PARSE_SUCCESS then
        (r_cmt.outcome,
          { node with
            is_utf8 := previous_utf8_val
            short_content_description_utf16 := old_scd_utf16
            comment_utf16 := old_cmt_utf16 })
      else
        (UTF8_PARSE_SUCCESS,
          { node with
            num_id3_bytes :=
              (_ENCODING_BYTE_LENGTH + _COMMENT_LANGUAGE_LENGTH
                + _ENCODING_UNICODE_BOM_LENGTH + (r_scd.utf16_computed_length * 2)
                + _ENCODING_UNICODE_NULL_LENGTH
                + _ENCODING_UNICODE_BOM_LENGTH + (r_cmt.utf16_computed_length * 2)
                + _ENCODING_UNICODE_NULL_LENGTH) % 2 ^ 32 })
  else
    (UTF8_PARSE_SUCCESS,
      { node with
        is_utf8 := 0
        short_content_description_utf16 := none
        comment_utf16 := none
        num_id3_bytes :=
          (_ENCODING_BYTE_LENGTH + _COMMENT_LANGUAGE_LENGTH
            + node.short_content_description.length + _ENCODING_ISO_NULL_LENGTH
            + node.comment.length + _ENCODING_ISO_NULL_LENGTH) % 2 ^ 32 })

/-- The search loop of `id3_comment_tag_node_add_update` followed by the
creation of a new node.  A matching node gets the new comment; when its
metadata pass fails the old comment is put back and the code returned is
`NODE_INVALID_TAG_VALUE`. -/
def _comment_add_update_walk (language short_content_description comment : List Nat) :
    List id3_comment_tag_node → Nat × List id3_comment_tag_node
  | [] =>
    let new_node : id3_comment_tag_node :=
      { language := language, short_content_description := short_content_description,
        comment := comment, num_id3_bytes := 0, is_utf8 := 0,
        short_content_description_utf16 := none, comment_utf16 := none }
    let r := _comment_node_generate_metadata new_node
    if r.1 ≠ UTF8_PARSE_SUCCESS then (r.1, [])
    else (NODE_ADD_SUCCESS, [r.2])
  | iter_node :: next =>
    if iter_node.language = language
        ∧ iter_node.short_content_description = short_content_description then
      let old_comment := iter_node.comment
      let r := _comment_node_generate_metadata { iter_node with comment := comment }
      if r.1 ≠ UTF8_PARSE_SUCCESS then
        (NODE_INVALID_TAG_VALUE, { r.2 with comment := old_comment } :: next)
      else (NODE_UPDATE_SUCCESS, r.2 :: next)
    else
      let w := _comment_add_update_walk language short_content_description comment next
      (w.1, iter_node :: w.2)

/-- Store operation `id3_comment_tag_node_add_update`. -/
def id3_comment_tag_node_add_update (head : List id3_comment_tag_node)
    (language short_content_description comment : List Nat) :
    Nat × List id3_comment_tag_node :=
  if language.length ≠ _COMMENT_LANGUAGE_LENGTH ∨ comment.length = 0 then
    (NODE_INVALID_TAG_VALUE, head)
  else _comment_add_update_walk language short_content_description comment head

/-! ## Tag entry store: picture entries -/

/-- The files that `fopen(path, "rb")` can open, by path, with their content;
`none` when the open fails. -/
abbrev FileSystem := List Nat → Option (List Nat)

/-- Record `struct id3_picture_tag_node` without its `next` pointer.
`picture_binary_data` points into a buffer owned by the caller: the field holds
the bytes of that buffer.

The last two fields are not members of the C struct.  They record the state of
the blocks behind the pointers `description` and `picture_file_path`:
`id3_picture_tag_node_add_update` passes such a block to `free` on some paths
and leaves the pointer in the node, and the mark is then `true`.  From that
point on C gives no meaning to a read through the pointer (the `strcmp` of the
search loops, `strlen` and the codec in the metadata pass, `fopen` and `fprintf`
in the writer) nor to a second `free`.  The record keeps the bytes that the
block held when it was released, and the functions below compute with them;
what they compute from a node with a mark set is what the program does only as
long as the released block is left as it was. -/
structure id3_picture_tag_node where
  mime_type : List Nat
  picture_type : Nat
  description : List Nat
  num_id3_bytes : Nat
  is_utf8 : Nat
  description_utf16 : Option (List Nat)
  is_picture_stored_as_file : Nat
  picture_file_path : Option (List Nat)
  picture_binary_data : Option (List Nat)
  picture_binary_data_bytes : Nat
  description_released : Bool
  picture_file_path_released : Bool
deriving DecidableEq, Repr

/-- First half of `_picture_node_generate_metadata`, up to the size of the text
part: `Except.error` is an early `return`. -/
def _picture_node_text_metadata (node : id3_picture_tag_node) :
    Except (Nat × id3_picture_tag_node) id3_picture_tag_node :=
  let has_multibytes := utf8_contains_multibyte_sequence node.description
  let previous_utf8_val := node.is_utf8
  let old_description_utf16 := node.description_utf16
  if has_multibytes = -1 then .error (UTF8_PARSE_MALFORMED, node)
  else if has_multibytes = 1 then
    let node := { node with is_utf8 := 1 }
    let r := utf8_to_utf16_le node.description
    let node := { node with description_utf16 := r.utf16_output_string }
    if r.outcome ≠ UTF16_PARSE_SUCCESS then
      .error (r.outcome,
        { node with is_utf8 := previous_utf8_val, description_utf16 := old_description_utf16 })
    else
      .ok { node with
            num_id3_bytes :=
              (_ENCODING_BYTE_LENGTH + node.mime_type.length + _ENCODING_ISO_NULL_LENGTH
                + _ENCODING_APIC_PICTURE_TYPE_LENGTH + _ENCODING_UNICODE_BOM_LENGTH
                + (r.utf16_computed_length * 2) + _ENCODING_UNICODE_NULL_LENGTH) % 2 ^ 32 }
  else
    .ok { node with
          is_utf8 := 0
          description_utf16 := none
          num_id3_bytes :=
            (_ENCODING_BYTE_LENGTH + node.mime_type.length + _ENCODING_ISO_NULL_LENGTH
              + _ENCODING_APIC_PICTURE_TYPE_LENGTH + node.description.length
              + _ENCODING_ISO_NULL_LENGTH) % 2 ^ 32 }

/-- Metadata pass `_picture_node_generate_metadata`: the text part, then the
image byte count is added (`ftell` at the end of the file, or
`picture_binary_data_bytes`).  When the file cannot be opened `is_utf8` and
`description_utf16` get their old values back; `num_id3_bytes` has been
assigned by then. -/
def _picture_node_generate_metadata (fs : FileSystem) (node : id3_picture_tag_node) :
    Nat × id3_picture_tag_node :=
  let previous_utf8_val := node.is_utf8
  let old_description_utf16 := node.description_utf16
  match _picture_node_text_metadata node with
  | .error early => early
  | .ok node =>
    if node.is_picture_stored_as_file ≠ 0 then
      match node.picture_file_path.bind fs with
      | none =>
        (NODE_FILE_ERROR,
          { node with is_utf8 := previous_utf8_val, description_utf16 := old_description_utf16 })
      | some content =>
        (UTF8_PARSE_SUCCESS,
          { node with num_id3_bytes := (node.num_id3_bytes + content.length) % 2 ^ 32 })
    else
      (UTF8_PARSE_SUCCESS,
        { node with
          num_id3_bytes := (node.num_id3_bytes + node.picture_binary_data_bytes) % 2 ^ 32 })

def UPDATE_NONE : Nat := 0
def UPDATE_TYPE_FILE_ICON : Nat := 1
def UPDATE_TYPE_STANDARD : Nat := 2

/-- The search loop of `id3_picture_tag_node_add_update` followed by the
creation of a new node.  On a match the new mime type, (for an icon) the new
description and the new image source are written into the node before the
metadata pass; when the pass fails, `mime_type`, (for an icon) `description`
and `picture_file_path` are put back and the code of the pass is returned.  A
new node whose pass fails is dropped with `NODE_INVALID_TAG_VALUE`.

The calls of `free` at the two ends of the update branch are followed block by
block.  When the pass fails the function frees `iter_node->mime_type`,
`iter_node->description` and `iter_node->picture_file_path`: the first is the
new copy; the second is the new copy for an icon and the entry's own
description otherwise, which is not put back, so the pointer is left to a
released block; the third is the new copy when a path was passed and the
entry's own path otherwise.  When the pass succeeds the function frees
`old_mime_type`, `old_description` (`NULL` unless the update is an icon update)
and `old_picture_file_path`, which is still the pointer held by the node when
no path was passed. -/
def _picture_add_update_walk (fs : FileSystem) (mime_type : List Nat) (picture_type : Nat)
    (description : List Nat) (picture_file_path picture_binary_data : Option (List Nat))
    (picture_binary_data_bytes : Nat) :
    List id3_picture_tag_node → Nat × List id3_picture_tag_node
  | [] =>
    let new_node : id3_picture_tag_node :=
      { mime_type := mime_type, picture_type := picture_type, description := description,
        num_id3_bytes := 0, is_utf8 := 0, description_utf16 := none,
        is_picture_stored_as_file := 0, picture_file_path := none, picture_binary_data := none,
        picture_binary_data_bytes := 0, description_released := false,
        picture_file_path_released := false }
    let new_node :=
      match picture_file_path with
      | some path =>
        { new_node with picture_file_path := some path, is_picture_stored_as_file := 1 }
      | none =>
        { new_node with
          picture_binary_data := picture_binary_data
          picture_binary_data_bytes := picture_binary_data_bytes
          is_picture_stored_as_file := 0 }
    let r := _picture_node_generate_metadata fs new_node
    if r.1 ≠ UTF8_PARSE_SUCCESS then (NODE_INVALID_TAG_VALUE, [])
    else (NODE_ADD_SUCCESS, [r.2])
  | iter_node :: next =>
    let update_operation :=
      if (picture_type = APIC_TYPE_FILE_ICON ∨ picture_type = APIC_TYPE_OTHER_FILE_ICON)
          ∧ iter_node.picture_type = picture_type then UPDATE_TYPE_FILE_ICON
      else if iter_node.picture_type = picture_type ∧ iter_node.description = description then
        UPDATE_TYPE_STANDARD
      else UPDATE_NONE
    if update_operation ≠ UPDATE_NONE then
      let old_mime_type := iter_node.mime_type
      let old_description := iter_node.description
      let old_picture_file_path := iter_node.picture_file_path
      let node := { iter_node with mime_type := mime_type }
      let node :=
        if update_operation = UPDATE_TYPE_FILE_ICON then { node with description := description }
        else node
      let node :=
        match picture_file_path with
        | some path => { node with picture_file_path := some path, is_picture_stored_as_file := 1 }
        | none => node
      let node :=
        match picture_binary_data with
        | some data => { node with picture_binary_data := some data, is_picture_stored_as_file := 0 }
        | none => node
      let r := _picture_node_generate_metadata fs node
      if r.1 ≠ UTF8_PARSE_SUCCESS then
        let node := { r.2 with mime_type := old_mime_type }
        let node :=
          if update_operation = UPDATE_TYPE_FILE_ICON then
            { node with description := old_description }
          else { node with description_released := true }
        let node :=
          match picture_file_path with
          | some _ => node
          | none =>
            { node with
              picture_file_path_released :=
                node.picture_file_path_released || old_picture_file_path.isSome }
        (r.1, { node with picture_file_path := old_picture_file_path } :: next)
      else
        let node :=
          if update_operation = UPDATE_TYPE_FILE_ICON then
            { r.2 with description_released := false }
          else r.2
        let node :=
          match picture_file_path with
          | some _ => { node with picture_file_path_released := false }
          | none =>
            { node with
              picture_file_path_released :=
                node.picture_file_path_released || old_picture_file_path.isSome }
        (NODE_UPDATE_SUCCESS, node :: next)
    else
      let w := _picture_add_update_walk fs mime_type picture_type description picture_file_path
        picture_binary_data picture_binary_data_bytes next
      (w.1, iter_node :: w.2)

/-- Store operation `id3_picture_tag_node_add_update`; `fs` is the file system
the call runs against. -/
def id3_picture_tag_node_add_update (fs : FileSystem) (head : List id3_picture_tag_node)
    (mime_type : List Nat) (picture_type : Nat) (description : List Nat)
    (picture_file_path picture_binary_data : Option (List Nat))
    (picture_binary_data_bytes : Nat) : Nat × List id3_picture_tag_node :=
  if mime_type.length = 0 ∨ picture_type > APIC_TYPE_PUBLISHER_STUDIO_LOGOTYPE then
    (NODE_INVALID_TAG_VALUE, head)
  else if picture_file_path.isSome ∧ picture_binary_data.isSome then
    (NODE_INVALID_TAG_VALUE, head)
  else
    _picture_add_update_walk fs mime_type picture_type description picture_file_path
      picture_binary_data picture_binary_data_bytes head

/-! ## Tag entry store: deleting entries -/

/-- The `do … while (iter_node != NULL)` loop of `id3_text_tag_node_delete`:
the first node with the name is unlinked, its predecessor (or the head pointer)
taking over its `next`. -/
def _text_delete_walk (tag_name : List Nat) :
    List id3_text_tag_node → Nat × List id3_text_tag_node
  | [] => (NODE_NOT_FOUND, [])
  | iter_node :: next =>
    if iter_node.tag_name = tag_name then (NODE_DELETE_SUCCESS, next)
    else
      let w := _text_delete_walk tag_name next
      (w.1, iter_node :: w.2)

/-- Store operation `id3_text_tag_node_delete`: the return code and the list
`*head` after the call. -/
def id3_text_tag_node_delete (head : List id3_text_tag_node) (tag_name : List Nat) :
    Nat × List id3_text_tag_node :=
  match head with
  | [] => (NODE_INVALID_HEAD, [])
  | _ :: _ => _text_delete_walk tag_name head

/-- The loop of `id3_comment_tag_node_delete`. -/
def _comment_delete_walk (language short_content_description : List Nat) :
    List id3_comment_tag_node → Nat × List id3_comment_tag_node
  | [] => (NODE_NOT_FOUND, [])
  | iter_node :: next =>
    if iter_node.language = language
        ∧ iter_node.short_content_description = short_content_description then
      (NODE_DELETE_SUCCESS, next)
    else
      let w := _comment_delete_walk language short_content_description next
      (w.1, iter_node :: w.2)

/-- Store operation `id3_comment_tag_node_delete`. -/
def id3_comment_tag_node_delete (head : List id3_comment_tag_node)
    (language short_content_description : List Nat) : Nat × List id3_comment_tag_node :=
  match head with
  | [] => (NODE_INVALID_HEAD, [])
  | _ :: _ => _comment_delete_walk language short_content_description head

/-- The loop of `id3_picture_tag_node_delete`: a node is unlinked when its
`picture_type` and its `description` both equal the arguments. -/
def _picture_delete_walk (picture_type : Nat) (description : List Nat) :
    List id3_picture_tag_node → Nat × List id3_picture_tag_node
  | [] => (NODE_NOT_FOUND, [])
  | iter_node :: next =>
    if iter_node.picture_type = picture_type ∧ iter_node.description = description then
      (NODE_DELETE_SUCCESS, next)
    else
      let w := _picture_delete_walk picture_type description next
      (w.1, iter_node :: w.2)

/-- Store operation `id3_picture_tag_node_delete`. -/
def id3_picture_tag_node_delete (head : List id3_picture_tag_node) (picture_type : Nat)
    (description : List Nat) : Nat × List id3_picture_tag_node :=
  match head with
  | [] => (NODE_INVALID_HEAD, [])
  | _ :: _ => _picture_delete_walk picture_type description head

/-! ## Binary writer (`source/id3_write.c`) -/

/-- The output stream behind `file_ptr`: the bytes written so far, and whether
the run has hit undefined behaviour (after which nothing more is written). -/
structure OutFile where
  bytes : List Nat
  fault : Bool
deriving DecidableEq, Repr

/-- Library call `fwrite(data, n, 1, file_ptr)` with all `n` bytes of `data`. -/
def fwrite (data : List Nat) (f : OutFile) : OutFile :=
  if f.fault then f else { f with bytes := f.bytes ++ data }

/-- What `fprintf(file_ptr, format)` prints when called without further
arguments: ordinary bytes are copied, the directive `%%` prints one `%`, and
any other directive has no argument to read (`none`: undefined behaviour). -/
def _format_output : List Nat → Option (List Nat)
  | [] => some []
  | b :: rest =>
    if b = 0x25 then
      match rest with
      | [] => none
      | c :: rest2 =>
        if c = 0x25 then (_format_output rest2).map (fun s => 0x25 :: s) else none
    else (_format_output rest).map (fun s => b :: s)

/-- Library call `fprintf(file_ptr, format)`, the string being the format. -/
def fprintf (format : List Nat) (f : OutFile) : OutFile :=
  match _format_output format with
  | some s => fwrite s f
  | none => { f with fault := true }

/-- The loop `while (*utf16_writer != 0) { fwrite(utf16_writer, 2, 1, file_ptr);
utf16_writer++; }` over the units from the write pointer on.  A unit is stored
low byte first (the little-endian hosts this program targets); running off the
buffer without meeting a zero unit is a fault. -/
def _write_utf16_units : List Nat → OutFile → OutFile
  | [], f => { f with fault := true }
  | u :: rest, f =>
    if u = 0 then f else _write_utf16_units rest (fwrite [u % 256, (u / 256) % 256] f)

/-- The same loop started from a buffer pointer; `NULL` cannot be read. -/
def _write_utf16 (buffer : Option (List Nat)) (f : OutFile) : OutFile :=
  match buffer with
  | none => { f with fault := true }
  | some units => _write_utf16_units units f

def default_flags : List Nat := [0x00, 0x00]
def _TAG_NAME_COMMENT : List Nat := [0x43, 0x4F, 0x4D, 0x4D]
def _TAG_NAME_PICTURE : List Nat := [0x41, 0x50, 0x49, 0x43]

/-- Frame writer `_write_text_tag`. -/
def _write_text_tag (f : OutFile) (node : id3_text_tag_node) : OutFile :=
  let id3v2_tag_size_hex := _integer_to_four_byte node.num_id3_bytes _USE_32BIT_FORMAT_SIZE
  let f := fprintf node.tag_name f
  let f := fwrite id3v2_tag_size_hex f
  let f := fwrite default_flags f
  if node.is_utf8 ≠ 0 then
    let f := fwrite [0x01, 0xFF, 0xFE] f
    let f := _write_utf16 node.tag_value_utf16 f
    fwrite [0x00, 0x00] f
  else
    let f := fwrite [0x00] f
    let f := fprintf node.tag_value f
    fwrite [0x00] f

/-- Frame writer `_write_comment_tag`.  `fwrite(node->language, 3, 1, file_ptr)`
writes the first three bytes of the array `language[4]`, which `strncpy` has
filled with the language and padded with NUL. -/
def _write_comment_tag (f : OutFile) (node : id3_comment_tag_node) : OutFile :=
  let id3v2_tag_size_hex := _integer_to_four_byte node.num_id3_bytes _USE_32BIT_FORMAT_SIZE
  let f := fprintf _TAG_NAME_COMMENT f
  let f := fwrite id3v2_tag_size_hex f
  let f := fwrite default_flags f
  if node.is_utf8 ≠ 0 then
    let f := fwrite [0x01] f
    let f := fwrite ((node.language ++ [0, 0, 0]).take 3) f
    let f := fwrite [0xFF, 0xFE] f
    let f := _write_utf16 node.short_content_description_utf16 f
    let f := fwrite [0x00, 0x00] f
    let f := fwrite [0xFF, 0xFE] f
    let f := _write_utf16 node.comment_utf16 f
    fwrite [0x00, 0x00] f
  else
    let f := fwrite [0x00] f
    let f := fwrite ((node.language ++ [0, 0, 0]).take 3) f
    let f := fprintf node.short_content_description f
    let f := fwrite [0x00] f
    let f := fprintf node.comment f
    fwrite [0x00] f

/-- The image part of `_write_picture_tag`: the file is copied byte by byte
(`fgetc` on a file that does not open is a fault), or
`picture_binary_data_bytes` bytes are written from the caller's buffer (reading
past its end, or from `NULL`, is a fault). -/
def _write_picture_data (fs : FileSystem) (f : OutFile) (node : id3_picture_tag_node) : OutFile :=
  if node.is_picture_stored_as_file ≠ 0 then
    match node.picture_file_path.bind fs with
    | none => { f with fault := true }
    | some content => fwrite content f
  else
    match node.picture_binary_data with
    | none => if node.picture_binary_data_bytes = 0 then f else { f with fault := true }
    | some data =>
      if node.picture_binary_data_bytes ≤ data.length then
        fwrite (data.take node.picture_binary_data_bytes) f
      else { f with fault := true }

/-- Frame writer `_write_picture_tag`. -/
def _write_picture_tag (fs : FileSystem) (f : OutFile) (node : id3_picture_tag_node) : OutFile :=
  let id3v2_tag_size_hex := _integer_to_four_byte node.num_id3_bytes _USE_32BIT_FORMAT_SIZE
  let f := fprintf _TAG_NAME_PICTURE f
  let f := fwrite id3v2_tag_size_hex f
  let f := fwrite default_flags f
  let f :=
    if node.is_utf8 ≠ 0 then
      let f := fwrite [0x01] f
      let f := fprintf node.mime_type f
      let f := fwrite [0x00] f
      let f := fwrite [node.picture_type] f
      let f := fwrite [0xFF, 0xFE] f
      let f := _write_utf16 node.description_utf16 f
      fwrite [0x00, 0x00] f
    else
      let f := fwrite [0x00] f
      let f := fprintf node.mime_type f
      let f := fwrite [0x00] f
      let f := fwrite [node.picture_type] f
      let f := fprintf node.description f
      fwrite [0x00] f
  _write_picture_data fs f node

/-- Record `struct id3_master_tag_struct`: each field is `none` for a `NULL`
pointer, otherwise the list its head pointer leads to. -/
structure id3_master_tag_struct where
  text_tag_list : Option (List id3_text_tag_node)
  comment_tag_list : Option (List id3_comment_tag_node)
  picture_tag_list : Option (List id3_picture_tag_node)
deriving DecidableEq, Repr

/-- Initialiser `id3_init_master_tag`: all three pointers `NULL`. -/
def id3_init_master_tag : id3_master_tag_struct :=
  { text_tag_list := none, comment_tag_list := none, picture_tag_list := none }

/-- One `while (iter_node != NULL)` counting loop of `id3_write_tag`, adding
`10 + num_id3_bytes` per node to the 32-bit `id3v2_header_size`. -/
def _count_size (num_id3_bytes : List Nat) (id3v2_header_size : Nat) : Nat :=
  num_id3_bytes.foldl (fun size n => (size + (10 + n)) % 2 ^ 32) id3v2_header_size

/-- The value of `id3v2_header_size` after the three counting loops of
`id3_write_tag`; a `NULL` list pointer skips its loop. -/
def id3v2_header_size (m : id3_master_tag_struct) : Nat :=
  let size := 0
  let size :=
    match m.text_tag_list with
    | none => size
    | some l => _count_size (l.map (fun n => n.num_id3_bytes)) size
  let size :=
    match m.comment_tag_list with
    | none => size
    | some l => _count_size (l.map (fun n => n.num_id3_bytes)) size
  match m.picture_tag_list with
  | none => size
  | some l => _count_size (l.map (fun n => n.num_id3_bytes)) size

/-- Writer `id3_write_tag`, as the content of the file it creates (the output
file is taken to open). -/
def id3_write_tag (fs : FileSystem) (master_tag_collection : id3_master_tag_struct) : OutFile :=
  let id3v2_header_without_size := [0x49, 0x44, 0x33, 0x03, 0x00, 0x00]
  let id3v2_header_size_hex :=
    _integer_to_four_byte (id3v2_header_size master_tag_collection) _USE_28BIT_FORMAT_SIZE
  let f : OutFile := { bytes := [], fault := false }
  let f := fwrite id3v2_header_without_size f
  let f := fwrite id3v2_header_size_hex f
  let f :=
    match master_tag_collection.text_tag_list with
    | none => f
    | some l => l.foldl _write_text_tag f
  let f :=
    match master_tag_collection.comment_tag_list with
    | none => f
    | some l => l.foldl _write_comment_tag f
  match master_tag_collection.picture_tag_list with
  | none => f
  | some l => l.foldl (_write_picture_tag fs) f

/-! ## Specification vocabulary for the writer -/

/-- The empty output file, before anything is written. -/
def OutFile.empty : OutFile := { bytes := [], fault := false }

/-- A writing step only appends: on a faulted stream it does nothing, and on a
sound stream it adds the bytes it would write to an empty file, faulting when
it would fault there. -/
def Appends (w : OutFile → OutFile) : Prop :=
  ∀ f, w f = if f.fault then f
    else { bytes := f.bytes ++ (w OutFile.empty).bytes, fault := (w OutFile.empty).fault }

/-- The sum the specification gives for the tag size: `10 + num_id3_bytes` over
every entry of every collection that is not `NULL`. -/
def declared_total_size (m : id3_master_tag_struct) : Nat :=
  (((m.text_tag_list.getD []).map (fun n => 10 + n.num_id3_bytes)).sum
    + ((m.comment_tag_list.getD []).map (fun n => 10 + n.num_id3_bytes)).sum)
    + ((m.picture_tag_list.getD []).map (fun n => 10 + n.num_id3_bytes)).sum

/-! ## Specification vocabulary for the store -/

/-- The text lists that a caller can build: the empty list, and the list left
by `id3_text_tag_node_add_update` or `id3_text_tag_node_delete` (whatever they
answer) on a list built before. -/
inductive TextReachable : List id3_text_tag_node → Prop
  | empty : TextReachable []
  | add_update (head : List id3_text_tag_node) (tag_name tag_value : List Nat) :
      TextReachable head →
      TextReachable (id3_text_tag_node_add_update head tag_name tag_value).2
  | delete (head : List id3_text_tag_node) (tag_name : List Nat) :
      TextReachable head → TextReachable (id3_text_tag_node_delete head tag_name).2

/-- The picture lists that the functions below build from the empty list, each
call running against the file system of its moment; `picture_type` is a
`uint8_t`.  A call on a list with a released description compares the bytes
that the block last held. -/
inductive PictureReachable : List id3_picture_tag_node → Prop
  | empty : PictureReachable []
  | add_update (fs : FileSystem) (head : List id3_picture_tag_node) (mime_type : List Nat)
      (picture_type : Nat) (description : List Nat)
      (picture_file_path picture_binary_data : Option (List Nat))
      (picture_binary_data_bytes : Nat) :
      picture_type < 256 → PictureReachable head →
      PictureReachable (id3_picture_tag_node_add_update fs head mime_type picture_type
        description picture_file_path picture_binary_data picture_binary_data_bytes).2
  | delete (head : List id3_picture_tag_node) (picture_type : Nat) (description : List Nat) :
      PictureReachable head →
      PictureReachable (id3_picture_tag_node_delete head picture_type description).2

/-- A picture list in which no entry points to a released block. -/
def picture_list_live (head : List id3_picture_tag_node) : Prop :=
  ∀ e ∈ head, e.description_released = false ∧ e.picture_file_path_released = false

instance picture_list_live_decidable (head : List id3_picture_tag_node) :
    Decidable (picture_list_live head) :=
  List.decidableBAll _ head

/-- The picture lists that a caller can build by calls that each run on a list
in which no entry points to a released block: these are the calls to which C
gives a meaning.  The list that such a call leaves may itself hold a released
block; no further call is then made on it. -/
inductive PictureLiveReachable : List id3_picture_tag_node → Prop
  | empty : PictureLiveReachable []
  | add_update (fs : FileSystem) (head : List id3_picture_tag_node) (mime_type : List Nat)
      (picture_type : Nat) (description : List Nat)
      (picture_file_path picture_binary_data : Option (List Nat))
      (picture_binary_data_bytes : Nat) :
      picture_type < 256 → picture_list_live head → PictureLiveReachable head →
      PictureLiveReachable (id3_picture_tag_node_add_update fs head mime_type picture_type
        description picture_file_path picture_binary_data picture_binary_data_bytes).2
  | delete (head : List id3_picture_tag_node) (picture_type : Nat) (description : List Nat) :
      picture_list_live head → PictureLiveReachable head →
      PictureLiveReachable (id3_picture_tag_node_delete head picture_type description).2

/-- A description the codec accepts: the classifier does not answer `-1`, and
when it answers `1` the conversion to UTF-16 succeeds. -/
def description_accepted (description : List Nat) : Prop :=
  utf8_contains_multibyte_sequence description ≠ -1
  ∧ (utf8_contains_multibyte_sequence description = 1 →
      (utf8_to_utf16_le description).outcome = UTF16_PARSE_SUCCESS)

/-- The match test of the search loop of `id3_picture_tag_node_add_update`, as
the specification words it: the types are equal and, unless the type is one of
the two icon types, so are the descriptions. -/
def picture_key_matches (picture_type : Nat) (description : List Nat)
    (e : id3_picture_tag_node) : Prop :=
  e.picture_type = picture_type
  ∧ (picture_type = APIC_TYPE_FILE_ICON ∨ picture_type = APIC_TYPE_OTHER_FILE_ICON
      ∨ e.description = description)

/-- A valid call of `id3_picture_tag_node_add_update`: a non-empty mime type,
a picture type up to `0x14`, exactly one of the two image sources, a
description the codec accepts, and a file path (when one is given) that
opens. -/
def picture_call_valid (fs : FileSystem) (mime_type : List Nat) (picture_type : Nat)
    (description : List Nat) (picture_file_path picture_binary_data : Option (List Nat)) :
    Prop :=
  mime_type ≠ [] ∧ picture_type ≤ APIC_TYPE_PUBLISHER_STUDIO_LOGOTYPE
  ∧ picture_file_path.isSome ≠ picture_binary_data.isSome
  ∧ description_accepted description
  ∧ ∀ path, picture_file_path = some path → (fs path).isSome = true

/-- What a metadata pass never writes: every member of the C struct of a
picture entry other than `num_id3_bytes`, `is_utf8` and `description_utf16`. -/
def picture_same_content (a b : id3_picture_tag_node) : Prop :=
  a.mime_type = b.mime_type ∧ a.picture_type = b.picture_type
  ∧ a.description = b.description
  ∧ a.is_picture_stored_as_file = b.is_picture_stored_as_file
  ∧ a.picture_file_path = b.picture_file_path
  ∧ a.picture_binary_data = b.picture_binary_data
  ∧ a.picture_binary_data_bytes = b.picture_binary_data_bytes

/-- The candidate node of `id3_picture_tag_node_add_update` as it stands when
the metadata pass starts. -/
def picture_new_node (mime_type : List Nat) (picture_type : Nat) (description : List Nat)
    (picture_file_path picture_binary_data : Option (List Nat))
    (picture_binary_data_bytes : Nat) : id3_picture_tag_node :=
  match picture_file_path with
  | some path =>
    { mime_type := mime_type, picture_type := picture_type, description := description,
      num_id3_bytes := 0, is_utf8 := 0, description_utf16 := none,
      is_picture_stored_as_file := 1, picture_file_path := some path,
      picture_binary_data := none, picture_binary_data_bytes := 0,
      description_released := false, picture_file_path_released := false }
  | none =>
    { mime_type := mime_type, picture_type := picture_type, description := description,
      num_id3_bytes := 0, is_utf8 := 0, description_utf16 := none,
      is_picture_stored_as_file := 0, picture_file_path := none,
      picture_binary_data := picture_binary_data,
      picture_binary_data_bytes := picture_binary_data_bytes,
      description_released := false, picture_file_path_released := false }

/-- A matching node of `id3_picture_tag_node_add_update` as it stands when the
metadata pass starts: the new mime type, the new description for an icon type,
and the image source that was given; `picture_binary_data_bytes` is the
node's own. -/
def picture_staged_node (iter_node : id3_picture_tag_node) (mime_type : List Nat)
    (picture_type : Nat) (description : List Nat)
    (picture_file_path picture_binary_data : Option (List Nat)) : id3_picture_tag_node :=
  { iter_node with
    mime_type := mime_type
    description :=
      if picture_type = APIC_TYPE_FILE_ICON ∨ picture_type = APIC_TYPE_OTHER_FILE_ICON then
        description
      else iter_node.description
    is_picture_stored_as_file :=
      match picture_file_path, picture_binary_data with
      | _, some _ => 0
      | some _, none => 1
      | none, none => iter_node.is_picture_stored_as_file
    picture_file_path :=
      match picture_file_path with
      | some path => some path
      | none => iter_node.picture_file_path
    picture_binary_data :=
      match picture_binary_data with
      | some data => some data
      | none => iter_node.picture_binary_data }

/-- The node that a successful update leaves in the list: the staged node after
its metadata pass, with the marks of the blocks as the update branch leaves
them.  An icon update has put a new copy of the description in the node; an
update with a path has put a new copy of the path in the node; an update
without a path has released the path that the node still points to. -/
def picture_updated_node (fs : FileSystem) (iter_node : id3_picture_tag_node)
    (mime_type : List Nat) (picture_type : Nat) (description : List Nat)
    (picture_file_path picture_binary_data : Option (List Nat)) : id3_picture_tag_node :=
  { (_picture_node_generate_metadata fs
      (picture_staged_node iter_node mime_type picture_type description picture_file_path
        picture_binary_data)).2 with
    description_released :=
      if picture_type = APIC_TYPE_FILE_ICON ∨ picture_type = APIC_TYPE_OTHER_FILE_ICON then
        false
      else iter_node.description_released
    picture_file_path_released :=
      match picture_file_path with
      | some _ => false
      | none => iter_node.picture_file_path_released || iter_node.picture_file_path.isSome }

/-! ## Specification vocabulary for the codec -/

/-- A Unicode scalar value that a C string can carry: `U+0001..U+D7FF` or
`U+E000..U+10FFFF`. -/
def is_scalar_value (cp : Nat) : Prop :=
  (1 ≤ cp ∧ cp ≤ 0xD7FF) ∨ (0xE000 ≤ cp ∧ cp ≤ 0x10FFFF)

instance (cp : Nat) : Decidable (is_scalar_value cp) := by
  unfold is_scalar_value
  exact inferInstance

/-- The standard (shortest-form) UTF-8 encoding of a codepoint. -/
def utf8_encoding (cp : Nat) : List Nat :=
  if cp < 0x80 then [cp]
  else if cp < 0x800 then [0xC0 + cp / 64, 0x80 + cp % 64]
  else if cp < 0x10000 then [0xE0 + cp / 4096, 0x80 + cp / 64 % 64, 0x80 + cp % 64]
  else [0xF0 + cp / 262144, 0x80 + cp / 4096 % 64, 0x80 + cp / 64 % 64, 0x80 + cp % 64]

/-- The standard UTF-16 encoding of a codepoint: the codepoint itself up to
`0xFFFF`, a surrogate pair above. -/
def utf16_encoding (cp : Nat) : List Nat :=
  if cp ≤ 0xFFFF then [cp]
  else [0xD800 + ((cp - 0x10000) >>> 10), 0xDC00 + ((cp - 0x10000) &&& 0x3FF)]

/-- A byte string that is the well-formed UTF-8 encoding of a sequence of
scalar values. -/
def well_formed_utf8 (s : List Nat) : Prop :=
  ∃ cps : List Nat, (∀ cp ∈ cps, is_scalar_value cp) ∧ s = cps.flatMap utf8_encoding

/-- The swap of the two bytes of a 16-bit unit, as `utf8_to_utf16_be` describes
it: `(value >> 8) | (value << 8)`, stored in a `uint16_t`. -/
def swap_bytes16 (value : Nat) : Nat := ((value >>> 8) ||| (value <<< 8)) % 2 ^ 16

/-- The length the standard lead patterns give a byte: `0xxxxxxx` 1,
`110xxxxx` 2, `1110xxxx` 3, `11110xxx` 4, and 0 for a byte that matches none of
them. -/
def standard_lead_length (b : Nat) : Nat :=
  if b < 0x80 then 1
  else if 0xC0 ≤ b ∧ b < 0xE0 then 2
  else if 0xE0 ≤ b ∧ b < 0xF0 then 3
  else if 0xF0 ≤ b ∧ b < 0xF8 then 4
  else 0

/-- A byte of the form `10xxxxxx`. -/
def is_continuation_byte (c : Nat) : Prop := 0x80 ≤ c ∧ c < 0xC0

instance (c : Nat) : Decidable (is_continuation_byte c) := by
  unfold is_continuation_byte
  exact inferInstance

/-- One structurally valid UTF-8 character: a byte matching a lead pattern,
followed by the `10xxxxxx` bytes the pattern requires, and nothing more. -/
def is_utf8_character (c : List Nat) : Prop :=
  match c with
  | [] => False
  | b :: conts =>
    standard_lead_length b = conts.length + 1 ∧ ∀ x ∈ conts, is_continuation_byte x

instance (c : List Nat) : Decidable (is_utf8_character c) := by
  unfold is_utf8_character
  cases c with
  | nil => exact inferInstance
  | cons b conts => exact inferInstance

/-- A structurally valid UTF-8 string: a sequence of structurally valid
characters, one after the other. -/
def structurally_valid_utf8 (s : List Nat) : Prop :=
  ∃ chars : List (List Nat), (∀ c ∈ chars, is_utf8_character c) ∧ s = chars.flatten

/-- The next `m` bytes exist and each has the form `10xxxxxx`. -/
def continuation_run (m : Nat) (rest : List Nat) : Prop :=
  m ≤ rest.length ∧ ∀ c ∈ rest.take m, is_continuation_byte c

instance (m : Nat) (rest : List Nat) : Decidable (continuation_run m rest) := by
  unfold continuation_run
  exact inferInstance

/-- The scan from character start to character start meets a malformed
character: a start byte in `B8..BF` or `F8..FF`; or a start byte announcing
`k > 1` bytes (by `_utf8_char_length`) of which one of the next `k - 1` bytes
does not have the form `10xxxxxx`, the string ending first included; or a
character of `k` bytes as announced, after which the scan goes on from the next
character start and meets one there. -/
inductive ScanMeetsMalformed : List Nat → Prop
  | bad_start (b : Nat) (rest : List Nat) :
      (0xB8 ≤ b ∧ b ≤ 0xBF) ∨ (0xF8 ≤ b ∧ b ≤ 0xFF) → ScanMeetsMalformed (b :: rest)
  | bad_continuation (b : Nat) (rest : List Nat) :
      1 < _utf8_char_length b → ¬ continuation_run (_utf8_char_length b - 1) rest →
      ScanMeetsMalformed (b :: rest)
  | later (b : Nat) (rest : List Nat) :
      _utf8_char_length b ≠ 0 → continuation_run (_utf8_char_length b - 1) rest →
      ScanMeetsMalformed (rest.drop (_utf8_char_length b - 1)) →
      ScanMeetsMalformed (b :: rest)

/-! ## Bit-level facts for the size encoder -/

/-- Masking with the bits `k..31` keeps bits `k..31` of the 32-bit value. -/
theorem and_high_mask (x k : Nat) (hk : k ≤ 32) :
    x &&& (2 ^ k * (2 ^ (32 - k) - 1)) = 2 ^ k * ((x % 2 ^ 32) / 2 ^ k) := by
  apply Nat.eq_of_testBit_eq
  intro i
  rw [Nat.testBit_and, Nat.testBit_mul_pow_two, Nat.testBit_mul_pow_two,
    Nat.testBit_two_pow_sub_one, ← Nat.shiftRight_eq_div_pow, Nat.testBit_shiftRight,
    Nat.testBit_mod_two_pow]
  by_cases h1 : k ≤ i
  · have e : k + (i - k) = i := by omega
    rw [e]
    by_cases h2 : i < 32
    · have h3 : i - k < 32 - k := by omega
      simp [h1, h2, h3]
    · have h3 : ¬ (i - k < 32 - k) := by omega
      simp [h1, h2, h3]
  · simp [h1]

/-- A bitwise or of two numbers occupying disjoint bit ranges is their sum. -/
theorem lor_eq_add_of_lt (a b k : Nat) (ha : a < 2 ^ k) (hb : b % 2 ^ k = 0) :
    a ||| b = a + b := by
  obtain ⟨c, rfl⟩ := Nat.dvd_of_mod_eq_zero hb
  rw [Nat.lor_comm, ← Nat.mul_add_lt_is_or ha c, Nat.add_comm]

/-- One shift round of the 28-bit format, in arithmetic form: the low `k` bits
stay, bits `k..30` move up by one, bit 31 is lost. -/
theorem spread_round (x k : Nat) (hk : k + 1 ≤ 32) :
    (x &&& (2 ^ k - 1)) ||| (((x &&& (2 ^ k * (2 ^ (32 - k) - 1))) <<< 1) % 2 ^ 32)
      = x % 2 ^ k + 2 ^ (k + 1) * (((x % 2 ^ 32) / 2 ^ k) % 2 ^ (31 - k)) := by
  rw [and_high_mask x k (by omega), Nat.and_pow_two_sub_one_eq_mod, Nat.shiftLeft_eq]
  have e : 2 ^ k * (x % 2 ^ 32 / 2 ^ k) * 2 ^ 1 % 2 ^ 32
      = 2 ^ (k + 1) * (((x % 2 ^ 32) / 2 ^ k) % 2 ^ (31 - k)) := by
    have : (2:Nat) ^ 32 = 2 ^ (k + 1) * 2 ^ (31 - k) := by
      rw [← Nat.pow_add]; congr 1; omega
    rw [this, ← Nat.mul_mod_mul_left]
    congr 1
    rw [Nat.pow_succ]; ring
  rw [e]
  apply lor_eq_add_of_lt _ _ (k + 1)
  · calc x % 2 ^ k < 2 ^ k := Nat.mod_lt _ (by positivity)
      _ ≤ 2 ^ (k + 1) := Nat.pow_le_pow_right (by omega) (by omega)
  · exact Nat.mul_mod_right _ _

theorem spread_round7 (x : Nat) :
    (x &&& 0x0000007F) ||| (((x &&& 0xFFFFFF80) <<< 1) % 2 ^ 32)
      = x % 128 + 256 * ((x % 4294967296) / 128 % 16777216) := by
  have h := spread_round x 7 (by omega)
  norm_num at h ⊢
  exact h

theorem spread_round15 (x : Nat) :
    (x &&& 0x00007FFF) ||| (((x &&& 0xFFFF8000) <<< 1) % 2 ^ 32)
      = x % 32768 + 65536 * ((x % 4294967296) / 32768 % 65536) := by
  have h := spread_round x 15 (by omega)
  norm_num at h ⊢
  exact h

theorem spread_round23 (x : Nat) :
    (x &&& 0x007FFFFF) ||| (((x &&& 0xFF800000) <<< 1) % 2 ^ 32)
      = x % 8388608 + 16777216 * ((x % 4294967296) / 8388608 % 256) := by
  have h := spread_round x 23 (by omega)
  norm_num at h ⊢
  exact h

/-- After the three rounds the four 7-bit groups of the input sit at bits
0, 8, 16 and 24; the top byte also receives bit 28. -/
theorem spread_28bit_closed (n : Nat) :
    _spread_28bit n = n % 128 + 256 * ((n / 128) % 128) + 65536 * ((n / 16384) % 128)
      + 16777216 * ((n / 2097152) % 256) := by
  simp only [_spread_28bit, spread_round7, spread_round15, spread_round23]
  have d1 : n / 128 / 128 = n / 16384 := Nat.div_div_eq_div_mul n 128 128
  have d2 : n / 16384 / 128 = n / 2097152 := Nat.div_div_eq_div_mul n 16384 128
  generalize h1 : n % 128 + 256 * (n % 4294967296 / 128 % 16777216) = c1
  have e1 : c1 % 32768 = n % 128 + 256 * (n / 128 % 128) := by omega
  have e2 : c1 % 4294967296 / 32768 % 65536 = n / 16384 % 65536 := by omega
  rw [e1, e2]
  clear e1 e2 h1
  generalize h2 : n % 128 + 256 * (n / 128 % 128) + 65536 * (n / 16384 % 65536) = c2
  have e3 : c2 % 8388608 = n % 128 + 256 * (n / 128 % 128) + 65536 * (n / 16384 % 128) := by
    omega
  have e4 : c2 % 4294967296 / 8388608 % 256 = n / 2097152 % 256 := by omega
  rw [e3, e4]

/-- The byte extraction at the end of `_integer_to_four_byte`, arithmetically. -/
theorem four_bytes_of (c : Nat) :
    [(c >>> 24) &&& 0xFF, (c >>> 16) &&& 0xFF, (c >>> 8) &&& 0xFF, c &&& 0xFF]
      = [c / 16777216 % 256, c / 65536 % 256, c / 256 % 256, c % 256] := by
  have m : ∀ y : Nat, y &&& 0xFF = y % 256 := fun y => Nat.and_pow_two_sub_one_eq_mod y 8
  simp only [m, Nat.shiftRight_eq_div_pow]

/-- Closed form of the 28-bit (synchsafe) encoding. -/
theorem integer_to_four_byte_28bit (n : Nat) :
    _integer_to_four_byte n _USE_28BIT_FORMAT_SIZE
      = [n / 2097152 % 256, n / 16384 % 128, n / 128 % 128, n % 128] := by
  simp only [_integer_to_four_byte, if_true, four_bytes_of, spread_28bit_closed]
  have h0 : n % 128 < 128 := Nat.mod_lt _ (by omega)
  have h1 : n / 128 % 128 < 128 := Nat.mod_lt _ (by omega)
  have h2 : n / 16384 % 128 < 128 := Nat.mod_lt _ (by omega)
  have h3 : n / 2097152 % 256 < 256 := Nat.mod_lt _ (by omega)
  generalize n % 128 = g0 at *
  generalize n / 128 % 128 = g1 at *
  generalize n / 16384 % 128 = g2 at *
  generalize n / 2097152 % 256 = g3 at *
  congr 1
  · omega
  · congr 1
    · omega
    · congr 1
      · omega
      · congr 1
        omega

/-- Closed form of the 32-bit (plain big-endian) encoding. -/
theorem integer_to_four_byte_32bit (n : Nat) :
    _integer_to_four_byte n _USE_32BIT_FORMAT_SIZE
      = [n / 16777216 % 256, n / 65536 % 256, n / 256 % 256, n % 256] := by
  simp [_integer_to_four_byte, _USE_32BIT_FORMAT_SIZE, _USE_28BIT_FORMAT_SIZE, four_bytes_of]

/-- The encoder only looks at the low 32 bits of its argument. -/
theorem integer_to_four_byte_mod (n format_as : Nat) :
    _integer_to_four_byte (n % 2 ^ 32) format_as = _integer_to_four_byte n format_as := by
  by_cases h : format_as = _USE_28BIT_FORMAT_SIZE
  · subst h
    rw [integer_to_four_byte_28bit, integer_to_four_byte_28bit]
    congr 1
    · omega
    · congr 1
      · omega
      · congr 1
        · omega
        · congr 1
          omega
  · simp only [_integer_to_four_byte, if_neg h, four_bytes_of]
    congr 1
    · omega
    · congr 1
      · omega
      · congr 1
        · omega
        · congr 1
          omega

/-! ## Facts about the UTF codec -/

theorem utf16_units_length_le (cp : Nat) : (_utf16_units cp).length ≤ 2 := by
  unfold _utf16_units; split <;> simp

theorem utf16_units_length_one (cp : Nat) (h : cp < 2 ^ 16) : (_utf16_units cp).length = 1 := by
  unfold _utf16_units
  rw [if_pos (by omega)]
  rfl

/-- Both loops of the conversion write at most one unit per byte read; the
continuation loop may use the slot of the first byte of its character. -/
theorem utf16_loop_length_le (s : List Nat) (hs : ∀ b ∈ s, b < 256) :
    (∀ out u, utf8_to_utf16_le_loop s out = some u → u.length ≤ out.length + s.length)
    ∧ (∀ n cp out u, utf8_to_utf16_le_cont n cp s out = some u →
        u.length ≤ out.length + s.length + 1) := by
  induction s with
  | nil =>
    refine ⟨fun out u h => ?_, fun n cp out u h => ?_⟩
    · rw [utf8_to_utf16_le_loop] at h
      injection h with h
      subst h
      simp
    · rw [utf8_to_utf16_le_cont] at h
      cases h
  | cons c s ih =>
    have hc : c < 256 := hs c (List.mem_cons_self _ _)
    obtain ⟨ihl, ihc⟩ := ih (fun b hb => hs b (List.mem_cons_of_mem _ hb))
    refine ⟨fun out u h => ?_, fun n cp out u h => ?_⟩
    · rw [utf8_to_utf16_le_loop] at h
      simp only [List.length_cons]
      split at h
      · cases h
      · split at h
        · have := ihl _ _ h
          rw [List.length_append, utf16_units_length_one c (by omega)] at this
          omega
        · split at h
          · have := ihc _ _ _ _ h
            omega
          · split at h
            · have := ihc _ _ _ _ h
              omega
            · have := ihc _ _ _ _ h
              omega
    · simp only [List.length_cons]
      cases n with
      | zero =>
        rw [utf8_to_utf16_le_cont] at h
        split at h
        · cases h
        · rename_i cp2 _
          have := ihl _ _ h
          have := utf16_units_length_le cp2
          rw [List.length_append] at *
          omega
      | succ n =>
        rw [utf8_to_utf16_le_cont] at h
        split at h
        · cases h
        · have := ihc _ _ _ _ h
          omega

/-- The conversion returns one of its two codes; on success the computed
length is the number of units written and the buffer ends with the unit 0. -/
theorem utf8_to_utf16_le_cases (s : List Nat) :
    (utf8_to_utf16_le_loop s [] = none
      ∧ utf8_to_utf16_le s = ⟨UTF16_PARSE_UTF8_MALFORMED, none, 0⟩)
    ∨ ∃ units, utf8_to_utf16_le_loop s [] = some units
      ∧ utf8_to_utf16_le s = ⟨UTF16_PARSE_SUCCESS, some (units ++ [0]), units.length % 2 ^ 32⟩ := by
  unfold utf8_to_utf16_le
  cases h : utf8_to_utf16_le_loop s [] with
  | none => exact Or.inl ⟨rfl, rfl⟩
  | some units => exact Or.inr ⟨units, rfl, rfl⟩

/-- The computed length never exceeds the byte length of the input. -/
theorem utf16_computed_length_le (s : List Nat) (hs : ∀ b ∈ s, b < 256) :
    (utf8_to_utf16_le s).utf16_computed_length ≤ s.length := by
  rcases utf8_to_utf16_le_cases s with ⟨_, h⟩ | ⟨units, hl, h⟩
  · rw [h]; exact Nat.zero_le _
  · rw [h]
    have := (utf16_loop_length_le s hs).1 [] units hl
    simp only [List.length_nil, Nat.zero_add] at this
    exact Nat.le_trans (Nat.mod_le _ _) this

/-- The classifier returns `-1`, `0` or `1`. -/
theorem utf8_contains_multibyte_sequence_range (s : List Nat) :
    utf8_contains_multibyte_sequence s = -1 ∨ utf8_contains_multibyte_sequence s = 0
      ∨ utf8_contains_multibyte_sequence s = 1 := by
  induction s with
  | nil => right; left; rfl
  | cons b rest ih =>
    rw [utf8_contains_multibyte_sequence]
    split
    · left; rfl
    · exact ih
    · right; right; rfl

/-! ## Facts about the text store -/

/-- A failing metadata pass hands the node back as it received it. -/
theorem text_metadata_failure (node : id3_text_tag_node)
    (h : (_text_node_generate_metadata node).1 ≠ UTF8_PARSE_SUCCESS) :
    (_text_node_generate_metadata node).2 = node := by
  unfold _text_node_generate_metadata at h ⊢
  simp only at h ⊢
  by_cases h1 : utf8_contains_multibyte_sequence node.tag_value = -1
  · rw [if_pos h1]
  · rw [if_neg h1] at h ⊢
    by_cases h2 : utf8_contains_multibyte_sequence node.tag_value = 1
    · rw [if_pos h2] at h ⊢
      by_cases h3 : (utf8_to_utf16_le node.tag_value).outcome ≠ UTF16_PARSE_SUCCESS
      · rw [if_pos h3]
      · rw [if_neg h3] at h
        exact absurd rfl h
    · rw [if_neg h2] at h
      exact absurd rfl h

/-- A successful metadata pass keeps name and value and sets the flag and the
size from the encoding chosen by the classifier. -/
theorem text_metadata_success (node : id3_text_tag_node)
    (h : (_text_node_generate_metadata node).1 = UTF8_PARSE_SUCCESS) :
    (_text_node_generate_metadata node).2.tag_name = node.tag_name
    ∧ (_text_node_generate_metadata node).2.tag_value = node.tag_value
    ∧ (utf8_contains_multibyte_sequence node.tag_value = 0 →
        (_text_node_generate_metadata node).2.num_id3_bytes = (2 + node.tag_value.length) % 2 ^ 32
        ∧ (_text_node_generate_metadata node).2.is_utf8 = 0
        ∧ (_text_node_generate_metadata node).2.tag_value_utf16 = none)
    ∧ (utf8_contains_multibyte_sequence node.tag_value ≠ 0 →
        (_text_node_generate_metadata node).2.num_id3_bytes
          = (1 + 2 + 2 * (utf8_to_utf16_le node.tag_value).utf16_computed_length + 2) % 2 ^ 32
        ∧ (_text_node_generate_metadata node).2.is_utf8 = 1
        ∧ (_text_node_generate_metadata node).2.tag_value_utf16
          = (utf8_to_utf16_le node.tag_value).utf16_output_string
        ∧ (utf8_to_utf16_le node.tag_value).outcome = UTF16_PARSE_SUCCESS) := by
  unfold _text_node_generate_metadata at h ⊢
  simp only at h ⊢
  rcases utf8_contains_multibyte_sequence_range node.tag_value with hc | hc | hc
  · rw [if_pos hc] at h
    cases h
  · have h1 : ¬ (utf8_contains_multibyte_sequence node.tag_value = -1) := by rw [hc]; decide
    have h2 : ¬ (utf8_contains_multibyte_sequence node.tag_value = 1) := by rw [hc]; decide
    rw [if_neg h1, if_neg h2]
    refine ⟨rfl, rfl, fun _ => ⟨?_, rfl, rfl⟩, fun hne => absurd hc hne⟩
    simp only [_ENCODING_BYTE_LENGTH, _ENCODING_ISO_NULL_LENGTH]
    congr 1
    omega
  · have h1 : ¬ (utf8_contains_multibyte_sequence node.tag_value = -1) := by rw [hc]; decide
    rw [if_neg h1, if_pos hc] at h ⊢
    split
    · rename_i hout
      rw [if_pos hout] at h
      rcases utf8_to_utf16_le_cases node.tag_value with ⟨_, e⟩ | ⟨units, _, e⟩
      · rw [e] at h
        cases h
      · rw [e] at hout
        exact absurd rfl hout
    · rename_i hout
      refine ⟨rfl, rfl, fun h0 => ?_, fun _ => ⟨?_, rfl, rfl, not_not.mp hout⟩⟩
      · rw [hc] at h0
        cases h0
      · simp only [_ENCODING_BYTE_LENGTH, _ENCODING_UNICODE_BOM_LENGTH,
          _ENCODING_UNICODE_NULL_LENGTH]
        congr 1
        omega

/-- The codes a metadata pass can return. -/
theorem text_metadata_codes (node : id3_text_tag_node) :
    (_text_node_generate_metadata node).1 = UTF8_PARSE_SUCCESS
    ∨ (_text_node_generate_metadata node).1 = UTF8_PARSE_MALFORMED
    ∨ (_text_node_generate_metadata node).1 = UTF16_PARSE_UTF8_MALFORMED := by
  unfold _text_node_generate_metadata
  simp only
  by_cases h1 : utf8_contains_multibyte_sequence node.tag_value = -1
  · rw [if_pos h1]; right; left; rfl
  · rw [if_neg h1]
    by_cases h2 : utf8_contains_multibyte_sequence node.tag_value = 1
    · rw [if_pos h2]
      by_cases h3 : (utf8_to_utf16_le node.tag_value).outcome ≠ UTF16_PARSE_SUCCESS
      · rw [if_pos h3]
        rcases utf8_to_utf16_le_cases node.tag_value with ⟨_, e⟩ | ⟨units, _, e⟩
        · right; right
          show (utf8_to_utf16_le node.tag_value).outcome = _
          rw [e]
        · rw [e] at h3
          exact absurd rfl h3
      · rw [if_neg h3]; left; rfl
    · rw [if_neg h2]; left; rfl

/-- The three shapes of a walk over a non-empty list, and the two over the
empty one. -/
theorem text_walk_nil_fail (tag_name tag_value : List Nat)
    (hf : (_text_node_generate_metadata
      ⟨tag_name, tag_value, 0, 0, none⟩).1 ≠ UTF8_PARSE_SUCCESS) :
    _text_add_update_walk tag_name tag_value []
      = ((_text_node_generate_metadata ⟨tag_name, tag_value, 0, 0, none⟩).1, []) := by
  rw [_text_add_update_walk]
  exact if_pos hf

theorem text_walk_nil_ok (tag_name tag_value : List Nat)
    (hf : (_text_node_generate_metadata
      ⟨tag_name, tag_value, 0, 0, none⟩).1 = UTF8_PARSE_SUCCESS) :
    _text_add_update_walk tag_name tag_value []
      = (NODE_ADD_SUCCESS, [(_text_node_generate_metadata ⟨tag_name, tag_value, 0, 0, none⟩).2]) := by
  rw [_text_add_update_walk]
  exact if_neg (not_not.mpr hf)

theorem text_walk_cons_fail (tag_name tag_value : List Nat) (iter_node : id3_text_tag_node)
    (next : List id3_text_tag_node) (hm : iter_node.tag_name = tag_name)
    (hf : (_text_node_generate_metadata { iter_node with tag_value := tag_value }).1
      ≠ UTF8_PARSE_SUCCESS) :
    _text_add_update_walk tag_name tag_value (iter_node :: next)
      = ((_text_node_generate_metadata { iter_node with tag_value := tag_value }).1,
          iter_node :: next) := by
  rw [_text_add_update_walk]
  simp only [if_pos hm, if_pos hf, text_metadata_failure _ hf]

theorem text_walk_cons_ok (tag_name tag_value : List Nat) (iter_node : id3_text_tag_node)
    (next : List id3_text_tag_node) (hm : iter_node.tag_name = tag_name)
    (hf : (_text_node_generate_metadata { iter_node with tag_value := tag_value }).1
      = UTF8_PARSE_SUCCESS) :
    _text_add_update_walk tag_name tag_value (iter_node :: next)
      = (NODE_UPDATE_SUCCESS,
          (_text_node_generate_metadata { iter_node with tag_value := tag_value }).2 :: next) := by
  rw [_text_add_update_walk]
  simp only [if_pos hm, if_neg (not_not.mpr hf)]

theorem text_walk_cons_skip (tag_name tag_value : List Nat) (iter_node : id3_text_tag_node)
    (next : List id3_text_tag_node) (hm : iter_node.tag_name ≠ tag_name) :
    _text_add_update_walk tag_name tag_value (iter_node :: next)
      = ((_text_add_update_walk tag_name tag_value next).1,
          iter_node :: (_text_add_update_walk tag_name tag_value next).2) := by
  rw [_text_add_update_walk]
  simp only [if_neg hm]

/-- A code of a failing metadata pass is not a success code of the store. -/
theorem text_metadata_code_not_node_success (node : id3_text_tag_node) :
    (_text_node_generate_metadata node).1 ≠ NODE_ADD_SUCCESS
    ∧ (_text_node_generate_metadata node).1 ≠ NODE_UPDATE_SUCCESS := by
  rcases text_metadata_codes node with h | h | h <;> rw [h] <;> decide

/-! ## Facts about the writer -/

theorem appends_id : Appends (fun f => f) := by
  intro f
  cases f with
  | mk bytes fault => cases fault <;> simp [OutFile.empty]

theorem appends_fault : Appends (fun f => { f with fault := true }) := by
  intro f
  cases f with
  | mk bytes fault => cases fault <;> simp [OutFile.empty]

theorem appends_fwrite (data : List Nat) : Appends (fun f => fwrite data f) := by
  intro f
  cases f with
  | mk bytes fault => cases fault <;> simp [fwrite, OutFile.empty]

theorem appends_ite (c : Prop) [Decidable c] (a b : OutFile → OutFile)
    (ha : Appends a) (hb : Appends b) : Appends (fun f => if c then a f else b f) := by
  by_cases h : c
  · simpa [h] using ha
  · simpa [h] using hb

/-- Steps that only append compose. -/
theorem appends_then (w1 w2 : OutFile → OutFile) (h1 : Appends w1) (h2 : Appends w2) :
    Appends (fun f => w2 (w1 f)) := by
  intro f
  have e1 := h1 f
  have e0 := h1 OutFile.empty
  by_cases hf : f.fault = true
  · rw [if_pos hf] at e1
    simp only [e1, h2 f, if_pos hf]
  · rw [if_neg hf] at e1
    simp only [if_neg hf]
    have hz : OutFile.empty.fault = false := rfl
    simp only [hz, Bool.false_eq_true, if_false] at e0
    rw [e1, h2 (w1 OutFile.empty)]
    rw [h2 { bytes := f.bytes ++ (w1 OutFile.empty).bytes, fault := (w1 OutFile.empty).fault }]
    by_cases hw : (w1 OutFile.empty).fault = true
    · simp [hw]
    · simp [hw, List.append_assoc]

theorem appends_fprintf (format : List Nat) : Appends (fun f => fprintf format f) := by
  unfold fprintf
  cases _format_output format with
  | none => exact appends_fault
  | some s => exact appends_fwrite s

theorem appends_write_utf16_units (units : List Nat) :
    Appends (fun f => _write_utf16_units units f) := by
  induction units with
  | nil => exact appends_fault
  | cons u rest ih =>
    have e : (fun f => _write_utf16_units (u :: rest) f)
        = fun f => if u = 0 then f
            else _write_utf16_units rest (fwrite [u % 256, (u / 256) % 256] f) := by
      funext f
      rw [_write_utf16_units]
    rw [e]
    exact appends_ite _ _ _ appends_id (appends_then _ _ (appends_fwrite _) ih)

theorem appends_write_utf16 (buffer : Option (List Nat)) :
    Appends (fun f => _write_utf16 buffer f) := by
  cases buffer with
  | none => exact appends_fault
  | some units => exact appends_write_utf16_units units

theorem appends_write_text_tag (node : id3_text_tag_node) :
    Appends (fun f => _write_text_tag f node) := by
  unfold _write_text_tag
  dsimp only
  apply appends_ite
  · repeat (first
      | exact appends_fwrite _
      | exact appends_fprintf _
      | exact appends_write_utf16 _
      | apply appends_then)
  · repeat (first
      | exact appends_fwrite _
      | exact appends_fprintf _
      | exact appends_write_utf16 _
      | apply appends_then)

theorem appends_write_comment_tag (node : id3_comment_tag_node) :
    Appends (fun f => _write_comment_tag f node) := by
  unfold _write_comment_tag
  dsimp only
  apply appends_ite
  · repeat (first
      | exact appends_fwrite _
      | exact appends_fprintf _
      | exact appends_write_utf16 _
      | apply appends_then)
  · repeat (first
      | exact appends_fwrite _
      | exact appends_fprintf _
      | exact appends_write_utf16 _
      | apply appends_then)

theorem appends_write_picture_data (fs : FileSystem) (node : id3_picture_tag_node) :
    Appends (fun f => _write_picture_data fs f node) := by
  unfold _write_picture_data
  apply appends_ite
  · cases node.picture_file_path.bind fs with
    | none => exact appends_fault
    | some content => exact appends_fwrite content
  · cases node.picture_binary_data with
    | none => exact appends_ite _ _ _ appends_id appends_fault
    | some data => exact appends_ite _ _ _ (appends_fwrite _) appends_fault

theorem appends_write_picture_tag (fs : FileSystem) (node : id3_picture_tag_node) :
    Appends (fun f => _write_picture_tag fs f node) := by
  unfold _write_picture_tag
  dsimp only
  apply appends_then _ _ _ (appends_write_picture_data fs node)
  apply appends_ite
  · repeat (first
      | exact appends_fwrite _
      | exact appends_fprintf _
      | exact appends_write_utf16 _
      | apply appends_then)
  · repeat (first
      | exact appends_fwrite _
      | exact appends_fprintf _
      | exact appends_write_utf16 _
      | apply appends_then)

theorem appends_foldl {α : Type} (w : OutFile → α → OutFile)
    (hw : ∀ n, Appends (fun f => w f n)) (l : List α) : Appends (fun f => l.foldl w f) := by
  induction l with
  | nil => exact appends_id
  | cons n l ih => exact appends_then _ _ (hw n) ih

/-- A step that ends on a sound stream started on one, wrote what it writes to
an empty file, and did not fault there. -/
theorem appends_sound (w : OutFile → OutFile) (hw : Appends w) (f : OutFile)
    (h : (w f).fault = false) :
    f.fault = false ∧ (w OutFile.empty).fault = false
      ∧ (w f).bytes = f.bytes ++ (w OutFile.empty).bytes := by
  rw [hw f] at h ⊢
  by_cases hf : f.fault = true
  · rw [if_pos hf] at h
    rw [hf] at h
    cases h
  · rw [if_neg hf] at h ⊢
    exact ⟨by simpa using hf, h, rfl⟩

/-- A run of frame writers that ends sound wrote the frames one after the
other, in list order. -/
theorem foldl_bytes {α : Type} (w : OutFile → α → OutFile)
    (hw : ∀ n, Appends (fun f => w f n)) (l : List α)
    (h : (l.foldl w OutFile.empty).fault = false) :
    (l.foldl w OutFile.empty).bytes = l.flatMap (fun n => (w OutFile.empty n).bytes) := by
  induction l with
  | nil => rfl
  | cons n l ih =>
    rw [List.foldl_cons] at h ⊢
    obtain ⟨h1, h2, h3⟩ := appends_sound _ (appends_foldl w hw l) (w OutFile.empty n) h
    rw [h3, ih h2, List.flatMap_cons]

theorem count_size_mod (l : List Nat) (size : Nat) :
    _count_size l size % 2 ^ 32 = (size + (l.map (fun n => 10 + n)).sum) % 2 ^ 32 := by
  induction l generalizing size with
  | nil => simp [_count_size]
  | cons n l ih =>
    have e : _count_size (n :: l) size = _count_size l ((size + (10 + n)) % 2 ^ 32) := rfl
    rw [e, ih, List.map_cons, List.sum_cons]
    norm_num
    omega

theorem count_size_lt (l : List Nat) (size : Nat) (h : size < 2 ^ 32) :
    _count_size l size < 2 ^ 32 := by
  induction l generalizing size with
  | nil => exact h
  | cons n l ih =>
    have e : _count_size (n :: l) size = _count_size l ((size + (10 + n)) % 2 ^ 32) := rfl
    rw [e]
    exact ih _ (Nat.mod_lt _ (by norm_num))

/-- A `NULL` list pointer counts like a pointer to an empty list. -/
theorem header_size_eq (m : id3_master_tag_struct) :
    id3v2_header_size m =
      _count_size ((m.picture_tag_list.getD []).map (fun n => n.num_id3_bytes))
        (_count_size ((m.comment_tag_list.getD []).map (fun n => n.num_id3_bytes))
          (_count_size ((m.text_tag_list.getD []).map (fun n => n.num_id3_bytes)) 0)) := by
  obtain ⟨t, c, p⟩ := m
  cases t <;> cases c <;> cases p <;> rfl

/-- The 32-bit counter of `id3_write_tag` holds the declared total modulo
`2 ^ 32`. -/
theorem header_size_mod (m : id3_master_tag_struct) :
    id3v2_header_size m = declared_total_size m % 2 ^ 32 := by
  rw [header_size_eq]
  have h1 := count_size_lt ((m.text_tag_list.getD []).map (fun n => n.num_id3_bytes)) 0
    (by norm_num)
  have h2 := count_size_lt ((m.comment_tag_list.getD []).map (fun n => n.num_id3_bytes)) _ h1
  have h3 := count_size_lt ((m.picture_tag_list.getD []).map (fun n => n.num_id3_bytes)) _ h2
  have e1 := count_size_mod ((m.text_tag_list.getD []).map (fun n => n.num_id3_bytes)) 0
  have e2 := count_size_mod ((m.comment_tag_list.getD []).map (fun n => n.num_id3_bytes))
    (_count_size ((m.text_tag_list.getD []).map (fun n => n.num_id3_bytes)) 0)
  have e3 := count_size_mod ((m.picture_tag_list.getD []).map (fun n => n.num_id3_bytes))
    (_count_size ((m.comment_tag_list.getD []).map (fun n => n.num_id3_bytes))
      (_count_size ((m.text_tag_list.getD []).map (fun n => n.num_id3_bytes)) 0))
  simp only [List.map_map] at e1 e2 e3
  unfold declared_total_size
  have f1 : ((fun n => 10 + n) ∘ fun n : id3_text_tag_node => n.num_id3_bytes)
      = fun n => 10 + n.num_id3_bytes := rfl
  have f2 : ((fun n => 10 + n) ∘ fun n : id3_comment_tag_node => n.num_id3_bytes)
      = fun n => 10 + n.num_id3_bytes := rfl
  have f3 : ((fun n => 10 + n) ∘ fun n : id3_picture_tag_node => n.num_id3_bytes)
      = fun n => 10 + n.num_id3_bytes := rfl
  rw [f1] at e1
  rw [f2] at e2
  rw [f3] at e3
  norm_num at h1 h2 h3 e1 e2 e3 ⊢
  omega

/-- The writer as the 10-byte main header followed by the three runs of frame
writers, a `NULL` pointer running over no node. -/
theorem write_tag_eq (fs : FileSystem) (m : id3_master_tag_struct) :
    id3_write_tag fs m =
      (m.picture_tag_list.getD []).foldl (_write_picture_tag fs)
        ((m.comment_tag_list.getD []).foldl _write_comment_tag
          ((m.text_tag_list.getD []).foldl _write_text_tag
            { bytes := [0x49, 0x44, 0x33, 0x03, 0x00, 0x00]
                ++ _integer_to_four_byte (id3v2_header_size m) _USE_28BIT_FORMAT_SIZE,
              fault := false })) := by
  obtain ⟨t, c, p⟩ := m
  cases t <;> cases c <;> cases p <;> rfl

theorem integer_to_four_byte_length (n format_as : Nat) :
    (_integer_to_four_byte n format_as).length = 4 := rfl

/-! ## The text store: claims C1, C2 -/

/-- The walk answers `NODE_ADD_SUCCESS`, `NODE_UPDATE_SUCCESS`, or leaves the
list as it found it. -/
theorem text_walk_failure (tag_name tag_value : List Nat) (head : List id3_text_tag_node)
    (h1 : (_text_add_update_walk tag_name tag_value head).1 ≠ NODE_ADD_SUCCESS)
    (h2 : (_text_add_update_walk tag_name tag_value head).1 ≠ NODE_UPDATE_SUCCESS) :
    (_text_add_update_walk tag_name tag_value head).2 = head := by
  induction head with
  | nil =>
    by_cases hf : (_text_node_generate_metadata
        ⟨tag_name, tag_value, 0, 0, none⟩).1 = UTF8_PARSE_SUCCESS
    · rw [text_walk_nil_ok _ _ hf] at h1
      exact absurd rfl h1
    · rw [text_walk_nil_fail _ _ hf]
  | cons iter_node next ih =>
    by_cases hm : iter_node.tag_name = tag_name
    · by_cases hf : (_text_node_generate_metadata { iter_node with tag_value := tag_value }).1
          = UTF8_PARSE_SUCCESS
      · rw [text_walk_cons_ok _ _ _ _ hm hf] at h2
        exact absurd rfl h2
      · rw [text_walk_cons_fail _ _ _ _ hm hf]
    · rw [text_walk_cons_skip _ _ _ _ hm] at h1 h2 ⊢
      rw [ih h1 h2]

/-- After a successful walk the first node carrying the name holds the new
value together with the metadata of a successful pass over it. -/
theorem text_walk_success (tag_name tag_value : List Nat) (head : List id3_text_tag_node)
    (hok : (_text_add_update_walk tag_name tag_value head).1 = NODE_ADD_SUCCESS
      ∨ (_text_add_update_walk tag_name tag_value head).1 = NODE_UPDATE_SUCCESS) :
    ∃ node : id3_text_tag_node, node.tag_value = tag_value
      ∧ (_text_node_generate_metadata node).1 = UTF8_PARSE_SUCCESS
      ∧ (_text_add_update_walk tag_name tag_value head).2.find?
          (fun n => decide (n.tag_name = tag_name))
        = some (_text_node_generate_metadata node).2 := by
  induction head with
  | nil =>
    by_cases hf : (_text_node_generate_metadata
        ⟨tag_name, tag_value, 0, 0, none⟩).1 = UTF8_PARSE_SUCCESS
    · rw [text_walk_nil_ok _ _ hf]
      refine ⟨_, rfl, hf, ?_⟩
      have hn := (text_metadata_success _ hf).1
      exact List.find?_cons_of_pos _ (by rw [hn]; exact decide_eq_true rfl)
    · rw [text_walk_nil_fail _ _ hf] at hok
      have := text_metadata_code_not_node_success ⟨tag_name, tag_value, 0, 0, none⟩
      rcases hok with hok | hok
      · exact absurd hok this.1
      · exact absurd hok this.2
  | cons iter_node next ih =>
    by_cases hm : iter_node.tag_name = tag_name
    · by_cases hf : (_text_node_generate_metadata { iter_node with tag_value := tag_value }).1
          = UTF8_PARSE_SUCCESS
      · rw [text_walk_cons_ok _ _ _ _ hm hf]
        refine ⟨_, rfl, hf, ?_⟩
        have hn := (text_metadata_success _ hf).1
        exact List.find?_cons_of_pos _ (by rw [hn]; exact decide_eq_true hm)
      · rw [text_walk_cons_fail _ _ _ _ hm hf] at hok
        have := text_metadata_code_not_node_success { iter_node with tag_value := tag_value }
        rcases hok with hok | hok
        · exact absurd hok this.1
        · exact absurd hok this.2
    · rw [text_walk_cons_skip _ _ _ _ hm] at hok ⊢
      obtain ⟨node, hv, hs, hfind⟩ := ih hok
      refine ⟨node, hv, hs, ?_⟩
      rw [List.find?_cons_of_neg _ (by simpa using hm)]
      exact hfind

/-- C1. After a successful `id3_text_tag_node_add_update` (a value of bytes
whose encoded size fits the 32-bit size field) the entry with the name has
`num_id3_bytes = 2 + strlen(value)` and `is_utf8 = 0` when the classifier finds
no multi-byte sequence, and `num_id3_bytes = 1 + 2 + 2 * n + 2` and
`is_utf8 = 1` otherwise, `n` being the length computed by `utf8_to_utf16_le`. -/
theorem text_add_update_num_id3_bytes (head : List id3_text_tag_node)
    (tag_name tag_value : List Nat)
    (hbytes : ∀ b ∈ tag_value, b < 256) (hsize : 2 * tag_value.length + 5 < 2 ^ 32)
    (hok : (id3_text_tag_node_add_update head tag_name tag_value).1 = NODE_ADD_SUCCESS
      ∨ (id3_text_tag_node_add_update head tag_name tag_value).1 = NODE_UPDATE_SUCCESS) :
    tag_name ∈ TEXT_TAGS ∧ tag_value ≠ [] ∧
    ∃ e : id3_text_tag_node,
      (id3_text_tag_node_add_update head tag_name tag_value).2.find?
          (fun n => decide (n.tag_name = tag_name)) = some e
      ∧ e.tag_value = tag_value
      ∧ (utf8_contains_multibyte_sequence tag_value = 0 →
          e.num_id3_bytes = 2 + tag_value.length ∧ e.is_utf8 = 0)
      ∧ (utf8_contains_multibyte_sequence tag_value ≠ 0 →
          e.num_id3_bytes = 1 + 2 + 2 * (utf8_to_utf16_le tag_value).utf16_computed_length + 2
          ∧ e.is_utf8 = 1) := by
  unfold id3_text_tag_node_add_update at hok ⊢
  by_cases hn : ¬ (TEXT_TAGS.contains tag_name = true)
  · rw [if_pos hn] at hok
    rcases hok with hok | hok <;> cases hok
  · rw [if_neg hn] at hok ⊢
    by_cases hv : tag_value.length = 0
    · rw [if_pos hv] at hok
      rcases hok with hok | hok <;> cases hok
    · rw [if_neg hv] at hok ⊢
      refine ⟨by simpa using hn, fun h => hv (by rw [h]; rfl), ?_⟩
      obtain ⟨node, hval, hs, hfind⟩ := text_walk_success tag_name tag_value head hok
      obtain ⟨-, hv2, h0, h1⟩ := text_metadata_success node hs
      rw [hval] at hv2 h0 h1
      have hL := utf16_computed_length_le tag_value hbytes
      refine ⟨_, hfind, hv2, fun hc => ?_, fun hc => ?_⟩
      · obtain ⟨e1, e2, -⟩ := h0 hc
        rw [e1, Nat.mod_eq_of_lt (by omega)]
        exact ⟨rfl, e2⟩
      · obtain ⟨e1, e2, -⟩ := h1 hc
        rw [e1, Nat.mod_eq_of_lt (by omega)]
        exact ⟨rfl, e2⟩

/-- Witness for C1: `TALB` set to the two bytes `C3 A9` on an empty list. -/
theorem text_add_update_num_id3_bytes_witness :
    ∃ e : id3_text_tag_node,
      (id3_text_tag_node_add_update [] [0x54, 0x41, 0x4C, 0x42] [0xC3, 0xA9]).2.find?
          (fun n => decide (n.tag_name = [0x54, 0x41, 0x4C, 0x42])) = some e
      ∧ e.num_id3_bytes = 7 ∧ e.is_utf8 = 1 := by
  obtain ⟨-, -, e, hf, -, -, h1⟩ :=
    text_add_update_num_id3_bytes [] [0x54, 0x41, 0x4C, 0x42] [0xC3, 0xA9]
      (by decide) (by decide) (by decide)
  exact ⟨e, hf, h1 (by decide)⟩

/-- C2. Whenever `id3_text_tag_node_add_update` answers anything other than
`NODE_ADD_SUCCESS` or `NODE_UPDATE_SUCCESS`, the list after the call is the
list before it: same nodes in the same order, each with its value, flag,
UTF-16 buffer and size. -/
theorem text_add_update_failure_unchanged (head : List id3_text_tag_node)
    (tag_name tag_value : List Nat)
    (h1 : (id3_text_tag_node_add_update head tag_name tag_value).1 ≠ NODE_ADD_SUCCESS)
    (h2 : (id3_text_tag_node_add_update head tag_name tag_value).1 ≠ NODE_UPDATE_SUCCESS) :
    (id3_text_tag_node_add_update head tag_name tag_value).2 = head := by
  unfold id3_text_tag_node_add_update at h1 h2 ⊢
  split
  · rfl
  · split
    · rfl
    · rename_i hn hv
      rw [if_neg hn, if_neg hv] at h1 h2
      exact text_walk_failure tag_name tag_value head h1 h2

/-- Witness for C2: an update of an existing `TALB` entry with the value `FF`
answers `UTF8_PARSE_MALFORMED` and leaves the entry as it was. -/
theorem text_add_update_failure_unchanged_witness :
    (id3_text_tag_node_add_update
        [⟨[0x54, 0x41, 0x4C, 0x42], [0x54, 0x65, 0x73, 0x74], 6, 0, none⟩]
        [0x54, 0x41, 0x4C, 0x42] [0xFF]).1 = UTF8_PARSE_MALFORMED
    ∧ (id3_text_tag_node_add_update
        [⟨[0x54, 0x41, 0x4C, 0x42], [0x54, 0x65, 0x73, 0x74], 6, 0, none⟩]
        [0x54, 0x41, 0x4C, 0x42] [0xFF]).2
      = [⟨[0x54, 0x41, 0x4C, 0x42], [0x54, 0x65, 0x73, 0x74], 6, 0, none⟩] :=
  ⟨by decide,
    text_add_update_failure_unchanged
      [⟨[0x54, 0x41, 0x4C, 0x42], [0x54, 0x65, 0x73, 0x74], 6, 0, none⟩]
      [0x54, 0x41, 0x4C, 0x42] [0xFF] (by decide) (by decide)⟩

/-- The bad byte `FF` after a two-byte character is reported by the
conversion, not by the classifier: the code is `UTF16_PARSE_UTF8_MALFORMED`,
and the entry is kept as it was. -/
theorem text_add_update_ff_after_multibyte :
    id3_text_tag_node_add_update
        [⟨[0x54, 0x41, 0x4C, 0x42], [0x54, 0x65, 0x73, 0x74], 6, 0, none⟩]
        [0x54, 0x41, 0x4C, 0x42] [0xC3, 0xA9, 0xFF]
      = (UTF16_PARSE_UTF8_MALFORMED,
          [⟨[0x54, 0x41, 0x4C, 0x42], [0x54, 0x65, 0x73, 0x74], 6, 0, none⟩]) := by
  decide

/-! ## The picture store: claim C3 -/

/-- C3 at two failing updates (no file can be opened).  First: an entry of
type 3 holding a 5-byte buffer is updated with a file path that does not open;
the call answers `NODE_FILE_ERROR` and leaves the entry with
`is_picture_stored_as_file = 1` and `num_id3_bytes = 15` instead of `0` and
`19`, and with its description block released.  Second: an icon entry is
updated with the description `FF` and a new buffer; the call answers
`UTF8_PARSE_MALFORMED` and leaves the entry pointing at the new buffer. -/
theorem picture_update_failure_changes_entry :
    (id3_picture_tag_node_add_update (fun _ => none) []
        [0x69, 0x6D, 0x61, 0x67, 0x65, 0x2F, 0x70, 0x6E, 0x67] 3 [0x78]
        none (some [1, 2, 3, 4, 5]) 5)
      = (NODE_ADD_SUCCESS,
          [⟨[0x69, 0x6D, 0x61, 0x67, 0x65, 0x2F, 0x70, 0x6E, 0x67], 3, [0x78], 19, 0, none,
            0, none, some [1, 2, 3, 4, 5], 5, false, false⟩])
    ∧ (id3_picture_tag_node_add_update (fun _ => none)
        [⟨[0x69, 0x6D, 0x61, 0x67, 0x65, 0x2F, 0x70, 0x6E, 0x67], 3, [0x78], 19, 0, none,
          0, none, some [1, 2, 3, 4, 5], 5, false, false⟩]
        [0x69, 0x6D, 0x61, 0x67, 0x65, 0x2F, 0x6A, 0x70, 0x65, 0x67] 3 [0x78]
        (some [0x6E, 0x6F, 0x2E, 0x6A, 0x70, 0x67]) none 0)
      = (NODE_FILE_ERROR,
          [⟨[0x69, 0x6D, 0x61, 0x67, 0x65, 0x2F, 0x70, 0x6E, 0x67], 3, [0x78], 15, 0, none,
            1, none, some [1, 2, 3, 4, 5], 5, true, false⟩])
    ∧ (id3_picture_tag_node_add_update (fun _ => none) []
        [0x69, 0x6D, 0x61, 0x67, 0x65, 0x2F, 0x70, 0x6E, 0x67] 1 [0x78]
        none (some [1, 2, 3, 4, 5]) 5)
      = (NODE_ADD_SUCCESS,
          [⟨[0x69, 0x6D, 0x61, 0x67, 0x65, 0x2F, 0x70, 0x6E, 0x67], 1, [0x78], 19, 0, none,
            0, none, some [1, 2, 3, 4, 5], 5, false, false⟩])
    ∧ (id3_picture_tag_node_add_update (fun _ => none)
        [⟨[0x69, 0x6D, 0x61, 0x67, 0x65, 0x2F, 0x70, 0x6E, 0x67], 1, [0x78], 19, 0, none,
          0, none, some [1, 2, 3, 4, 5], 5, false, false⟩]
        [0x69, 0x6D, 0x61, 0x67, 0x65, 0x2F, 0x70, 0x6E, 0x67] 1 [0xFF]
        none (some [9, 9]) 2)
      = (UTF8_PARSE_MALFORMED,
          [⟨[0x69, 0x6D, 0x61, 0x67, 0x65, 0x2F, 0x70, 0x6E, 0x67], 1, [0x78], 19, 0, none,
            0, none, some [9, 9], 5, false, false⟩]) := by
  decide

/-! ## Cached size against written size: claim C4 -/

/-- C4 at the value `%%` for `TALB`: the entry is cached with
`num_id3_bytes = 4`, the frame written for it declares 4 content bytes after
its 10-byte header and carries 3 (`00 25 00`); the whole tag declares 14 bytes
after the main header and carries 13. -/
theorem text_frame_shorter_than_cached_size :
    id3_text_tag_node_add_update [] [0x54, 0x41, 0x4C, 0x42] [0x25, 0x25]
      = (NODE_ADD_SUCCESS, [⟨[0x54, 0x41, 0x4C, 0x42], [0x25, 0x25], 4, 0, none⟩])
    ∧ _write_text_tag ⟨[], false⟩ ⟨[0x54, 0x41, 0x4C, 0x42], [0x25, 0x25], 4, 0, none⟩
      = ⟨[0x54, 0x41, 0x4C, 0x42, 0, 0, 0, 4, 0, 0] ++ [0x00, 0x25, 0x00], false⟩
    ∧ id3_write_tag (fun _ => none)
        ⟨some [⟨[0x54, 0x41, 0x4C, 0x42], [0x25, 0x25], 4, 0, none⟩], none, none⟩
      = ⟨[0x49, 0x44, 0x33, 0x03, 0x00, 0x00, 0, 0, 0, 14]
          ++ [0x54, 0x41, 0x4C, 0x42, 0, 0, 0, 4, 0, 0, 0x00, 0x25, 0x00], false⟩ := by
  decide

/-- A second way for the two sizes to part: the bytes `C0 80 41` are accepted
as a two-byte character with codepoint 0 followed by `A`; the entry is cached
with `num_id3_bytes = 9` for two units, and the writer's loop stops at the zero
unit, so 5 content bytes are written. -/
theorem utf16_frame_shorter_than_cached_size :
    id3_text_tag_node_add_update [] [0x54, 0x41, 0x4C, 0x42] [0xC0, 0x80, 0x41]
      = (NODE_ADD_SUCCESS,
          [⟨[0x54, 0x41, 0x4C, 0x42], [0xC0, 0x80, 0x41], 9, 1, some [0, 0x41, 0]⟩])
    ∧ _write_text_tag ⟨[], false⟩
        ⟨[0x54, 0x41, 0x4C, 0x42], [0xC0, 0x80, 0x41], 9, 1, some [0, 0x41, 0]⟩
      = ⟨[0x54, 0x41, 0x4C, 0x42, 0, 0, 0, 9, 0, 0] ++ [0x01, 0xFF, 0xFE, 0x00, 0x00], false⟩ := by
  decide

/-! ## The main header: claim C5 -/

/-- C5. For every triple of collections the first 10 bytes `id3_write_tag`
writes are `49 44 33 03 00 00` followed by the 28-bit-format encoding of the
sum, over every entry of every non-null collection, of `10 + num_id3_bytes`. -/
theorem write_tag_main_header (fs : FileSystem) (m : id3_master_tag_struct) :
    (id3_write_tag fs m).bytes.take 10
      = [0x49, 0x44, 0x33, 0x03, 0x00, 0x00]
        ++ _integer_to_four_byte (declared_total_size m) _USE_28BIT_FORMAT_SIZE := by
  rw [write_tag_eq, header_size_mod, integer_to_four_byte_mod]
  have hp := appends_foldl (_write_picture_tag fs) (appends_write_picture_tag fs)
    (m.picture_tag_list.getD [])
  have hc := appends_foldl _write_comment_tag appends_write_comment_tag
    (m.comment_tag_list.getD [])
  have ht := appends_foldl _write_text_tag appends_write_text_tag (m.text_tag_list.getD [])
  have hall := appends_then _ _ (appends_then _ _ ht hc) hp
  have e := hall
    { bytes := [0x49, 0x44, 0x33, 0x03, 0x00, 0x00]
        ++ _integer_to_four_byte (declared_total_size m) _USE_28BIT_FORMAT_SIZE,
      fault := false }
  simp only [Bool.false_eq_true, if_false] at e
  rw [e]
  exact List.take_left' rfl

/-! ## The size encoder: claims C6, C7, C8 -/

/-- C6. For every size `n < 2 ^ 28` the 28-bit (synchsafe) format gives four
bytes, each below `2 ^ 7`, that decode as four 7-bit groups, most significant
first, back to `n`: they are `n / 2 ^ 21`, `n / 2 ^ 14 % 2 ^ 7`,
`n / 2 ^ 7 % 2 ^ 7` and `n % 2 ^ 7`; and 257 encodes as `00 00 02 01`. -/
theorem synchsafe_decodes :
    (∀ n : Nat, n < 2 ^ 28 →
      ∃ b0 b1 b2 b3, _integer_to_four_byte n _USE_28BIT_FORMAT_SIZE = [b0, b1, b2, b3]
        ∧ b0 < 2 ^ 7 ∧ b1 < 2 ^ 7 ∧ b2 < 2 ^ 7 ∧ b3 < 2 ^ 7
        ∧ b0 * 2 ^ 21 + b1 * 2 ^ 14 + b2 * 2 ^ 7 + b3 = n)
    ∧ (∀ n : Nat, n < 2 ^ 28 →
      _integer_to_four_byte n _USE_28BIT_FORMAT_SIZE
        = [n / 2 ^ 21, n / 2 ^ 14 % 2 ^ 7, n / 2 ^ 7 % 2 ^ 7, n % 2 ^ 7])
    ∧ _integer_to_four_byte 257 _USE_28BIT_FORMAT_SIZE = [0x00, 0x00, 0x02, 0x01] := by
  refine ⟨fun n hn => ?_, fun n hn => ?_, by decide⟩
  · refine ⟨_, _, _, _, integer_to_four_byte_28bit n, ?_⟩
    have d1 : n / 128 / 128 = n / 16384 := Nat.div_div_eq_div_mul n 128 128
    have d2 : n / 16384 / 128 = n / 2097152 := Nat.div_div_eq_div_mul n 16384 128
    norm_num at hn ⊢
    omega
  · rw [integer_to_four_byte_28bit n]
    have h0 : n / 2097152 % 256 = n / 2097152 := by
      norm_num at hn
      omega
    rw [h0]
    norm_num

/-- Witness for C6 at `n = 1000000`, encoded as `00 3D 04 40`. -/
theorem synchsafe_decodes_witness :
    _integer_to_four_byte 1000000 _USE_28BIT_FORMAT_SIZE = [0x00, 0x3D, 0x04, 0x40]
    ∧ ∃ b0 b1 b2 b3, _integer_to_four_byte 1000000 _USE_28BIT_FORMAT_SIZE = [b0, b1, b2, b3]
      ∧ b0 < 2 ^ 7 ∧ b1 < 2 ^ 7 ∧ b2 < 2 ^ 7 ∧ b3 < 2 ^ 7
      ∧ b0 * 2 ^ 21 + b1 * 2 ^ 14 + b2 * 2 ^ 7 + b3 = 1000000 :=
  ⟨(synchsafe_decodes.2.1 1000000 (by decide)).trans (by decide),
    synchsafe_decodes.1 1000000 (by decide)⟩

/-- C7, as stated, fails: the 32-bit size `2 ^ 28` is encoded with a first byte
`0x80`. -/
theorem synchsafe_high_bit_counterexample :
    ¬ (∀ b ∈ _integer_to_four_byte 268435456 _USE_28BIT_FORMAT_SIZE, b < 0x80) := by
  decide

/-- C7, amended. For every size the last three bytes of the 28-bit format are
below `0x80`; the first byte is below `0x80` exactly when bit 28 of the size is
zero, so all four are for every size below `2 ^ 28`. -/
theorem synchsafe_high_bits (n : Nat) :
    ∃ b0 b1 b2 b3, _integer_to_four_byte n _USE_28BIT_FORMAT_SIZE = [b0, b1, b2, b3]
      ∧ b1 < 0x80 ∧ b2 < 0x80 ∧ b3 < 0x80
      ∧ (b0 < 0x80 ↔ n / 2 ^ 28 % 2 = 0)
      ∧ (n < 2 ^ 28 → b0 < 0x80) := by
  refine ⟨_, _, _, _, integer_to_four_byte_28bit n, ?_⟩
  have d3 : n / 2097152 / 128 = n / 268435456 := Nat.div_div_eq_div_mul n 2097152 128
  norm_num
  omega

/-- Witness for the amended C7 at `n = 268435455`, the largest 28-bit size. -/
theorem synchsafe_high_bits_witness :
    ∀ b ∈ _integer_to_four_byte 268435455 _USE_28BIT_FORMAT_SIZE, b < 0x80 := by
  obtain ⟨b0, b1, b2, b3, h, h1, h2, h3, -, h0⟩ := synchsafe_high_bits 268435455
  have h0 := h0 (by decide)
  rw [h]
  intro b hb
  simp only [List.mem_cons, List.mem_singleton, List.not_mem_nil, or_false] at hb
  rcases hb with rfl | rfl | rfl | rfl <;> assumption

/-- C8, as stated, fails: 16384 is not encoded as `00 00 01 00`. -/
theorem synchsafe_16384_counterexample :
    _integer_to_four_byte 16384 _USE_28BIT_FORMAT_SIZE ≠ [0x00, 0x00, 0x01, 0x00] := by
  decide

/-- C8, amended. The size 16384 (0x4000) is encoded in the 28-bit format as
`00 01 00 00`: bit 14 opens the third 7-bit group. -/
theorem synchsafe_16384 :
    _integer_to_four_byte 16384 _USE_28BIT_FORMAT_SIZE = [0x00, 0x01, 0x00, 0x00] := by
  decide

/-! ## End to end: claim C9 -/

/-- C9. Adding `TALB = "Test"` to an empty text list and
(`"eng"`, `""`, `"Hi"`) to an empty comment list gives entries with
`num_id3_bytes` 6 and 8, and `id3_write_tag` with no picture list starts its
output with `49 44 33 03 00 00 00 00 00 22`. -/
theorem end_to_end_talb_comm :
    (id3_text_tag_node_add_update [] [0x54, 0x41, 0x4C, 0x42] [0x54, 0x65, 0x73, 0x74])
      = (NODE_ADD_SUCCESS, [⟨[0x54, 0x41, 0x4C, 0x42], [0x54, 0x65, 0x73, 0x74], 6, 0, none⟩])
    ∧ (id3_comment_tag_node_add_update [] [0x65, 0x6E, 0x67] [] [0x48, 0x69])
      = (NODE_ADD_SUCCESS, [⟨[0x65, 0x6E, 0x67], [], [0x48, 0x69], 8, 0, none, none⟩])
    ∧ (id3_write_tag (fun _ => none)
        { text_tag_list :=
            some (id3_text_tag_node_add_update [] [0x54, 0x41, 0x4C, 0x42]
              [0x54, 0x65, 0x73, 0x74]).2
          comment_tag_list :=
            some (id3_comment_tag_node_add_update [] [0x65, 0x6E, 0x67] [] [0x48, 0x69]).2
          picture_tag_list := none }).bytes.take 10
      = [0x49, 0x44, 0x33, 0x03, 0x00, 0x00, 0x00, 0x00, 0x00, 0x22]
    ∧ _integer_to_four_byte ((10 + 6) + (10 + 8)) _USE_28BIT_FORMAT_SIZE
      = [0x00, 0x00, 0x00, 0x22] := by
  decide

/-! ## The layout of the output: claim C10 -/

/-- C10. The byte stream of `id3_write_tag` (a run that meets no undefined
behaviour) is the 10-byte main header, then one frame per text entry in list
order, then one per comment entry, then one per picture entry; a `NULL` list
pointer gives the same output and the same total size as a pointer to an empty
list. -/
theorem write_tag_layout (fs : FileSystem) (m : id3_master_tag_struct) :
    ([0x49, 0x44, 0x33, 0x03, 0x00, 0x00]
        ++ _integer_to_four_byte (declared_total_size m) _USE_28BIT_FORMAT_SIZE).length = 10
    ∧ ((id3_write_tag fs m).fault = false →
        (id3_write_tag fs m).bytes =
          [0x49, 0x44, 0x33, 0x03, 0x00, 0x00]
            ++ _integer_to_four_byte (declared_total_size m) _USE_28BIT_FORMAT_SIZE
            ++ (m.text_tag_list.getD []).flatMap
                (fun n => (_write_text_tag OutFile.empty n).bytes)
            ++ (m.comment_tag_list.getD []).flatMap
                (fun n => (_write_comment_tag OutFile.empty n).bytes)
            ++ (m.picture_tag_list.getD []).flatMap
                (fun n => (_write_picture_tag fs OutFile.empty n).bytes))
    ∧ id3_write_tag fs m
        = id3_write_tag fs
            { text_tag_list := some (m.text_tag_list.getD [])
              comment_tag_list := some (m.comment_tag_list.getD [])
              picture_tag_list := some (m.picture_tag_list.getD []) }
    ∧ id3v2_header_size m
        = id3v2_header_size
            { text_tag_list := some (m.text_tag_list.getD [])
              comment_tag_list := some (m.comment_tag_list.getD [])
              picture_tag_list := some (m.picture_tag_list.getD []) } := by
  refine ⟨rfl, fun h => ?_, ?_, ?_⟩
  · rw [write_tag_eq, header_size_mod, integer_to_four_byte_mod] at h ⊢
    have hp := appends_foldl (_write_picture_tag fs) (appends_write_picture_tag fs)
    have hc := appends_foldl _write_comment_tag appends_write_comment_tag
    have ht := appends_foldl _write_text_tag appends_write_text_tag
    obtain ⟨h1, p1, p2⟩ := appends_sound _ (hp (m.picture_tag_list.getD [])) _ h
    obtain ⟨h2, c1, c2⟩ := appends_sound _ (hc (m.comment_tag_list.getD [])) _ h1
    obtain ⟨-, t1, t2⟩ := appends_sound _ (ht (m.text_tag_list.getD [])) _ h2
    rw [p2, c2, t2,
      foldl_bytes (_write_picture_tag fs) (appends_write_picture_tag fs) _ p1,
      foldl_bytes _write_comment_tag appends_write_comment_tag _ c1,
      foldl_bytes _write_text_tag appends_write_text_tag _ t1]
  · obtain ⟨t, c, p⟩ := m
    cases t <;> cases c <;> cases p <;> rfl
  · obtain ⟨t, c, p⟩ := m
    cases t <;> cases c <;> cases p <;> rfl

/-- Witness for C10: one text entry, one comment entry and a `NULL` picture
pointer; the output is the main header followed by the `TALB` frame and the
`COMM` frame. -/
theorem write_tag_layout_witness :
    (id3_write_tag (fun _ => none)
        ⟨some [⟨[0x54, 0x41, 0x4C, 0x42], [0x54, 0x65, 0x73, 0x74], 6, 0, none⟩],
          some [⟨[0x65, 0x6E, 0x67], [], [0x48, 0x69], 8, 0, none, none⟩], none⟩).bytes
      = [0x49, 0x44, 0x33, 0x03, 0x00, 0x00, 0x00, 0x00, 0x00, 0x22]
        ++ [0x54, 0x41, 0x4C, 0x42, 0, 0, 0, 6, 0, 0, 0x00, 0x54, 0x65, 0x73, 0x74, 0x00]
        ++ [0x43, 0x4F, 0x4D, 0x4D, 0, 0, 0, 8, 0, 0, 0x00, 0x65, 0x6E, 0x67, 0x00, 0x48, 0x69,
            0x00] := by
  rw [(write_tag_layout (fun _ => none)
    ⟨some [⟨[0x54, 0x41, 0x4C, 0x42], [0x54, 0x65, 0x73, 0x74], 6, 0, none⟩],
      some [⟨[0x65, 0x6E, 0x67], [], [0x48, 0x69], 8, 0, none, none⟩], none⟩).2.1 (by decide)]
  decide

/-! ## More facts about the text store -/

/-- The code of a metadata pass depends on the value alone. -/
theorem text_metadata_code_congr (n1 n2 : id3_text_tag_node) (h : n1.tag_value = n2.tag_value) :
    (_text_node_generate_metadata n1).1 = (_text_node_generate_metadata n2).1 := by
  unfold _text_node_generate_metadata
  simp only [h]
  by_cases h1 : utf8_contains_multibyte_sequence n2.tag_value = -1
  · simp only [if_pos h1]
  · simp only [if_neg h1]
    by_cases h2 : utf8_contains_multibyte_sequence n2.tag_value = 1
    · simp only [if_pos h2]
      by_cases h3 : (utf8_to_utf16_le n2.tag_value).outcome ≠ UTF16_PARSE_SUCCESS
      · simp only [if_pos h3]
      · simp only [if_neg h3]
    · simp only [if_neg h2]

/-- Two successful passes over nodes with the same name and value leave the
same node. -/
theorem text_metadata_result_congr (n1 n2 : id3_text_tag_node)
    (hn : n1.tag_name = n2.tag_name) (hv : n1.tag_value = n2.tag_value)
    (h1 : (_text_node_generate_metadata n1).1 = UTF8_PARSE_SUCCESS) :
    (_text_node_generate_metadata n1).2 = (_text_node_generate_metadata n2).2 := by
  have h2 : (_text_node_generate_metadata n2).1 = UTF8_PARSE_SUCCESS := by
    rw [← text_metadata_code_congr n1 n2 hv]; exact h1
  obtain ⟨a1, a2, a3, a4⟩ := text_metadata_success n1 h1
  obtain ⟨b1, b2, b3, b4⟩ := text_metadata_success n2 h2
  rw [← hv] at b3 b4
  generalize (_text_node_generate_metadata n1).2 = x at *
  generalize (_text_node_generate_metadata n2).2 = y at *
  obtain ⟨x1, x2, x3, x4, x5⟩ := x
  obtain ⟨y1, y2, y3, y4, y5⟩ := y
  simp only at a1 a2 a3 a4 b1 b2 b3 b4
  by_cases hc : utf8_contains_multibyte_sequence n1.tag_value = 0
  · obtain ⟨p1, p2, p3⟩ := a3 hc
    obtain ⟨q1, q2, q3⟩ := b3 hc
    simp only [id3_text_tag_node.mk.injEq]
    exact ⟨by rw [a1, b1, hn], by rw [a2, b2, hv], by rw [p1, q1], by rw [p2, q2],
      by rw [p3, q3]⟩
  · obtain ⟨p1, p2, p3, -⟩ := a4 hc
    obtain ⟨q1, q2, q3, -⟩ := b4 hc
    simp only [id3_text_tag_node.mk.injEq]
    exact ⟨by rw [a1, b1, hn], by rw [a2, b2, hv], by rw [p1, q1], by rw [p2, q2],
      by rw [p3, q3]⟩

/-- A second pass over the node a successful pass left changes nothing. -/
theorem text_metadata_idempotent (n : id3_text_tag_node)
    (h : (_text_node_generate_metadata n).1 = UTF8_PARSE_SUCCESS) :
    _text_node_generate_metadata
        { (_text_node_generate_metadata n).2 with tag_value := n.tag_value }
      = (UTF8_PARSE_SUCCESS, (_text_node_generate_metadata n).2) := by
  obtain ⟨a1, a2, -, -⟩ := text_metadata_success n h
  have e : ({ (_text_node_generate_metadata n).2 with tag_value := n.tag_value }
      : id3_text_tag_node) = (_text_node_generate_metadata n).2 := by
    generalize (_text_node_generate_metadata n).2 = x at *
    obtain ⟨x1, x2, x3, x4, x5⟩ := x
    simp only at a2
    simp only [id3_text_tag_node.mk.injEq, a2, and_self]
  rw [e]
  have hc := text_metadata_code_congr (_text_node_generate_metadata n).2 n a2
  have hr := text_metadata_result_congr n (_text_node_generate_metadata n).2 a1.symm a2.symm h
  apply Prod.ext
  · rw [hc, h]
  · exact hr.symm

/-- The codes a walk can answer. -/
theorem text_walk_codes (tag_name tag_value : List Nat) (head : List id3_text_tag_node) :
    (_text_add_update_walk tag_name tag_value head).1 = NODE_ADD_SUCCESS
    ∨ (_text_add_update_walk tag_name tag_value head).1 = NODE_UPDATE_SUCCESS
    ∨ (_text_add_update_walk tag_name tag_value head).1 = UTF8_PARSE_MALFORMED
    ∨ (_text_add_update_walk tag_name tag_value head).1 = UTF16_PARSE_UTF8_MALFORMED := by
  induction head with
  | nil =>
    by_cases hf : (_text_node_generate_metadata
        ⟨tag_name, tag_value, 0, 0, none⟩).1 = UTF8_PARSE_SUCCESS
    · rw [text_walk_nil_ok _ _ hf]; left; rfl
    · rw [text_walk_nil_fail _ _ hf]
      rcases text_metadata_codes ⟨tag_name, tag_value, 0, 0, none⟩ with h | h | h
      · exact absurd h hf
      · right; right; left; exact h
      · right; right; right; exact h
  | cons iter_node next ih =>
    by_cases hm : iter_node.tag_name = tag_name
    · by_cases hf : (_text_node_generate_metadata { iter_node with tag_value := tag_value }).1
          = UTF8_PARSE_SUCCESS
      · rw [text_walk_cons_ok _ _ _ _ hm hf]; right; left; rfl
      · rw [text_walk_cons_fail _ _ _ _ hm hf]
        rcases text_metadata_codes { iter_node with tag_value := tag_value } with h | h | h
        · exact absurd h hf
        · right; right; left; exact h
        · right; right; right; exact h
    · rw [text_walk_cons_skip _ _ _ _ hm]
      exact ih

/-- What a successful walk does to the list: with no node of the name it
answers `NODE_ADD_SUCCESS` and links one new node after the last; otherwise it
answers `NODE_UPDATE_SUCCESS` and replaces the first node of the name where it
stands. -/
theorem text_walk_effect (tag_name tag_value : List Nat) (head : List id3_text_tag_node)
    (hok : (_text_add_update_walk tag_name tag_value head).1 = NODE_ADD_SUCCESS
      ∨ (_text_add_update_walk tag_name tag_value head).1 = NODE_UPDATE_SUCCESS) :
    ((∀ e ∈ head, e.tag_name ≠ tag_name)
      ∧ ∃ e : id3_text_tag_node, e.tag_name = tag_name ∧ e.tag_value = tag_value
        ∧ _text_add_update_walk tag_name tag_value head = (NODE_ADD_SUCCESS, head ++ [e]))
    ∨ ∃ (pre post : List id3_text_tag_node) (old new : id3_text_tag_node),
        head = pre ++ old :: post ∧ (∀ e ∈ pre, e.tag_name ≠ tag_name)
        ∧ old.tag_name = tag_name ∧ new.tag_name = tag_name ∧ new.tag_value = tag_value
        ∧ _text_add_update_walk tag_name tag_value head
          = (NODE_UPDATE_SUCCESS, pre ++ new :: post) := by
  induction head with
  | nil =>
    by_cases hf : (_text_node_generate_metadata
        ⟨tag_name, tag_value, 0, 0, none⟩).1 = UTF8_PARSE_SUCCESS
    · left
      obtain ⟨a1, a2, -, -⟩ := text_metadata_success _ hf
      exact ⟨fun e he => absurd he (List.not_mem_nil e), _, a1, a2, text_walk_nil_ok _ _ hf⟩
    · rw [text_walk_nil_fail _ _ hf] at hok
      have := text_metadata_code_not_node_success ⟨tag_name, tag_value, 0, 0, none⟩
      rcases hok with hok | hok
      · exact absurd hok this.1
      · exact absurd hok this.2
  | cons iter_node next ih =>
    by_cases hm : iter_node.tag_name = tag_name
    · by_cases hf : (_text_node_generate_metadata { iter_node with tag_value := tag_value }).1
          = UTF8_PARSE_SUCCESS
      · right
        obtain ⟨a1, a2, -, -⟩ := text_metadata_success _ hf
        exact ⟨[], next, iter_node, _, rfl, fun e he => absurd he (List.not_mem_nil e), hm,
          a1.trans hm, a2, text_walk_cons_ok _ _ _ _ hm hf⟩
      · rw [text_walk_cons_fail _ _ _ _ hm hf] at hok
        have := text_metadata_code_not_node_success { iter_node with tag_value := tag_value }
        rcases hok with hok | hok
        · exact absurd hok this.1
        · exact absurd hok this.2
    · rw [text_walk_cons_skip _ _ _ _ hm] at hok ⊢
      rcases ih hok with ⟨hno, e, e1, e2, hw⟩ | ⟨pre, post, old, new, hh, hpre, h1, h2, h3, hw⟩
      · left
        refine ⟨fun x hx => ?_, e, e1, e2, ?_⟩
        · rcases List.mem_cons.mp hx with rfl | hx
          · exact hm
          · exact hno x hx
        · rw [hw]; rfl
      · right
        refine ⟨iter_node :: pre, post, old, new, by rw [hh]; rfl, fun x hx => ?_, h1, h2, h3, ?_⟩
        · rcases List.mem_cons.mp hx with rfl | hx
          · exact hm
          · exact hpre x hx
        · rw [hw]; rfl

/-- A successful walk, run again with the same name and value, answers
`NODE_UPDATE_SUCCESS` and leaves the list it finds. -/
theorem text_walk_twice (tag_name tag_value : List Nat) (head : List id3_text_tag_node)
    (hok : (_text_add_update_walk tag_name tag_value head).1 = NODE_ADD_SUCCESS
      ∨ (_text_add_update_walk tag_name tag_value head).1 = NODE_UPDATE_SUCCESS) :
    _text_add_update_walk tag_name tag_value (_text_add_update_walk tag_name tag_value head).2
      = (NODE_UPDATE_SUCCESS, (_text_add_update_walk tag_name tag_value head).2) := by
  induction head with
  | nil =>
    by_cases hf : (_text_node_generate_metadata
        ⟨tag_name, tag_value, 0, 0, none⟩).1 = UTF8_PARSE_SUCCESS
    · rw [text_walk_nil_ok _ _ hf]
      have hidem := text_metadata_idempotent ⟨tag_name, tag_value, 0, 0, none⟩ hf
      have hn := (text_metadata_success _ hf).1
      rw [text_walk_cons_ok _ _ _ _ hn (by rw [hidem]), hidem]
    · rw [text_walk_nil_fail _ _ hf] at hok
      have := text_metadata_code_not_node_success ⟨tag_name, tag_value, 0, 0, none⟩
      rcases hok with hok | hok
      · exact absurd hok this.1
      · exact absurd hok this.2
  | cons iter_node next ih =>
    by_cases hm : iter_node.tag_name = tag_name
    · by_cases hf : (_text_node_generate_metadata { iter_node with tag_value := tag_value }).1
          = UTF8_PARSE_SUCCESS
      · rw [text_walk_cons_ok _ _ _ _ hm hf]
        have hidem := text_metadata_idempotent { iter_node with tag_value := tag_value } hf
        have hn := (text_metadata_success _ hf).1
        rw [text_walk_cons_ok _ _ _ _ (hn.trans hm) (by rw [hidem]), hidem]
      · rw [text_walk_cons_fail _ _ _ _ hm hf] at hok
        have := text_metadata_code_not_node_success { iter_node with tag_value := tag_value }
        rcases hok with hok | hok
        · exact absurd hok this.1
        · exact absurd hok this.2
    · rw [text_walk_cons_skip _ _ _ _ hm] at hok ⊢
      rw [text_walk_cons_skip _ _ _ _ hm, ih hok]

/-- The two validation exits of `id3_text_tag_node_add_update`, and the walk
behind them. -/
theorem text_add_update_invalid_name (head : List id3_text_tag_node)
    (tag_name tag_value : List Nat) (h : tag_name ∉ TEXT_TAGS) :
    id3_text_tag_node_add_update head tag_name tag_value = (NODE_INVALID_TAG_NAME, head) := by
  unfold id3_text_tag_node_add_update
  rw [if_pos (by simpa using h)]

theorem text_add_update_empty_value (head : List id3_text_tag_node)
    (tag_name : List Nat) (h : tag_name ∈ TEXT_TAGS) :
    id3_text_tag_node_add_update head tag_name [] = (NODE_INVALID_TAG_VALUE, head) := by
  unfold id3_text_tag_node_add_update
  rw [if_neg (by simpa using h)]
  rfl

theorem text_add_update_eq_walk (head : List id3_text_tag_node)
    (tag_name tag_value : List Nat) (h : tag_name ∈ TEXT_TAGS) (hv : tag_value ≠ []) :
    id3_text_tag_node_add_update head tag_name tag_value
      = _text_add_update_walk tag_name tag_value head := by
  unfold id3_text_tag_node_add_update
  rw [if_neg (by simpa using h), if_neg (by simpa using hv)]

/-- A successful `id3_text_tag_node_add_update` got an allow-listed name and a
non-empty value. -/
theorem text_add_update_success_valid (head : List id3_text_tag_node)
    (tag_name tag_value : List Nat)
    (hok : (id3_text_tag_node_add_update head tag_name tag_value).1 = NODE_ADD_SUCCESS
      ∨ (id3_text_tag_node_add_update head tag_name tag_value).1 = NODE_UPDATE_SUCCESS) :
    tag_name ∈ TEXT_TAGS ∧ tag_value ≠ [] := by
  by_cases h : tag_name ∈ TEXT_TAGS
  · refine ⟨h, fun hv => ?_⟩
    subst hv
    rw [text_add_update_empty_value head tag_name h] at hok
    rcases hok with hok | hok <;> cases hok
  · rw [text_add_update_invalid_name head tag_name tag_value h] at hok
    rcases hok with hok | hok <;> cases hok

/-- The delete walk only unlinks: what it leaves is a sublist of the list. -/
theorem text_delete_walk_sublist (tag_name : List Nat) (head : List id3_text_tag_node) :
    (_text_delete_walk tag_name head).2.Sublist head := by
  induction head with
  | nil => exact List.Sublist.refl _
  | cons iter_node next ih =>
    rw [_text_delete_walk]
    by_cases hm : iter_node.tag_name = tag_name
    · rw [if_pos hm]
      exact List.sublist_cons_self _ _
    · rw [if_neg hm]
      exact ih.cons₂ _

theorem text_delete_sublist (head : List id3_text_tag_node) (tag_name : List Nat) :
    (id3_text_tag_node_delete head tag_name).2.Sublist head := by
  cases head with
  | nil => exact List.Sublist.refl _
  | cons a l => exact text_delete_walk_sublist tag_name (a :: l)

/-- The names in the list after `id3_text_tag_node_add_update`: the names
before, or the names before followed by the new, allow-listed name, which was
not among them. -/
theorem text_add_update_names (head : List id3_text_tag_node) (tag_name tag_value : List Nat) :
    (id3_text_tag_node_add_update head tag_name tag_value).2.map (fun e => e.tag_name)
        = head.map (fun e => e.tag_name)
    ∨ (tag_name ∈ TEXT_TAGS ∧ tag_name ∉ head.map (fun e => e.tag_name)
        ∧ (id3_text_tag_node_add_update head tag_name tag_value).2.map (fun e => e.tag_name)
          = head.map (fun e => e.tag_name) ++ [tag_name]) := by
  by_cases hn : tag_name ∈ TEXT_TAGS
  · by_cases hv : tag_value = []
    · subst hv
      rw [text_add_update_empty_value head tag_name hn]
      left; rfl
    · rw [text_add_update_eq_walk head tag_name tag_value hn hv]
      by_cases hok : (_text_add_update_walk tag_name tag_value head).1 = NODE_ADD_SUCCESS
          ∨ (_text_add_update_walk tag_name tag_value head).1 = NODE_UPDATE_SUCCESS
      · rcases text_walk_effect tag_name tag_value head hok with
          ⟨hno, e, e1, -, hw⟩ | ⟨pre, post, old, new, hh, -, h1, h2, -, hw⟩
        · right
          refine ⟨hn, fun hmem => ?_, ?_⟩
          · obtain ⟨x, hx, hxn⟩ := List.mem_map.mp hmem
            exact hno x hx hxn
          · rw [hw, List.map_append, List.map_cons, List.map_nil, e1]
        · left
          rw [hw, hh]
          simp only [List.map_append, List.map_cons, h1, h2]
      · left
        rw [not_or] at hok
        rw [text_walk_failure tag_name tag_value head hok.1 hok.2]
  · rw [text_add_update_invalid_name head tag_name tag_value hn]
    left; rfl

/-! ## The text store: claims C14, C17, C19, C20 -/

/-- C14. When `id3_text_tag_node_add_update` has succeeded, a second call with
the same name and value answers `NODE_UPDATE_SUCCESS` and leaves the list as
the first call left it: same length, same order, and the same value, `is_utf8`
and `num_id3_bytes` in every entry. -/
theorem text_add_update_idempotent (head : List id3_text_tag_node)
    (tag_name tag_value : List Nat)
    (hok : (id3_text_tag_node_add_update head tag_name tag_value).1 = NODE_ADD_SUCCESS
      ∨ (id3_text_tag_node_add_update head tag_name tag_value).1 = NODE_UPDATE_SUCCESS) :
    id3_text_tag_node_add_update (id3_text_tag_node_add_update head tag_name tag_value).2
        tag_name tag_value
      = (NODE_UPDATE_SUCCESS, (id3_text_tag_node_add_update head tag_name tag_value).2) := by
  obtain ⟨hn, hv⟩ := text_add_update_success_valid head tag_name tag_value hok
  rw [text_add_update_eq_walk _ tag_name tag_value hn hv] at hok ⊢
  rw [text_add_update_eq_walk _ tag_name tag_value hn hv]
  exact text_walk_twice tag_name tag_value head hok

/-- Witness for C14: `TALB = "Test"` added to an empty list, then set again. -/
theorem text_add_update_idempotent_witness :
    id3_text_tag_node_add_update
        (id3_text_tag_node_add_update [] [0x54, 0x41, 0x4C, 0x42] [0x54, 0x65, 0x73, 0x74]).2
        [0x54, 0x41, 0x4C, 0x42] [0x54, 0x65, 0x73, 0x74]
      = (NODE_UPDATE_SUCCESS,
          (id3_text_tag_node_add_update [] [0x54, 0x41, 0x4C, 0x42]
            [0x54, 0x65, 0x73, 0x74]).2) :=
  text_add_update_idempotent [] [0x54, 0x41, 0x4C, 0x42] [0x54, 0x65, 0x73, 0x74]
    (Or.inl (by decide))

/-- C17. In every text list reachable from the empty list by calls of
`id3_text_tag_node_add_update` and `id3_text_tag_node_delete`, successful or
not, no two entries have the same `tag_name` and every `tag_name` is one of the
allow-listed names. -/
theorem text_reachable_invariant (l : List id3_text_tag_node) (h : TextReachable l) :
    (l.map (fun e => e.tag_name)).Nodup ∧ ∀ e ∈ l, e.tag_name ∈ TEXT_TAGS := by
  induction h with
  | empty => exact ⟨List.nodup_nil, fun e he => absurd he (List.not_mem_nil e)⟩
  | add_update head tag_name tag_value _ ih =>
    obtain ⟨ih1, ih2⟩ := ih
    have hall : ∀ (l2 : List id3_text_tag_node),
        (∀ n ∈ l2.map (fun e => e.tag_name), n ∈ TEXT_TAGS) → ∀ e ∈ l2, e.tag_name ∈ TEXT_TAGS :=
      fun l2 hl e he => hl _ (List.mem_map_of_mem _ he)
    rcases text_add_update_names head tag_name tag_value with hsame | ⟨hn, hnot, happ⟩
    · refine ⟨by rw [hsame]; exact ih1, hall _ ?_⟩
      rw [hsame]
      intro n hnm
      obtain ⟨x, hx, rfl⟩ := List.mem_map.mp hnm
      exact ih2 x hx
    · refine ⟨?_, hall _ ?_⟩
      · rw [happ]
        refine List.Nodup.append ih1 (List.nodup_singleton _) ?_
        intro a ha hb
        rw [List.mem_singleton] at hb
        subst hb
        exact hnot ha
      · rw [happ]
        intro n hnm
        rcases List.mem_append.mp hnm with hnm | hnm
        · obtain ⟨x, hx, rfl⟩ := List.mem_map.mp hnm
          exact ih2 x hx
        · rw [List.mem_singleton] at hnm
          rw [hnm]; exact hn
  | delete head tag_name _ ih =>
    obtain ⟨ih1, ih2⟩ := ih
    have hs := text_delete_sublist head tag_name
    exact ⟨(hs.map _).nodup ih1, fun e he => ih2 e (hs.subset he)⟩

/-- Witness for C17: the list after adding `TALB`, adding `TIT2` and deleting
`TALB`. -/
theorem text_reachable_invariant_witness :
    ((id3_text_tag_node_delete
        (id3_text_tag_node_add_update
          (id3_text_tag_node_add_update [] [0x54, 0x41, 0x4C, 0x42] [0x41]).2
          [0x54, 0x49, 0x54, 0x32] [0x42]).2
        [0x54, 0x41, 0x4C, 0x42]).2.map (fun e => e.tag_name)).Nodup
    ∧ ∀ e ∈ (id3_text_tag_node_delete
        (id3_text_tag_node_add_update
          (id3_text_tag_node_add_update [] [0x54, 0x41, 0x4C, 0x42] [0x41]).2
          [0x54, 0x49, 0x54, 0x32] [0x42]).2
        [0x54, 0x41, 0x4C, 0x42]).2, e.tag_name ∈ TEXT_TAGS :=
  text_reachable_invariant _
    (TextReachable.delete _ _
      (TextReachable.add_update _ _ _ (TextReachable.add_update _ _ _ TextReachable.empty)))

/-- C19. A successful `id3_text_tag_node_add_update` keeps the order: when no
entry has the name it answers `NODE_ADD_SUCCESS` and the new list is the old
one followed by the new entry; when an entry has the name it answers
`NODE_UPDATE_SUCCESS`, the first such entry is replaced where it stands, and
the entries before and after it are the same, in the same order. -/
theorem text_add_update_keeps_order (head : List id3_text_tag_node)
    (tag_name tag_value : List Nat)
    (hok : (id3_text_tag_node_add_update head tag_name tag_value).1 = NODE_ADD_SUCCESS
      ∨ (id3_text_tag_node_add_update head tag_name tag_value).1 = NODE_UPDATE_SUCCESS) :
    ((∀ e ∈ head, e.tag_name ≠ tag_name) →
      ∃ e : id3_text_tag_node, e.tag_name = tag_name ∧ e.tag_value = tag_value
        ∧ id3_text_tag_node_add_update head tag_name tag_value
          = (NODE_ADD_SUCCESS, head ++ [e]))
    ∧ ((∃ e ∈ head, e.tag_name = tag_name) →
      ∃ (pre post : List id3_text_tag_node) (old new : id3_text_tag_node),
        head = pre ++ old :: post ∧ (∀ e ∈ pre, e.tag_name ≠ tag_name)
        ∧ old.tag_name = tag_name ∧ new.tag_name = tag_name ∧ new.tag_value = tag_value
        ∧ id3_text_tag_node_add_update head tag_name tag_value
          = (NODE_UPDATE_SUCCESS, pre ++ new :: post)) := by
  obtain ⟨hn, hv⟩ := text_add_update_success_valid head tag_name tag_value hok
  rw [text_add_update_eq_walk _ tag_name tag_value hn hv] at hok ⊢
  rcases text_walk_effect tag_name tag_value head hok with
    ⟨hno, e, e1, e2, hw⟩ | ⟨pre, post, old, new, hh, hpre, h1, h2, h3, hw⟩
  · refine ⟨fun _ => ⟨e, e1, e2, hw⟩, fun ⟨x, hx, hxn⟩ => absurd hxn (hno x hx)⟩
  · refine ⟨fun hno => ?_, fun _ => ⟨pre, post, old, new, hh, hpre, h1, h2, h3, hw⟩⟩
    exact absurd h1 (hno old (by rw [hh]; exact List.mem_append_right _ (List.mem_cons_self _ _)))

/-- Witness for C19: `TIT2` is appended after `TALB`, then `TALB` is updated in
the first position. -/
theorem text_add_update_keeps_order_witness :
    id3_text_tag_node_add_update [⟨[0x54, 0x41, 0x4C, 0x42], [0x41], 3, 0, none⟩]
        [0x54, 0x49, 0x54, 0x32] [0x42]
      = (NODE_ADD_SUCCESS,
          [⟨[0x54, 0x41, 0x4C, 0x42], [0x41], 3, 0, none⟩,
            ⟨[0x54, 0x49, 0x54, 0x32], [0x42], 3, 0, none⟩])
    ∧ ∃ (pre post : List id3_text_tag_node) (old new : id3_text_tag_node),
        [⟨[0x54, 0x41, 0x4C, 0x42], [0x41], 3, 0, none⟩,
            (⟨[0x54, 0x49, 0x54, 0x32], [0x42], 3, 0, none⟩ : id3_text_tag_node)]
          = pre ++ old :: post
        ∧ (∀ e ∈ pre, e.tag_name ≠ [0x54, 0x41, 0x4C, 0x42])
        ∧ old.tag_name = [0x54, 0x41, 0x4C, 0x42] ∧ new.tag_name = [0x54, 0x41, 0x4C, 0x42]
        ∧ new.tag_value = [0x43, 0x44]
        ∧ id3_text_tag_node_add_update
            [⟨[0x54, 0x41, 0x4C, 0x42], [0x41], 3, 0, none⟩,
              ⟨[0x54, 0x49, 0x54, 0x32], [0x42], 3, 0, none⟩]
            [0x54, 0x41, 0x4C, 0x42] [0x43, 0x44]
          = (NODE_UPDATE_SUCCESS, pre ++ new :: post) :=
  ⟨by decide,
    (text_add_update_keeps_order
      [⟨[0x54, 0x41, 0x4C, 0x42], [0x41], 3, 0, none⟩,
        ⟨[0x54, 0x49, 0x54, 0x32], [0x42], 3, 0, none⟩]
      [0x54, 0x41, 0x4C, 0x42] [0x43, 0x44] (Or.inr (by decide))).2
      ⟨_, List.mem_cons_self _ _, rfl⟩⟩

/-- C20. `id3_text_tag_node_add_update` answers `NODE_INVALID_TAG_NAME` exactly
when the name is not in the allow-list, which holds 38 distinct names of four
characters; for an allow-listed name and the empty value it answers
`NODE_INVALID_TAG_VALUE`; in both cases the list is unchanged. -/
theorem text_add_update_validation :
    (∀ (head : List id3_text_tag_node) (tag_name tag_value : List Nat),
      (id3_text_tag_node_add_update head tag_name tag_value).1 = NODE_INVALID_TAG_NAME
        ↔ tag_name ∉ TEXT_TAGS)
    ∧ TEXT_TAGS.length = 38 ∧ TEXT_TAGS.Nodup ∧ (∀ n ∈ TEXT_TAGS, n.length = 4)
    ∧ (∀ (head : List id3_text_tag_node) (tag_name tag_value : List Nat),
        tag_name ∉ TEXT_TAGS →
        id3_text_tag_node_add_update head tag_name tag_value = (NODE_INVALID_TAG_NAME, head))
    ∧ (∀ (head : List id3_text_tag_node) (tag_name : List Nat),
        tag_name ∈ TEXT_TAGS →
        id3_text_tag_node_add_update head tag_name [] = (NODE_INVALID_TAG_VALUE, head)) := by
  refine ⟨fun head tag_name tag_value => ⟨fun h hn => ?_, fun h => ?_⟩, by decide, by decide,
    by decide, text_add_update_invalid_name, text_add_update_empty_value⟩
  · by_cases hv : tag_value = []
    · subst hv
      rw [text_add_update_empty_value head tag_name hn] at h
      cases h
    · rw [text_add_update_eq_walk head tag_name tag_value hn hv] at h
      rcases text_walk_codes tag_name tag_value head with c | c | c | c <;>
        rw [c] at h <;> cases h
  · rw [text_add_update_invalid_name head tag_name tag_value h]

/-- Witness for C20: the name `TXYZ` is refused, and `TALB` with the empty
value is refused, on a list that stays as it was. -/
theorem text_add_update_validation_witness :
    id3_text_tag_node_add_update [⟨[0x54, 0x41, 0x4C, 0x42], [0x41], 3, 0, none⟩]
        [0x54, 0x58, 0x59, 0x5A] [0x41]
      = (NODE_INVALID_TAG_NAME, [⟨[0x54, 0x41, 0x4C, 0x42], [0x41], 3, 0, none⟩])
    ∧ id3_text_tag_node_add_update [⟨[0x54, 0x41, 0x4C, 0x42], [0x41], 3, 0, none⟩]
        [0x54, 0x41, 0x4C, 0x42] []
      = (NODE_INVALID_TAG_VALUE, [⟨[0x54, 0x41, 0x4C, 0x42], [0x41], 3, 0, none⟩]) :=
  ⟨text_add_update_validation.2.2.2.2.1 _ _ _ (by decide),
    text_add_update_validation.2.2.2.2.2 _ _ (by decide)⟩

/-! ## Facts about the picture store -/

theorem picture_same_content_refl (a : id3_picture_tag_node) : picture_same_content a a :=
  ⟨rfl, rfl, rfl, rfl, rfl, rfl, rfl⟩

theorem picture_same_content_trans (a b c : id3_picture_tag_node)
    (h1 : picture_same_content a b) (h2 : picture_same_content b c) :
    picture_same_content a c := by
  obtain ⟨a1, a2, a3, a4, a5, a6, a7⟩ := h1
  obtain ⟨b1, b2, b3, b4, b5, b6, b7⟩ := h2
  exact ⟨a1.trans b1, a2.trans b2, a3.trans b3, a4.trans b4, a5.trans b5, a6.trans b6,
    a7.trans b7⟩

/-- The text half of the metadata pass: an early return carries a failure code
and the node it received; a normal end has written nothing but metadata. -/
theorem picture_text_metadata_error (node : id3_picture_tag_node)
    (p : Nat × id3_picture_tag_node) (h : _picture_node_text_metadata node = .error p) :
    (p.1 = UTF8_PARSE_MALFORMED ∨ p.1 = UTF16_PARSE_UTF8_MALFORMED) ∧ p.2 = node := by
  unfold _picture_node_text_metadata at h
  simp only at h
  by_cases h1 : utf8_contains_multibyte_sequence node.description = -1
  · rw [if_pos h1] at h
    injection h with h
    subst h
    exact ⟨Or.inl rfl, rfl⟩
  · rw [if_neg h1] at h
    by_cases h2 : utf8_contains_multibyte_sequence node.description = 1
    · rw [if_pos h2] at h
      by_cases h3 : (utf8_to_utf16_le node.description).outcome ≠ UTF16_PARSE_SUCCESS
      · rw [if_pos h3] at h
        injection h with h
        subst h
        refine ⟨Or.inr ?_, rfl⟩
        rcases utf8_to_utf16_le_cases node.description with ⟨_, e⟩ | ⟨units, _, e⟩
        · show (utf8_to_utf16_le node.description).outcome = _
          rw [e]
        · rw [e] at h3
          exact absurd rfl h3
      · rw [if_neg h3] at h
        cases h
    · rw [if_neg h2] at h
      cases h

theorem picture_text_metadata_ok (node n2 : id3_picture_tag_node)
    (h : _picture_node_text_metadata node = .ok n2) : picture_same_content n2 node := by
  unfold _picture_node_text_metadata at h
  simp only at h
  by_cases h1 : utf8_contains_multibyte_sequence node.description = -1
  · rw [if_pos h1] at h
    cases h
  · rw [if_neg h1] at h
    by_cases h2 : utf8_contains_multibyte_sequence node.description = 1
    · rw [if_pos h2] at h
      by_cases h3 : (utf8_to_utf16_le node.description).outcome ≠ UTF16_PARSE_SUCCESS
      · rw [if_pos h3] at h
        cases h
      · rw [if_neg h3] at h
        injection h with h
        subst h
        exact picture_same_content_refl node
    · rw [if_neg h2] at h
      injection h with h
      subst h
      exact picture_same_content_refl node

theorem picture_text_metadata_accepted (node : id3_picture_tag_node)
    (hd : description_accepted node.description) :
    ∃ n2, _picture_node_text_metadata node = .ok n2 := by
  obtain ⟨d1, d2⟩ := hd
  unfold _picture_node_text_metadata
  simp only
  rw [if_neg d1]
  by_cases h2 : utf8_contains_multibyte_sequence node.description = 1
  · rw [if_pos h2, if_neg (not_not.mpr (d2 h2))]
    exact ⟨_, rfl⟩
  · rw [if_neg h2]
    exact ⟨_, rfl⟩

/-- The metadata pass, failing or not, writes nothing but metadata. -/
theorem picture_metadata_keeps (fs : FileSystem) (node : id3_picture_tag_node) :
    picture_same_content (_picture_node_generate_metadata fs node).2 node := by
  unfold _picture_node_generate_metadata
  simp only
  cases h : _picture_node_text_metadata node with
  | error p =>
    simp only
    rw [(picture_text_metadata_error node p h).2]
    exact picture_same_content_refl node
  | ok n2 =>
    simp only
    have hk := picture_text_metadata_ok node n2 h
    by_cases hf : n2.is_picture_stored_as_file ≠ 0
    · rw [if_pos hf]
      cases n2.picture_file_path.bind fs with
      | none => exact hk
      | some content => exact hk
    · rw [if_neg hf]
      exact hk

/-- The codes of the metadata pass. -/
theorem picture_metadata_codes (fs : FileSystem) (node : id3_picture_tag_node) :
    (_picture_node_generate_metadata fs node).1 = UTF8_PARSE_SUCCESS
    ∨ (_picture_node_generate_metadata fs node).1 = UTF8_PARSE_MALFORMED
    ∨ (_picture_node_generate_metadata fs node).1 = UTF16_PARSE_UTF8_MALFORMED
    ∨ (_picture_node_generate_metadata fs node).1 = NODE_FILE_ERROR := by
  unfold _picture_node_generate_metadata
  simp only
  cases h : _picture_node_text_metadata node with
  | error p =>
    simp only
    rcases (picture_text_metadata_error node p h).1 with e | e
    · right; left; exact e
    · right; right; left; exact e
  | ok n2 =>
    simp only
    by_cases hf : n2.is_picture_stored_as_file ≠ 0
    · rw [if_pos hf]
      cases n2.picture_file_path.bind fs with
      | none => right; right; right; rfl
      | some content => left; rfl
    · rw [if_neg hf]
      left; rfl

/-- The metadata pass succeeds on an accepted description whose file, when the
node is stored as a file, opens. -/
theorem picture_metadata_ok (fs : FileSystem) (node : id3_picture_tag_node)
    (hd : description_accepted node.description)
    (hfile : node.is_picture_stored_as_file ≠ 0 → (node.picture_file_path.bind fs).isSome = true) :
    (_picture_node_generate_metadata fs node).1 = UTF8_PARSE_SUCCESS := by
  obtain ⟨n2, h⟩ := picture_text_metadata_accepted node hd
  obtain ⟨-, -, -, k4, k5, -, -⟩ := picture_text_metadata_ok node n2 h
  unfold _picture_node_generate_metadata
  simp only [h]
  by_cases hf : n2.is_picture_stored_as_file ≠ 0
  · rw [if_pos hf]
    have := hfile (by rw [← k4]; exact hf)
    rw [← k5] at this
    cases hb : n2.picture_file_path.bind fs with
    | none => rw [hb] at this; cases this
    | some content => rfl
  · rw [if_neg hf]

/-- The walk at the end of the list: the candidate is linked when its metadata
pass succeeds and dropped with `NODE_INVALID_TAG_VALUE` otherwise. -/
theorem picture_walk_nil (fs : FileSystem) (mime_type : List Nat) (picture_type : Nat)
    (description : List Nat) (picture_file_path picture_binary_data : Option (List Nat))
    (picture_binary_data_bytes : Nat) :
    _picture_add_update_walk fs mime_type picture_type description picture_file_path
        picture_binary_data picture_binary_data_bytes []
      = if (_picture_node_generate_metadata fs
            (picture_new_node mime_type picture_type description picture_file_path
              picture_binary_data picture_binary_data_bytes)).1 ≠ UTF8_PARSE_SUCCESS then
          (NODE_INVALID_TAG_VALUE, [])
        else
          (NODE_ADD_SUCCESS,
            [(_picture_node_generate_metadata fs
              (picture_new_node mime_type picture_type description picture_file_path
                picture_binary_data picture_binary_data_bytes)).2]) := by
  cases picture_file_path <;> rfl

/-- The walk passes a node that does not match. -/
theorem picture_walk_cons_skip (fs : FileSystem) (mime_type : List Nat) (picture_type : Nat)
    (description : List Nat) (picture_file_path picture_binary_data : Option (List Nat))
    (picture_binary_data_bytes : Nat) (iter_node : id3_picture_tag_node)
    (next : List id3_picture_tag_node)
    (hm : ¬ picture_key_matches picture_type description iter_node) :
    _picture_add_update_walk fs mime_type picture_type description picture_file_path
        picture_binary_data picture_binary_data_bytes (iter_node :: next)
      = ((_picture_add_update_walk fs mime_type picture_type description picture_file_path
            picture_binary_data picture_binary_data_bytes next).1,
          iter_node :: (_picture_add_update_walk fs mime_type picture_type description
            picture_file_path picture_binary_data picture_binary_data_bytes next).2) := by
  rw [_picture_add_update_walk]
  unfold picture_key_matches at hm
  have h1 : ¬ ((picture_type = APIC_TYPE_FILE_ICON ∨ picture_type = APIC_TYPE_OTHER_FILE_ICON)
      ∧ iter_node.picture_type = picture_type) := by
    rintro ⟨h | h, ht⟩
    · exact hm ⟨ht, Or.inl h⟩
    · exact hm ⟨ht, Or.inr (Or.inl h)⟩
  have h2 : ¬ (iter_node.picture_type = picture_type ∧ iter_node.description = description) := by
    rintro ⟨ht, hd⟩
    exact hm ⟨ht, Or.inr (Or.inr hd)⟩
  simp only [if_neg h1, if_neg h2, ne_eq, not_true_eq_false, if_false]

/-- The metadata pass leaves the two marks as they are. -/
theorem picture_metadata_marks (fs : FileSystem) (node : id3_picture_tag_node) :
    (_picture_node_generate_metadata fs node).2.description_released = node.description_released
    ∧ (_picture_node_generate_metadata fs node).2.picture_file_path_released
      = node.picture_file_path_released := by
  have herr : ∀ p, _picture_node_text_metadata node = .error p → p.2 = node :=
    fun p h => (picture_text_metadata_error node p h).2
  have hok : ∀ n2, _picture_node_text_metadata node = .ok n2 →
      n2.description_released = node.description_released
      ∧ n2.picture_file_path_released = node.picture_file_path_released := by
    intro n2 h
    unfold _picture_node_text_metadata at h
    simp only at h
    split at h
    · cases h
    · split at h
      · split at h
        · cases h
        · injection h with h
          subst h
          exact ⟨rfl, rfl⟩
      · injection h with h
        subst h
        exact ⟨rfl, rfl⟩
  unfold _picture_node_generate_metadata
  simp only
  cases h : _picture_node_text_metadata node with
  | error p =>
    simp only
    rw [herr p h]
    exact ⟨rfl, rfl⟩
  | ok n2 =>
    simp only
    have hk := hok n2 h
    by_cases hf : n2.is_picture_stored_as_file ≠ 0
    · rw [if_pos hf]
      cases n2.picture_file_path.bind fs with
      | none => exact hk
      | some content => exact hk
    · rw [if_neg hf]
      exact hk

/-- A successful update writes nothing but metadata and marks into the staged
node. -/
theorem picture_updated_node_content (fs : FileSystem) (iter_node : id3_picture_tag_node)
    (mime_type : List Nat) (picture_type : Nat) (description : List Nat)
    (picture_file_path picture_binary_data : Option (List Nat)) :
    picture_same_content
      (picture_updated_node fs iter_node mime_type picture_type description picture_file_path
        picture_binary_data)
      (picture_staged_node iter_node mime_type picture_type description picture_file_path
        picture_binary_data) :=
  picture_metadata_keeps fs _

/-- The walk at a matching node: the staged node goes through the metadata
pass; on success it replaces the node, on failure the node keeps its type, the
bytes of its description and its mime type, and the description of an entry
that is not an icon has been released. -/
theorem picture_walk_cons_hit (fs : FileSystem) (mime_type : List Nat) (picture_type : Nat)
    (description : List Nat) (picture_file_path picture_binary_data : Option (List Nat))
    (picture_binary_data_bytes : Nat) (iter_node : id3_picture_tag_node)
    (next : List id3_picture_tag_node)
    (hm : picture_key_matches picture_type description iter_node) :
    ((_picture_node_generate_metadata fs
        (picture_staged_node iter_node mime_type picture_type description picture_file_path
          picture_binary_data)).1 = UTF8_PARSE_SUCCESS
      ∧ _picture_add_update_walk fs mime_type picture_type description picture_file_path
          picture_binary_data picture_binary_data_bytes (iter_node :: next)
        = (NODE_UPDATE_SUCCESS,
            picture_updated_node fs iter_node mime_type picture_type description
              picture_file_path picture_binary_data :: next))
    ∨ ((_picture_node_generate_metadata fs
        (picture_staged_node iter_node mime_type picture_type description picture_file_path
          picture_binary_data)).1 ≠ UTF8_PARSE_SUCCESS
      ∧ ∃ kept : id3_picture_tag_node,
          kept.picture_type = iter_node.picture_type ∧ kept.description = iter_node.description
          ∧ kept.mime_type = iter_node.mime_type
          ∧ (¬ (picture_type = APIC_TYPE_FILE_ICON ∨ picture_type = APIC_TYPE_OTHER_FILE_ICON) →
              kept.description_released = true)
          ∧ _picture_add_update_walk fs mime_type picture_type description picture_file_path
              picture_binary_data picture_binary_data_bytes (iter_node :: next)
            = ((_picture_node_generate_metadata fs
                (picture_staged_node iter_node mime_type picture_type description
                  picture_file_path picture_binary_data)).1, kept :: next)) := by
  obtain ⟨ht, hk⟩ := hm
  have hstage : ∀ (icon : Prop) [Decidable icon],
      (icon ↔ (picture_type = APIC_TYPE_FILE_ICON ∨ picture_type = APIC_TYPE_OTHER_FILE_ICON)) →
      (match picture_binary_data with
        | some data =>
          { (match picture_file_path with
              | some path =>
                { (if icon then { { iter_node with mime_type := mime_type } with
                      description := description }
                    else { iter_node with mime_type := mime_type }) with
                  picture_file_path := some path, is_picture_stored_as_file := 1 }
              | none =>
                (if icon then { { iter_node with mime_type := mime_type } with
                    description := description }
                  else { iter_node with mime_type := mime_type })) with
            picture_binary_data := some data, is_picture_stored_as_file := 0 }
        | none =>
          (match picture_file_path with
            | some path =>
              { (if icon then { { iter_node with mime_type := mime_type } with
                    description := description }
                  else { iter_node with mime_type := mime_type }) with
                picture_file_path := some path, is_picture_stored_as_file := 1 }
            | none =>
              (if icon then { { iter_node with mime_type := mime_type } with
                  description := description }
                else { iter_node with mime_type := mime_type })))
        = picture_staged_node iter_node mime_type picture_type description picture_file_path
            picture_binary_data := by
    intro icon _ hi
    unfold picture_staged_node
    by_cases hc : picture_type = APIC_TYPE_FILE_ICON ∨ picture_type = APIC_TYPE_OTHER_FILE_ICON
    · rw [if_pos hc]
      simp only [if_pos (hi.mpr hc)]
      cases picture_file_path <;> cases picture_binary_data <;> rfl
    · rw [if_neg hc]
      simp only [if_neg (fun h => hc (hi.mp h))]
      cases picture_file_path <;> cases picture_binary_data <;> rfl
  have hmarks := picture_metadata_marks fs
    (picture_staged_node iter_node mime_type picture_type description picture_file_path
      picture_binary_data)
  have hsd : (picture_staged_node iter_node mime_type picture_type description
      picture_file_path picture_binary_data).description_released
        = iter_node.description_released := rfl
  have hsp : (picture_staged_node iter_node mime_type picture_type description
      picture_file_path picture_binary_data).picture_file_path_released
        = iter_node.picture_file_path_released := rfl
  rw [_picture_add_update_walk]
  by_cases hc : picture_type = APIC_TYPE_FILE_ICON ∨ picture_type = APIC_TYPE_OTHER_FILE_ICON
  · have h1 : (picture_type = APIC_TYPE_FILE_ICON ∨ picture_type = APIC_TYPE_OTHER_FILE_ICON)
        ∧ iter_node.picture_type = picture_type := ⟨hc, ht⟩
    have hop : (UPDATE_TYPE_FILE_ICON ≠ UPDATE_NONE) := by decide
    simp only [if_pos h1, if_pos hop, if_true]
    have hs := hstage True (by simp [hc])
    simp only [if_true] at hs
    rw [hs]
    have hkeep := picture_metadata_keeps fs
      (picture_staged_node iter_node mime_type picture_type description picture_file_path
        picture_binary_data)
    by_cases hf : (_picture_node_generate_metadata fs
        (picture_staged_node iter_node mime_type picture_type description picture_file_path
          picture_binary_data)).1 = UTF8_PARSE_SUCCESS
    · left
      refine ⟨hf, ?_⟩
      rw [if_neg (not_not.mpr hf)]
      unfold picture_updated_node
      simp only [if_pos hc]
      rw [hmarks.2, hsp]
      cases picture_file_path <;> rfl
    · right
      refine ⟨hf, ?_⟩
      rw [if_pos hf]
      refine ⟨_, ?_, ?_, ?_, fun h => absurd hc h, rfl⟩
      · cases picture_file_path <;> exact hkeep.2.1
      · cases picture_file_path <;> rfl
      · cases picture_file_path <;> rfl
  · have h1 : ¬ ((picture_type = APIC_TYPE_FILE_ICON ∨ picture_type = APIC_TYPE_OTHER_FILE_ICON)
        ∧ iter_node.picture_type = picture_type) := fun h => hc h.1
    have hd : iter_node.description = description := by
      rcases hk with h | h | h
      · exact absurd (Or.inl h) hc
      · exact absurd (Or.inr h) hc
      · exact h
    have h2 : iter_node.picture_type = picture_type ∧ iter_node.description = description :=
      ⟨ht, hd⟩
    have hop : (UPDATE_TYPE_STANDARD ≠ UPDATE_NONE) := by decide
    have hne : ¬ (UPDATE_TYPE_STANDARD = UPDATE_TYPE_FILE_ICON) := by decide
    simp only [if_neg h1, if_pos h2, if_pos hop, if_neg hne]
    have hs := hstage False (by simp [hc])
    simp only [if_false] at hs
    rw [hs]
    have hkeep := picture_metadata_keeps fs
      (picture_staged_node iter_node mime_type picture_type description picture_file_path
        picture_binary_data)
    have hdesc : (_picture_node_generate_metadata fs
        (picture_staged_node iter_node mime_type picture_type description picture_file_path
          picture_binary_data)).2.description = iter_node.description := by
      rw [hkeep.2.2.1]
      unfold picture_staged_node
      simp only [if_neg hc]
    by_cases hf : (_picture_node_generate_metadata fs
        (picture_staged_node iter_node mime_type picture_type description picture_file_path
          picture_binary_data)).1 = UTF8_PARSE_SUCCESS
    · left
      refine ⟨hf, ?_⟩
      rw [if_neg (not_not.mpr hf)]
      unfold picture_updated_node
      simp only [if_neg hc]
      rw [hmarks.1, hmarks.2, hsd, hsp]
      cases picture_file_path <;> rfl
    · right
      refine ⟨hf, ?_⟩
      rw [if_pos hf]
      refine ⟨_, ?_, ?_, ?_, fun _ => ?_, rfl⟩
      · cases picture_file_path <;> exact hkeep.2.1
      · cases picture_file_path <;> exact hdesc
      · cases picture_file_path <;> rfl
      · cases picture_file_path <;> rfl

/-- The walk passes a run of nodes that do not match. -/
theorem picture_walk_skip_prefix (fs : FileSystem) (mime_type : List Nat) (picture_type : Nat)
    (description : List Nat) (picture_file_path picture_binary_data : Option (List Nat))
    (picture_binary_data_bytes : Nat) (pre l : List id3_picture_tag_node)
    (hpre : ∀ e ∈ pre, ¬ picture_key_matches picture_type description e) :
    _picture_add_update_walk fs mime_type picture_type description picture_file_path
        picture_binary_data picture_binary_data_bytes (pre ++ l)
      = ((_picture_add_update_walk fs mime_type picture_type description picture_file_path
            picture_binary_data picture_binary_data_bytes l).1,
          pre ++ (_picture_add_update_walk fs mime_type picture_type description
            picture_file_path picture_binary_data picture_binary_data_bytes l).2) := by
  induction pre with
  | nil => rfl
  | cons a pre ih =>
    rw [List.cons_append, picture_walk_cons_skip _ _ _ _ _ _ _ _ _
      (hpre a (List.mem_cons_self _ _)), ih (fun e he => hpre e (List.mem_cons_of_mem _ he))]
    rfl

/-- A valid call passes the validation of `id3_picture_tag_node_add_update`. -/
theorem picture_add_update_eq_walk (fs : FileSystem) (head : List id3_picture_tag_node)
    (mime_type : List Nat) (picture_type : Nat) (description : List Nat)
    (picture_file_path picture_binary_data : Option (List Nat))
    (picture_binary_data_bytes : Nat)
    (hv : picture_call_valid fs mime_type picture_type description picture_file_path
      picture_binary_data) :
    id3_picture_tag_node_add_update fs head mime_type picture_type description
        picture_file_path picture_binary_data picture_binary_data_bytes
      = _picture_add_update_walk fs mime_type picture_type description picture_file_path
          picture_binary_data picture_binary_data_bytes head := by
  obtain ⟨h1, h2, h3, -, -⟩ := hv
  unfold id3_picture_tag_node_add_update
  have c1 : ¬ (mime_type.length = 0 ∨ picture_type > APIC_TYPE_PUBLISHER_STUDIO_LOGOTYPE) := by
    rintro (h | h)
    · exact h1 (List.length_eq_zero.mp h)
    · exact absurd h2 (Nat.not_le.mpr h)
  have c2 : ¬ (picture_file_path.isSome = true ∧ picture_binary_data.isSome = true) := by
    rintro ⟨a, b⟩
    exact h3 (a.trans b.symm)
  rw [if_neg c1, if_neg c2]

/-- The candidate node of a valid call passes its metadata pass. -/
theorem picture_new_node_ok (fs : FileSystem) (mime_type : List Nat) (picture_type : Nat)
    (description : List Nat) (picture_file_path picture_binary_data : Option (List Nat))
    (picture_binary_data_bytes : Nat)
    (hv : picture_call_valid fs mime_type picture_type description picture_file_path
      picture_binary_data) :
    (_picture_node_generate_metadata fs
      (picture_new_node mime_type picture_type description picture_file_path
        picture_binary_data picture_binary_data_bytes)).1 = UTF8_PARSE_SUCCESS := by
  obtain ⟨-, -, -, h4, h5⟩ := hv
  apply picture_metadata_ok
  · cases picture_file_path <;> exact h4
  · cases picture_file_path with
    | none => intro h; exact absurd rfl h
    | some path => intro _; exact h5 path rfl

/-- The fields of the candidate node. -/
theorem picture_new_node_fields (mime_type : List Nat) (picture_type : Nat)
    (description : List Nat) (picture_file_path picture_binary_data : Option (List Nat))
    (picture_binary_data_bytes : Nat) :
    (picture_new_node mime_type picture_type description picture_file_path picture_binary_data
        picture_binary_data_bytes).mime_type = mime_type
    ∧ (picture_new_node mime_type picture_type description picture_file_path
        picture_binary_data picture_binary_data_bytes).picture_type = picture_type
    ∧ (picture_new_node mime_type picture_type description picture_file_path
        picture_binary_data picture_binary_data_bytes).description = description := by
  cases picture_file_path <;> exact ⟨rfl, rfl, rfl⟩

/-- The staged node of a valid call passes its metadata pass. -/
theorem picture_staged_node_ok (fs : FileSystem) (iter_node : id3_picture_tag_node)
    (mime_type : List Nat) (picture_type : Nat) (description : List Nat)
    (picture_file_path picture_binary_data : Option (List Nat))
    (hm : picture_key_matches picture_type description iter_node)
    (hv : picture_call_valid fs mime_type picture_type description picture_file_path
      picture_binary_data) :
    (_picture_node_generate_metadata fs
      (picture_staged_node iter_node mime_type picture_type description picture_file_path
        picture_binary_data)).1 = UTF8_PARSE_SUCCESS := by
  obtain ⟨-, -, h3, h4, h5⟩ := hv
  obtain ⟨-, hk⟩ := hm
  apply picture_metadata_ok
  · unfold picture_staged_node
    simp only
    by_cases hc : picture_type = APIC_TYPE_FILE_ICON ∨ picture_type = APIC_TYPE_OTHER_FILE_ICON
    · rw [if_pos hc]; exact h4
    · rw [if_neg hc]
      rcases hk with h | h | h
      · exact absurd (Or.inl h) hc
      · exact absurd (Or.inr h) hc
      · rw [h]; exact h4
  · unfold picture_staged_node
    cases picture_file_path with
    | none =>
      cases picture_binary_data with
      | none => exact absurd rfl h3
      | some data => intro h; exact absurd rfl h
    | some path =>
      cases picture_binary_data with
      | none => intro _; exact h5 path rfl
      | some data => exact absurd rfl h3

/-- The fields of the staged node: the new mime type, the node's type, the new
description for an icon type and the node's otherwise, the image source that
was given, and the node's own byte count. -/
theorem picture_staged_node_fields (iter_node : id3_picture_tag_node) (mime_type : List Nat)
    (picture_type : Nat) (description : List Nat)
    (picture_file_path picture_binary_data : Option (List Nat)) :
    (picture_staged_node iter_node mime_type picture_type description picture_file_path
        picture_binary_data).mime_type = mime_type
    ∧ (picture_staged_node iter_node mime_type picture_type description picture_file_path
        picture_binary_data).picture_type = iter_node.picture_type
    ∧ ((picture_type = APIC_TYPE_FILE_ICON ∨ picture_type = APIC_TYPE_OTHER_FILE_ICON) →
        (picture_staged_node iter_node mime_type picture_type description picture_file_path
          picture_binary_data).description = description)
    ∧ (¬ (picture_type = APIC_TYPE_FILE_ICON ∨ picture_type = APIC_TYPE_OTHER_FILE_ICON) →
        (picture_staged_node iter_node mime_type picture_type description picture_file_path
          picture_binary_data).description = iter_node.description)
    ∧ (picture_staged_node iter_node mime_type picture_type description picture_file_path
        picture_binary_data).picture_binary_data_bytes = iter_node.picture_binary_data_bytes := by
  unfold picture_staged_node
  refine ⟨rfl, rfl, fun h => ?_, fun h => ?_, rfl⟩
  · simp only [if_pos h]
  · simp only [if_neg h]

/-- A valid call on a list with no matching node answers `NODE_ADD_SUCCESS`
and links the candidate, with its mime type, type and description, after the
last node. -/
theorem picture_add_update_adds (fs : FileSystem) (head : List id3_picture_tag_node)
    (mime_type : List Nat) (picture_type : Nat) (description : List Nat)
    (picture_file_path picture_binary_data : Option (List Nat))
    (picture_binary_data_bytes : Nat)
    (hno : ∀ e ∈ head, ¬ picture_key_matches picture_type description e)
    (hv : picture_call_valid fs mime_type picture_type description picture_file_path
      picture_binary_data) :
    ∃ e : id3_picture_tag_node,
      id3_picture_tag_node_add_update fs head mime_type picture_type description
          picture_file_path picture_binary_data picture_binary_data_bytes
        = (NODE_ADD_SUCCESS, head ++ [e])
      ∧ picture_same_content e
          (picture_new_node mime_type picture_type description picture_file_path
            picture_binary_data picture_binary_data_bytes) := by
  rw [picture_add_update_eq_walk fs head _ _ _ _ _ _ hv]
  have hs := picture_walk_skip_prefix fs mime_type picture_type description picture_file_path
    picture_binary_data picture_binary_data_bytes head [] hno
  rw [List.append_nil] at hs
  rw [hs, picture_walk_nil,
    if_neg (not_not.mpr (picture_new_node_ok fs _ _ _ _ _ picture_binary_data_bytes hv))]
  exact ⟨_, rfl, picture_metadata_keeps fs _⟩

/-- A valid call on a list whose first matching node is `old` answers
`NODE_UPDATE_SUCCESS` and replaces `old`, where it stands, by the staged node
with fresh metadata. -/
theorem picture_add_update_updates (fs : FileSystem) (pre post : List id3_picture_tag_node)
    (old : id3_picture_tag_node) (mime_type : List Nat) (picture_type : Nat)
    (description : List Nat) (picture_file_path picture_binary_data : Option (List Nat))
    (picture_binary_data_bytes : Nat)
    (hpre : ∀ e ∈ pre, ¬ picture_key_matches picture_type description e)
    (hm : picture_key_matches picture_type description old)
    (hv : picture_call_valid fs mime_type picture_type description picture_file_path
      picture_binary_data) :
    ∃ new : id3_picture_tag_node,
      id3_picture_tag_node_add_update fs (pre ++ old :: post) mime_type picture_type description
          picture_file_path picture_binary_data picture_binary_data_bytes
        = (NODE_UPDATE_SUCCESS, pre ++ new :: post)
      ∧ picture_same_content new
          (picture_staged_node old mime_type picture_type description picture_file_path
            picture_binary_data) := by
  rw [picture_add_update_eq_walk fs _ _ _ _ _ _ _ hv,
    picture_walk_skip_prefix fs mime_type picture_type description picture_file_path
      picture_binary_data picture_binary_data_bytes pre (old :: post) hpre]
  have hok := picture_staged_node_ok fs old mime_type picture_type description
    picture_file_path picture_binary_data hm hv
  rcases picture_walk_cons_hit fs mime_type picture_type description picture_file_path
    picture_binary_data picture_binary_data_bytes old post hm with ⟨-, hw⟩ | ⟨hf, -⟩
  · rw [hw]
    exact ⟨_, rfl, picture_updated_node_content fs old mime_type picture_type description
      picture_file_path picture_binary_data⟩
  · exact absurd hok hf

/-! ## The picture store: claims C15, C16 -/

/-- C15. For an icon type `t` (`0x01` or `0x02`) and a list with no entry of
type `t`, two successive valid calls of `id3_picture_tag_node_add_update` with
type `t` answer `NODE_ADD_SUCCESS` then `NODE_UPDATE_SUCCESS`; the list has
grown by exactly one entry, and the one entry of type `t` carries the mime type
and the description of the second call. -/
theorem icon_second_call_updates (fs1 fs2 : FileSystem) (head : List id3_picture_tag_node)
    (t : Nat) (ht : t = APIC_TYPE_FILE_ICON ∨ t = APIC_TYPE_OTHER_FILE_ICON)
    (hno : ∀ e ∈ head, e.picture_type ≠ t)
    (mime1 d1 mime2 d2 : List Nat) (p1 b1 p2 b2 : Option (List Nat)) (n1 n2 : Nat)
    (hv1 : picture_call_valid fs1 mime1 t d1 p1 b1)
    (hv2 : picture_call_valid fs2 mime2 t d2 p2 b2) :
    ∃ e1 e2 : id3_picture_tag_node,
      id3_picture_tag_node_add_update fs1 head mime1 t d1 p1 b1 n1
        = (NODE_ADD_SUCCESS, head ++ [e1])
      ∧ id3_picture_tag_node_add_update fs2 (head ++ [e1]) mime2 t d2 p2 b2 n2
        = (NODE_UPDATE_SUCCESS, head ++ [e2])
      ∧ (head ++ [e2]).length = head.length + 1
      ∧ (head ++ [e2]).filter (fun e => decide (e.picture_type = t)) = [e2]
      ∧ e2.mime_type = mime2 ∧ e2.description = d2 := by
  have hskip : ∀ d, ∀ e ∈ head, ¬ picture_key_matches t d e :=
    fun d e he hm => hno e he hm.1
  obtain ⟨e1, h1, k1⟩ := picture_add_update_adds fs1 head mime1 t d1 p1 b1 n1 (hskip d1) hv1
  have ht1 : e1.picture_type = t := k1.2.1.trans (picture_new_node_fields _ _ _ _ _ _).2.1
  have hm : picture_key_matches t d2 e1 := by
    refine ⟨ht1, ?_⟩
    rcases ht with h | h
    · exact Or.inl h
    · exact Or.inr (Or.inl h)
  obtain ⟨e2, h2, k2⟩ :=
    picture_add_update_updates fs2 head [] e1 mime2 t d2 p2 b2 n2 (hskip d2) hm hv2
  obtain ⟨f1, f2, f3, -, -⟩ := picture_staged_node_fields e1 mime2 t d2 p2 b2
  have ht2 : e2.picture_type = t := (k2.2.1.trans f2).trans ht1
  refine ⟨e1, e2, h1, h2, by simp, ?_, k2.1.trans f1, k2.2.2.1.trans (f3 ht)⟩
  rw [List.filter_append]
  have hnil : head.filter (fun e => decide (e.picture_type = t)) = [] := by
    rw [List.filter_eq_nil_iff]
    intro e he
    simpa using hno e he
  rw [hnil, List.nil_append]
  simp [ht2]

/-- Witness for C15: on an empty list, the icon `0x01` is added with
description `a` and a buffer, then set again with description `b`. -/
theorem icon_second_call_updates_witness :
    ∃ e1 e2 : id3_picture_tag_node,
      id3_picture_tag_node_add_update (fun _ => none) [] [0x78] 1 [0x61] none (some [1, 2]) 2
        = (NODE_ADD_SUCCESS, [] ++ [e1])
      ∧ id3_picture_tag_node_add_update (fun _ => none) ([] ++ [e1]) [0x79] 1 [0x62] none
          (some [3]) 1
        = (NODE_UPDATE_SUCCESS, [] ++ [e2])
      ∧ ([] ++ [e2]).length = ([] : List id3_picture_tag_node).length + 1
      ∧ ([] ++ [e2]).filter (fun e => decide (e.picture_type = 1)) = [e2]
      ∧ e2.mime_type = [0x79] ∧ e2.description = [0x62] :=
  icon_second_call_updates (fun _ => none) (fun _ => none) [] 1 (Or.inl rfl)
    (fun e he => absurd he (List.not_mem_nil e)) [0x78] [0x61] [0x79] [0x62]
    none (some [1, 2]) none (some [3]) 2 1
    ⟨by decide, by decide, by decide, ⟨by decide, by decide⟩, fun p hp => by cases hp⟩
    ⟨by decide, by decide, by decide, ⟨by decide, by decide⟩, fun p hp => by cases hp⟩

/-- The key rule for a type other than the two icon types, on valid calls: a
call whose type and description both equal an entry's updates the first such
entry, which keeps its type and description and gets the mime type and the
file path or buffer of the call, its `picture_binary_data_bytes` staying as it
was; a call that no entry equals in both is appended. -/
theorem picture_standard_key_rule (fs : FileSystem) (t : Nat)
    (ht : ¬ (t = APIC_TYPE_FILE_ICON ∨ t = APIC_TYPE_OTHER_FILE_ICON))
    (mime_type description : List Nat) (picture_file_path picture_binary_data : Option (List Nat))
    (picture_binary_data_bytes : Nat)
    (hv : picture_call_valid fs mime_type t description picture_file_path picture_binary_data) :
    (∀ (pre post : List id3_picture_tag_node) (old : id3_picture_tag_node),
      (∀ e ∈ pre, ¬ (e.picture_type = t ∧ e.description = description)) →
      old.picture_type = t → old.description = description →
      ∃ new : id3_picture_tag_node,
        id3_picture_tag_node_add_update fs (pre ++ old :: post) mime_type t description
            picture_file_path picture_binary_data picture_binary_data_bytes
          = (NODE_UPDATE_SUCCESS, pre ++ new :: post)
        ∧ new.picture_type = t ∧ new.description = description ∧ new.mime_type = mime_type
        ∧ (∀ path, picture_file_path = some path →
            new.picture_file_path = some path ∧ new.is_picture_stored_as_file = 1)
        ∧ (∀ data, picture_binary_data = some data →
            new.picture_binary_data = some data ∧ new.is_picture_stored_as_file = 0)
        ∧ new.picture_binary_data_bytes = old.picture_binary_data_bytes)
    ∧ (∀ head : List id3_picture_tag_node,
      (∀ e ∈ head, ¬ (e.picture_type = t ∧ e.description = description)) →
      ∃ new : id3_picture_tag_node,
        id3_picture_tag_node_add_update fs head mime_type t description
            picture_file_path picture_binary_data picture_binary_data_bytes
          = (NODE_ADD_SUCCESS, head ++ [new])
        ∧ new.picture_type = t ∧ new.description = description ∧ new.mime_type = mime_type) := by
  have hkey : ∀ e : id3_picture_tag_node,
      picture_key_matches t description e ↔ (e.picture_type = t ∧ e.description = description) := by
    intro e
    unfold picture_key_matches
    constructor
    · rintro ⟨a, b | b | b⟩
      · exact absurd (Or.inl b) ht
      · exact absurd (Or.inr b) ht
      · exact ⟨a, b⟩
    · rintro ⟨a, b⟩
      exact ⟨a, Or.inr (Or.inr b)⟩
  refine ⟨fun pre post old hpre h1 h2 => ?_, fun head hno => ?_⟩
  · obtain ⟨new, hw, k⟩ := picture_add_update_updates fs pre post old mime_type t description
      picture_file_path picture_binary_data picture_binary_data_bytes
      (fun e he hm => hpre e he ((hkey e).mp hm)) ((hkey old).mpr ⟨h1, h2⟩) hv
    obtain ⟨f1, f2, -, f4, f5⟩ := picture_staged_node_fields old mime_type t description
      picture_file_path picture_binary_data
    obtain ⟨k1, k2, k3, k4, k5, k6, k7⟩ := k
    refine ⟨new, hw, (k2.trans f2).trans h1, (k3.trans (f4 ht)).trans h2, k1.trans f1, ?_, ?_,
      k7.trans f5⟩
    · intro path hp
      subst hp
      have hb : picture_binary_data = none := by
        cases picture_binary_data with
        | none => rfl
        | some data => exact absurd rfl hv.2.2.1
      subst hb
      exact ⟨k5, k4⟩
    · intro data hb
      subst hb
      exact ⟨k6, by rw [k4]; cases picture_file_path <;> rfl⟩
  · obtain ⟨new, hw, k⟩ := picture_add_update_adds fs head mime_type t description
      picture_file_path picture_binary_data picture_binary_data_bytes
      (fun e he hm => hno e he ((hkey e).mp hm)) hv
    obtain ⟨f1, f2, f3⟩ := picture_new_node_fields mime_type t description picture_file_path
      picture_binary_data picture_binary_data_bytes
    exact ⟨new, hw, k.2.1.trans f2, k.2.2.1.trans f3, k.1.trans f1⟩

/-- C16 at an update with a shorter buffer: the entry of type 3 and description
`x` holds a 5-byte buffer; the call with the same type and description and a
2-byte buffer answers `NODE_UPDATE_SUCCESS`, and the entry then points at the
new buffer with `picture_binary_data_bytes` still 5 (and `num_id3_bytes` still
counting 5 image bytes). -/
theorem picture_update_keeps_old_byte_count :
    id3_picture_tag_node_add_update (fun _ => none)
        [⟨[0x69, 0x6D, 0x61, 0x67, 0x65, 0x2F, 0x70, 0x6E, 0x67], 3, [0x78], 19, 0, none,
          0, none, some [1, 2, 3, 4, 5], 5, false, false⟩]
        [0x69, 0x6D, 0x61, 0x67, 0x65, 0x2F, 0x70, 0x6E, 0x67] 3 [0x78]
        none (some [9, 9]) 2
      = (NODE_UPDATE_SUCCESS,
          [⟨[0x69, 0x6D, 0x61, 0x67, 0x65, 0x2F, 0x70, 0x6E, 0x67], 3, [0x78], 19, 0, none,
            0, none, some [9, 9], 5, false, false⟩])
    ∧ id3_picture_tag_node_add_update (fun _ => none) []
        [0x69, 0x6D, 0x61, 0x67, 0x65, 0x2F, 0x70, 0x6E, 0x67] 3 [0x78]
        none (some [9, 9]) 2
      = (NODE_ADD_SUCCESS,
          [⟨[0x69, 0x6D, 0x61, 0x67, 0x65, 0x2F, 0x70, 0x6E, 0x67], 3, [0x78], 16, 0, none,
            0, none, some [9, 9], 2, false, false⟩]) := by
  decide

/-! ## The picture store: the uniqueness key, claim C18 -/

/-- Replacing a node by one of the same type, with the same description unless
the type is an icon type, keeps it clear of the keys of the other nodes. -/
theorem picture_key_replace (x y : id3_picture_tag_node)
    (ht : y.picture_type = x.picture_type)
    (hd : y.description = x.description
      ∨ (x.picture_type = APIC_TYPE_FILE_ICON ∨ x.picture_type = APIC_TYPE_OTHER_FILE_ICON)) :
    (∀ b : id3_picture_tag_node,
      ¬ picture_key_matches x.picture_type x.description b →
      ¬ picture_key_matches y.picture_type y.description b)
    ∧ (∀ a : id3_picture_tag_node,
      ¬ picture_key_matches a.picture_type a.description x →
      ¬ picture_key_matches a.picture_type a.description y) := by
  unfold picture_key_matches
  constructor
  · intro b hb hy
    apply hb
    rw [ht] at hy
    rcases hd with hd | hd
    · rw [hd] at hy; exact hy
    · exact ⟨hy.1, by rcases hd with h | h; exact Or.inl h; exact Or.inr (Or.inl h)⟩
  · intro a ha hy
    apply ha
    rw [ht] at hy
    rcases hd with hd | hd
    · rw [hd] at hy; exact hy
    · refine ⟨hy.1, ?_⟩
      rw [hy.1] at hd
      rcases hd with h | h
      · exact Or.inl h
      · exact Or.inr (Or.inl h)

/-- The walk keeps the keys pairwise clear of each other, and keeps every
outside key clear that was clear of the list and of the call. -/
theorem picture_walk_keys (fs : FileSystem) (mime_type : List Nat) (picture_type : Nat)
    (description : List Nat) (picture_file_path picture_binary_data : Option (List Nat))
    (picture_binary_data_bytes : Nat) (l : List id3_picture_tag_node)
    (hl : l.Pairwise (fun a b => ¬ picture_key_matches a.picture_type a.description b)) :
    (_picture_add_update_walk fs mime_type picture_type description picture_file_path
        picture_binary_data picture_binary_data_bytes l).2.Pairwise
      (fun a b => ¬ picture_key_matches a.picture_type a.description b)
    ∧ ∀ a : id3_picture_tag_node,
        (∀ b ∈ l, ¬ picture_key_matches a.picture_type a.description b) →
        ¬ picture_key_matches picture_type description a →
        ∀ b ∈ (_picture_add_update_walk fs mime_type picture_type description
            picture_file_path picture_binary_data picture_binary_data_bytes l).2,
          ¬ picture_key_matches a.picture_type a.description b := by
  induction l with
  | nil =>
    rw [picture_walk_nil]
    by_cases hf : (_picture_node_generate_metadata fs
        (picture_new_node mime_type picture_type description picture_file_path
          picture_binary_data picture_binary_data_bytes)).1 ≠ UTF8_PARSE_SUCCESS
    · rw [if_pos hf]
      exact ⟨List.Pairwise.nil, fun a _ _ b hb => absurd hb (List.not_mem_nil b)⟩
    · rw [if_neg hf]
      refine ⟨List.pairwise_singleton _ _, fun a _ ha b hb => ?_⟩
      rw [List.mem_singleton] at hb
      subst hb
      obtain ⟨-, k2, k3, -⟩ := picture_metadata_keeps fs
        (picture_new_node mime_type picture_type description picture_file_path
          picture_binary_data picture_binary_data_bytes)
      obtain ⟨-, f2, f3⟩ := picture_new_node_fields mime_type picture_type description
        picture_file_path picture_binary_data picture_binary_data_bytes
      unfold picture_key_matches at ha ⊢
      rw [k2, k3, f2, f3]
      rintro ⟨t1, t2⟩
      apply ha
      refine ⟨t1.symm, ?_⟩
      rcases t2 with h | h | h
      · exact Or.inl (t1.trans h)
      · exact Or.inr (Or.inl (t1.trans h))
      · exact Or.inr (Or.inr h.symm)
  | cons iter_node next ih =>
    obtain ⟨hhead, htail⟩ := List.pairwise_cons.mp hl
    obtain ⟨ih1, ih2⟩ := ih htail
    by_cases hm : picture_key_matches picture_type description iter_node
    · have hrep : ∀ y : id3_picture_tag_node, y.picture_type = iter_node.picture_type →
          (y.description = iter_node.description
            ∨ (iter_node.picture_type = APIC_TYPE_FILE_ICON
              ∨ iter_node.picture_type = APIC_TYPE_OTHER_FILE_ICON)) →
          (y :: next).Pairwise (fun a b => ¬ picture_key_matches a.picture_type a.description b)
          ∧ ∀ a : id3_picture_tag_node,
              (∀ b ∈ iter_node :: next, ¬ picture_key_matches a.picture_type a.description b) →
              ∀ b ∈ y :: next, ¬ picture_key_matches a.picture_type a.description b := by
        intro y hy1 hy2
        obtain ⟨r1, r2⟩ := picture_key_replace iter_node y hy1 hy2
        refine ⟨List.pairwise_cons.mpr ⟨fun b hb => r1 b (hhead b hb), htail⟩,
          fun a ha b hb => ?_⟩
        rcases List.mem_cons.mp hb with rfl | hb
        · exact r2 a (ha iter_node (List.mem_cons_self _ _))
        · exact ha b (List.mem_cons_of_mem _ hb)
      rcases picture_walk_cons_hit fs mime_type picture_type description picture_file_path
        picture_binary_data picture_binary_data_bytes iter_node next hm with
        ⟨-, hw⟩ | ⟨-, kept, k1, k2, -, -, hw⟩
      · rw [hw]
        obtain ⟨-, k2, k3, -⟩ := picture_updated_node_content fs iter_node mime_type
          picture_type description picture_file_path picture_binary_data
        obtain ⟨-, f2, f3, f4, -⟩ := picture_staged_node_fields iter_node mime_type
          picture_type description picture_file_path picture_binary_data
        have hy2 : (picture_updated_node fs iter_node mime_type picture_type description
                picture_file_path picture_binary_data).description = iter_node.description
            ∨ (iter_node.picture_type = APIC_TYPE_FILE_ICON
              ∨ iter_node.picture_type = APIC_TYPE_OTHER_FILE_ICON) := by
          by_cases hc : picture_type = APIC_TYPE_FILE_ICON
              ∨ picture_type = APIC_TYPE_OTHER_FILE_ICON
          · right
            rw [hm.1]; exact hc
          · left
            exact k3.trans (f4 hc)
        obtain ⟨q1, q2⟩ := hrep _ (k2.trans f2) hy2
        exact ⟨q1, fun a ha _ => q2 a ha⟩
      · rw [hw]
        obtain ⟨q1, q2⟩ := hrep kept k1 (Or.inl k2)
        exact ⟨q1, fun a ha _ => q2 a ha⟩
    · rw [picture_walk_cons_skip _ _ _ _ _ _ _ _ _ hm]
      refine ⟨List.pairwise_cons.mpr ⟨ih2 iter_node hhead hm, ih1⟩, fun a ha hcall b hb => ?_⟩
      rcases List.mem_cons.mp hb with rfl | hb
      · exact ha _ (List.mem_cons_self _ _)
      · exact ih2 a (fun b hb => ha b (List.mem_cons_of_mem _ hb)) hcall b hb

/-- `id3_picture_tag_node_add_update` keeps the keys pairwise clear. -/
theorem picture_add_update_keys (fs : FileSystem) (head : List id3_picture_tag_node)
    (mime_type : List Nat) (picture_type : Nat) (description : List Nat)
    (picture_file_path picture_binary_data : Option (List Nat))
    (picture_binary_data_bytes : Nat)
    (hl : head.Pairwise (fun a b => ¬ picture_key_matches a.picture_type a.description b)) :
    (id3_picture_tag_node_add_update fs head mime_type picture_type description
        picture_file_path picture_binary_data picture_binary_data_bytes).2.Pairwise
      (fun a b => ¬ picture_key_matches a.picture_type a.description b) := by
  unfold id3_picture_tag_node_add_update
  split
  · exact hl
  · split
    · exact hl
    · exact (picture_walk_keys fs _ _ _ _ _ _ head hl).1

theorem picture_delete_walk_sublist (picture_type : Nat) (description : List Nat)
    (head : List id3_picture_tag_node) :
    (_picture_delete_walk picture_type description head).2.Sublist head := by
  induction head with
  | nil => exact List.Sublist.refl _
  | cons iter_node next ih =>
    rw [_picture_delete_walk]
    by_cases hm : iter_node.picture_type = picture_type ∧ iter_node.description = description
    · rw [if_pos hm]
      exact List.sublist_cons_self _ _
    · rw [if_neg hm]
      exact ih.cons₂ _

theorem picture_delete_sublist (head : List id3_picture_tag_node) (picture_type : Nat)
    (description : List Nat) :
    (id3_picture_tag_node_delete head picture_type description).2.Sublist head := by
  cases head with
  | nil => exact List.Sublist.refl _
  | cons a l => exact picture_delete_walk_sublist picture_type description (a :: l)

/-- Every reachable picture list has its keys pairwise clear. -/
theorem picture_reachable_keys (l : List id3_picture_tag_node) (h : PictureReachable l) :
    l.Pairwise (fun a b => ¬ picture_key_matches a.picture_type a.description b) := by
  induction h with
  | empty => exact List.Pairwise.nil
  | add_update fs head mime_type picture_type description picture_file_path picture_binary_data
      picture_binary_data_bytes _ _ ih =>
    exact picture_add_update_keys fs head _ _ _ _ _ _ ih
  | delete head picture_type description _ ih =>
    exact ih.sublist (picture_delete_sublist head picture_type description)

/-- With keys pairwise clear, an icon type occurs at most once. -/
theorem picture_icon_at_most_one (t : Nat)
    (ht : t = APIC_TYPE_FILE_ICON ∨ t = APIC_TYPE_OTHER_FILE_ICON)
    (l : List id3_picture_tag_node)
    (hl : l.Pairwise (fun a b => ¬ picture_key_matches a.picture_type a.description b)) :
    (l.filter (fun e => decide (e.picture_type = t))).length ≤ 1 := by
  induction l with
  | nil => exact Nat.zero_le _
  | cons a l ih =>
    obtain ⟨hhead, htail⟩ := List.pairwise_cons.mp hl
    by_cases ha : a.picture_type = t
    · have hnil : l.filter (fun e => decide (e.picture_type = t)) = [] := by
        rw [List.filter_eq_nil_iff]
        intro b hb hbt
        have hbt2 : b.picture_type = t := by simpa using hbt
        apply hhead b hb
        refine ⟨hbt2.trans ha.symm, ?_⟩
        rw [ha]
        rcases ht with h | h
        · exact Or.inl h
        · exact Or.inr (Or.inl h)
      rw [List.filter_cons_of_pos (by simpa using ha), hnil]
      exact Nat.le_refl _
    · rw [List.filter_cons_of_neg (by simpa using ha)]
      exact ih htail

/-- For every list built by the store functions, over the bytes that the
entries hold or last held: at most one entry of type `0x01`, at most one of
type `0x02`, and no two entries with the same pair of type and description. -/
theorem picture_reachable_bytes_invariant (l : List id3_picture_tag_node)
    (h : PictureReachable l) :
    (l.filter (fun e => decide (e.picture_type = 0x01))).length ≤ 1
    ∧ (l.filter (fun e => decide (e.picture_type = 0x02))).length ≤ 1
    ∧ (l.map (fun e => (e.picture_type, e.description))).Nodup := by
  have hk := picture_reachable_keys l h
  refine ⟨picture_icon_at_most_one 1 (Or.inl rfl) l hk,
    picture_icon_at_most_one 2 (Or.inr rfl) l hk, ?_⟩
  rw [List.Nodup, List.pairwise_map]
  refine hk.imp ?_
  intro a b hab heq
  apply hab
  have h1 : a.picture_type = b.picture_type := congrArg Prod.fst heq
  have h2 : a.description = b.description := congrArg Prod.snd heq
  exact ⟨h1.symm, Or.inr (Or.inr h2.symm)⟩

/-- Calls that each run on a list without a released block build lists that
the store functions build. -/
theorem picture_live_reachable_reachable (l : List id3_picture_tag_node)
    (h : PictureLiveReachable l) : PictureReachable l := by
  induction h with
  | empty => exact PictureReachable.empty
  | add_update fs head mime_type picture_type description picture_file_path picture_binary_data
      picture_binary_data_bytes ht _ _ ih =>
    exact PictureReachable.add_update fs head _ _ _ _ _ _ ht ih
  | delete head picture_type description _ _ ih =>
    exact PictureReachable.delete head _ _ ih

/-- As long as every call of `id3_picture_tag_node_add_update` and
`id3_picture_tag_node_delete` runs on a list in which no entry points to a
released block, the list has at most one entry of type `0x01`, at most one of
type `0x02`, and no two entries with the same pair of type and description. -/
theorem picture_live_reachable_invariant (l : List id3_picture_tag_node)
    (h : PictureLiveReachable l) :
    (l.filter (fun e => decide (e.picture_type = 0x01))).length ≤ 1
    ∧ (l.filter (fun e => decide (e.picture_type = 0x02))).length ≤ 1
    ∧ (l.map (fun e => (e.picture_type, e.description))).Nodup :=
  picture_reachable_bytes_invariant l (picture_live_reachable_reachable l h)

/-- The invariant at the list left when the icon `0x01` is added with
description `a`, set again with description `b`, and a picture of type 3 is
added: each call runs on a list without a released block. -/
theorem picture_live_reachable_invariant_example :
    ((id3_picture_tag_node_add_update (fun _ => none)
        (id3_picture_tag_node_add_update (fun _ => none)
          (id3_picture_tag_node_add_update (fun _ => none) [] [0x78] 1 [0x61] none
            (some [1, 2]) 2).2
          [0x79] 1 [0x62] none (some [3]) 1).2
        [0x78] 3 [0x61] none (some [4]) 1).2.map
      (fun e => (e.picture_type, e.description))).Nodup :=
  (picture_live_reachable_invariant _
    (PictureLiveReachable.add_update _ _ _ _ _ _ _ _ (by decide) (by decide)
      (PictureLiveReachable.add_update _ _ _ _ _ _ _ _ (by decide) (by decide)
        (PictureLiveReachable.add_update _ _ _ _ _ _ _ _ (by decide) (by decide)
          PictureLiveReachable.empty)))).2.2

/-- One step of `_format_output`. -/
theorem format_output_cons (b : Nat) (rest : List Nat) :
    _format_output (b :: rest) =
      if b = 0x25 then
        match rest with
        | [] => none
        | c :: rest2 =>
          if c = 0x25 then (_format_output rest2).map (fun s => 0x25 :: s) else none
      else (_format_output rest).map (fun s => b :: s) := by
  cases rest <;> rfl

/-- A format string without `%` is printed as it stands. -/
theorem format_output_plain (s : List Nat) (h : 0x25 ∉ s) : _format_output s = some s := by
  induction s with
  | nil => rfl
  | cons b rest ih =>
    have hb : ¬ (b = 0x25) := fun e => h (by rw [e]; exact List.mem_cons_self _ _)
    rw [format_output_cons, if_neg hb, ih (fun hm => h (List.mem_cons_of_mem _ hm))]
    rfl

/-- Every allow-listed name has four bytes and is printed as it stands. -/
theorem text_tags_printed : ∀ n ∈ TEXT_TAGS, n.length = 4 ∧ _format_output n = some n := by
  decide

theorem fprintf_plain (s : List Nat) (h : _format_output s = some s) (f : OutFile) :
    fprintf s f = fwrite s f := by
  unfold fprintf
  rw [h]

theorem fwrite_sound (data bytes : List Nat) :
    fwrite data { bytes := bytes, fault := false } = { bytes := bytes ++ data, fault := false } := by
  simp [fwrite]

/-- The unit loop on a buffer that holds `units`, none of them zero, followed
by the terminating unit: each unit is written low byte first. -/
theorem write_utf16_units_terminated (units rest : List Nat) (h : 0 ∉ units) (bytes : List Nat) :
    _write_utf16_units (units ++ 0 :: rest) { bytes := bytes, fault := false }
      = { bytes := bytes ++ units.flatMap (fun u => [u % 256, (u / 256) % 256]),
          fault := false } := by
  induction units generalizing bytes with
  | nil =>
    rw [List.nil_append, _write_utf16_units, if_pos rfl]
    simp
  | cons u units ih =>
    have hu : ¬ (u = 0) := fun e => h (by rw [e]; exact List.mem_cons_self _ _)
    rw [List.cons_append, _write_utf16_units, if_neg hu, fwrite_sound,
      ih (fun hm => h (List.mem_cons_of_mem _ hm)), List.flatMap_cons, List.append_assoc]

/-- A step that only appends, started on a sound stream, extends it. -/
theorem appends_on_sound (w : OutFile → OutFile) (hw : Appends w) (bytes : List Nat) :
    (w { bytes := bytes, fault := false }).bytes = bytes ++ (w OutFile.empty).bytes := by
  rw [hw]
  simp

/-- The text frame writer as its header writes followed by its content
writes. -/
theorem write_text_tag_split (f : OutFile) (node : id3_text_tag_node) :
    _write_text_tag f node =
      (fun g =>
        if node.is_utf8 ≠ 0 then
          fwrite [0x00, 0x00] (_write_utf16 node.tag_value_utf16 (fwrite [0x01, 0xFF, 0xFE] g))
        else fwrite [0x00] (fprintf node.tag_value (fwrite [0x00] g)))
      (fwrite default_flags
        (fwrite (_integer_to_four_byte node.num_id3_bytes _USE_32BIT_FORMAT_SIZE)
          (fprintf node.tag_name f))) := rfl

theorem write_comment_tag_split (f : OutFile) (node : id3_comment_tag_node) :
    _write_comment_tag f node =
      (fun g =>
        if node.is_utf8 ≠ 0 then
          fwrite [0x00, 0x00] (_write_utf16 node.comment_utf16 (fwrite [0xFF, 0xFE]
            (fwrite [0x00, 0x00] (_write_utf16 node.short_content_description_utf16
              (fwrite [0xFF, 0xFE] (fwrite ((node.language ++ [0, 0, 0]).take 3)
                (fwrite [0x01] g)))))))
        else
          fwrite [0x00] (fprintf node.comment (fwrite [0x00]
            (fprintf node.short_content_description
              (fwrite ((node.language ++ [0, 0, 0]).take 3) (fwrite [0x00] g))))))
      (fwrite default_flags
        (fwrite (_integer_to_four_byte node.num_id3_bytes _USE_32BIT_FORMAT_SIZE)
          (fprintf _TAG_NAME_COMMENT f))) := rfl

theorem write_picture_tag_split (fs : FileSystem) (f : OutFile) (node : id3_picture_tag_node) :
    _write_picture_tag fs f node =
      (fun g =>
        _write_picture_data fs
          (if node.is_utf8 ≠ 0 then
            fwrite [0x00, 0x00] (_write_utf16 node.description_utf16 (fwrite [0xFF, 0xFE]
              (fwrite [node.picture_type] (fwrite [0x00] (fprintf node.mime_type
                (fwrite [0x01] g))))))
          else
            fwrite [0x00] (fprintf node.description (fwrite [node.picture_type]
              (fwrite [0x00] (fprintf node.mime_type (fwrite [0x00] g))))))
          node)
      (fwrite default_flags
        (fwrite (_integer_to_four_byte node.num_id3_bytes _USE_32BIT_FORMAT_SIZE)
          (fprintf _TAG_NAME_PICTURE f))) := rfl

/-- The header writes of a frame on an empty file, for a frame ID that is
printed as it stands. -/
theorem frame_header_written (frame_id : List Nat) (h : _format_output frame_id = some frame_id)
    (num_id3_bytes : Nat) :
    fwrite default_flags
        (fwrite (_integer_to_four_byte num_id3_bytes _USE_32BIT_FORMAT_SIZE)
          (fprintf frame_id OutFile.empty))
      = { bytes := frame_id ++ _integer_to_four_byte num_id3_bytes _USE_32BIT_FORMAT_SIZE
            ++ [0x00, 0x00],
          fault := false } := by
  rw [fprintf_plain frame_id h]
  simp [fwrite, OutFile.empty, default_flags]

theorem appends_text_content (node : id3_text_tag_node) :
    Appends (fun g =>
      if node.is_utf8 ≠ 0 then
        fwrite [0x00, 0x00] (_write_utf16 node.tag_value_utf16 (fwrite [0x01, 0xFF, 0xFE] g))
      else fwrite [0x00] (fprintf node.tag_value (fwrite [0x00] g))) := by
  apply appends_ite
  · repeat (first
      | exact appends_fwrite _
      | exact appends_fprintf _
      | exact appends_write_utf16 _
      | apply appends_then)
  · repeat (first
      | exact appends_fwrite _
      | exact appends_fprintf _
      | exact appends_write_utf16 _
      | apply appends_then)

theorem appends_comment_content (node : id3_comment_tag_node) :
    Appends (fun g =>
      if node.is_utf8 ≠ 0 then
        fwrite [0x00, 0x00] (_write_utf16 node.comment_utf16 (fwrite [0xFF, 0xFE]
          (fwrite [0x00, 0x00] (_write_utf16 node.short_content_description_utf16
            (fwrite [0xFF, 0xFE] (fwrite ((node.language ++ [0, 0, 0]).take 3)
              (fwrite [0x01] g)))))))
      else
        fwrite [0x00] (fprintf node.comment (fwrite [0x00]
          (fprintf node.short_content_description
            (fwrite ((node.language ++ [0, 0, 0]).take 3) (fwrite [0x00] g)))))) := by
  apply appends_ite
  · repeat (first
      | exact appends_fwrite _
      | exact appends_fprintf _
      | exact appends_write_utf16 _
      | apply appends_then)
  · repeat (first
      | exact appends_fwrite _
      | exact appends_fprintf _
      | exact appends_write_utf16 _
      | apply appends_then)

theorem appends_picture_content (fs : FileSystem) (node : id3_picture_tag_node) :
    Appends (fun g =>
      _write_picture_data fs
        (if node.is_utf8 ≠ 0 then
          fwrite [0x00, 0x00] (_write_utf16 node.description_utf16 (fwrite [0xFF, 0xFE]
            (fwrite [node.picture_type] (fwrite [0x00] (fprintf node.mime_type
              (fwrite [0x01] g))))))
        else
          fwrite [0x00] (fprintf node.description (fwrite [node.picture_type]
            (fwrite [0x00] (fprintf node.mime_type (fwrite [0x00] g))))))
        node) := by
  apply appends_then _ _ _ (appends_write_picture_data fs node)
  apply appends_ite
  · repeat (first
      | exact appends_fwrite _
      | exact appends_fprintf _
      | exact appends_write_utf16 _
      | apply appends_then)
  · repeat (first
      | exact appends_fwrite _
      | exact appends_fprintf _
      | exact appends_write_utf16 _
      | apply appends_then)

/-! ## Frame headers: claim C11 -/

/-- C11. In the 32-bit format `_integer_to_four_byte` gives, for every
`n < 2 ^ 32`, four bytes, each below `2 ^ 8`, that are the plain big-endian
bytes of `n` (`n / 2 ^ 24`, `n / 2 ^ 16 % 2 ^ 8`, `n / 2 ^ 8 % 2 ^ 8`,
`n % 2 ^ 8`, with no 7-bit spreading); and every frame starts with its
four-character frame ID (the allow-listed name of a text entry, `COMM`,
`APIC`), the four big-endian bytes of the entry's `num_id3_bytes`, and the
flags `00 00`. -/
theorem frame_header_plain_size :
    (∀ n : Nat, n < 2 ^ 32 →
      ∃ b0 b1 b2 b3, _integer_to_four_byte n _USE_32BIT_FORMAT_SIZE = [b0, b1, b2, b3]
        ∧ b0 < 2 ^ 8 ∧ b1 < 2 ^ 8 ∧ b2 < 2 ^ 8 ∧ b3 < 2 ^ 8
        ∧ b0 * 2 ^ 24 + b1 * 2 ^ 16 + b2 * 2 ^ 8 + b3 = n)
    ∧ (∀ n : Nat, n < 2 ^ 32 →
      _integer_to_four_byte n _USE_32BIT_FORMAT_SIZE
        = [n / 2 ^ 24, n / 2 ^ 16 % 2 ^ 8, n / 2 ^ 8 % 2 ^ 8, n % 2 ^ 8])
    ∧ (∀ node : id3_text_tag_node, node.tag_name ∈ TEXT_TAGS →
        node.tag_name.length = 4
        ∧ (_write_text_tag OutFile.empty node).bytes.take 10
          = node.tag_name
            ++ [node.num_id3_bytes / 2 ^ 24 % 2 ^ 8, node.num_id3_bytes / 2 ^ 16 % 2 ^ 8,
                node.num_id3_bytes / 2 ^ 8 % 2 ^ 8, node.num_id3_bytes % 2 ^ 8]
            ++ [0x00, 0x00])
    ∧ (∀ node : id3_comment_tag_node,
        (_write_comment_tag OutFile.empty node).bytes.take 10
          = [0x43, 0x4F, 0x4D, 0x4D]
            ++ [node.num_id3_bytes / 2 ^ 24 % 2 ^ 8, node.num_id3_bytes / 2 ^ 16 % 2 ^ 8,
                node.num_id3_bytes / 2 ^ 8 % 2 ^ 8, node.num_id3_bytes % 2 ^ 8]
            ++ [0x00, 0x00])
    ∧ (∀ (fs : FileSystem) (node : id3_picture_tag_node),
        (_write_picture_tag fs OutFile.empty node).bytes.take 10
          = [0x41, 0x50, 0x49, 0x43]
            ++ [node.num_id3_bytes / 2 ^ 24 % 2 ^ 8, node.num_id3_bytes / 2 ^ 16 % 2 ^ 8,
                node.num_id3_bytes / 2 ^ 8 % 2 ^ 8, node.num_id3_bytes % 2 ^ 8]
            ++ [0x00, 0x00]) := by
  have hpow : ∀ n : Nat, _integer_to_four_byte n _USE_32BIT_FORMAT_SIZE
      = [n / 2 ^ 24 % 2 ^ 8, n / 2 ^ 16 % 2 ^ 8, n / 2 ^ 8 % 2 ^ 8, n % 2 ^ 8] := by
    intro n
    rw [integer_to_four_byte_32bit n]
    norm_num
  refine ⟨fun n hn => ?_, fun n hn => ?_, fun node hname => ?_, fun node => ?_,
    fun fs node => ?_⟩
  · refine ⟨_, _, _, _, integer_to_four_byte_32bit n, ?_⟩
    norm_num at hn ⊢
    omega
  · rw [hpow n]
    have h0 : n / 2 ^ 24 % 2 ^ 8 = n / 2 ^ 24 := by
      norm_num at hn ⊢
      omega
    rw [h0]
  · obtain ⟨hlen, hfmt⟩ := text_tags_printed node.tag_name hname
    refine ⟨hlen, ?_⟩
    rw [← hpow node.num_id3_bytes, write_text_tag_split, frame_header_written _ hfmt]
    simp only []
    rw [appends_on_sound _ (appends_text_content node)]
    exact List.take_left' (by simp [hlen, integer_to_four_byte_length])
  · rw [← hpow node.num_id3_bytes, write_comment_tag_split, frame_header_written _ (by decide)]
    simp only []
    rw [appends_on_sound _ (appends_comment_content node)]
    exact List.take_left' (by simp [_TAG_NAME_COMMENT, integer_to_four_byte_length])
  · rw [← hpow node.num_id3_bytes, write_picture_tag_split, frame_header_written _ (by decide)]
    simp only []
    rw [appends_on_sound _ (appends_picture_content fs node)]
    exact List.take_left' (by simp [_TAG_NAME_PICTURE, integer_to_four_byte_length])

/-- Witness for C11: the size 70000, encoded as `00 01 11 70`, and the header
`54 41 4C 42 00 00 00 06 00 00` of a `TALB` frame of 6 content bytes. -/
theorem frame_header_plain_size_witness :
    (∃ b0 b1 b2 b3, _integer_to_four_byte 70000 _USE_32BIT_FORMAT_SIZE = [b0, b1, b2, b3]
        ∧ b0 < 2 ^ 8 ∧ b1 < 2 ^ 8 ∧ b2 < 2 ^ 8 ∧ b3 < 2 ^ 8
        ∧ b0 * 2 ^ 24 + b1 * 2 ^ 16 + b2 * 2 ^ 8 + b3 = 70000)
    ∧ _integer_to_four_byte 70000 _USE_32BIT_FORMAT_SIZE = [0x00, 0x01, 0x11, 0x70]
    ∧ (_write_text_tag OutFile.empty
          ⟨[0x54, 0x41, 0x4C, 0x42], [0x54, 0x65, 0x73, 0x74], 6, 0, none⟩).bytes.take 10
        = [0x54, 0x41, 0x4C, 0x42, 0x00, 0x00, 0x00, 0x06, 0x00, 0x00] :=
  ⟨frame_header_plain_size.1 70000 (by decide),
    (frame_header_plain_size.2.1 70000 (by decide)).trans (by decide),
    (frame_header_plain_size.2.2.1
      ⟨[0x54, 0x41, 0x4C, 0x42], [0x54, 0x65, 0x73, 0x74], 6, 0, none⟩ (by decide)).2.trans
      (by decide)⟩

/-! ## Frame contents: claims C12, C13 -/

/-- What `_write_text_tag` writes for an entry with an allow-listed name: for
an entry that is not multibyte and whose value holds no `%`, the header, `00`,
the value's bytes and `00`; for a multibyte entry whose buffer holds `units`
(none of them zero) and the terminating unit, the header, `01 FF FE`, every
unit low byte first, and `00 00`. -/
theorem text_frame_content (node : id3_text_tag_node) (hname : node.tag_name ∈ TEXT_TAGS) :
    (node.is_utf8 = 0 → 0x25 ∉ node.tag_value →
      _write_text_tag OutFile.empty node
        = { bytes := node.tag_name
              ++ _integer_to_four_byte node.num_id3_bytes _USE_32BIT_FORMAT_SIZE ++ [0x00, 0x00]
              ++ [0x00] ++ node.tag_value ++ [0x00],
            fault := false })
    ∧ (node.is_utf8 ≠ 0 → ∀ units : List Nat,
        node.tag_value_utf16 = some (units ++ [0]) → 0 ∉ units →
        _write_text_tag OutFile.empty node
          = { bytes := node.tag_name
                ++ _integer_to_four_byte node.num_id3_bytes _USE_32BIT_FORMAT_SIZE
                ++ [0x00, 0x00]
                ++ [0x01, 0xFF, 0xFE] ++ units.flatMap (fun u => [u % 256, (u / 256) % 256])
                ++ [0x00, 0x00],
              fault := false }) := by
  obtain ⟨-, hfmt⟩ := text_tags_printed node.tag_name hname
  refine ⟨fun h0 hv => ?_, fun h1 units hu hz => ?_⟩
  · rw [write_text_tag_split, frame_header_written _ hfmt]
    simp only []
    rw [if_neg (not_not.mpr h0), fwrite_sound, fprintf_plain _ (format_output_plain _ hv),
      fwrite_sound, fwrite_sound]
  · rw [write_text_tag_split, frame_header_written _ hfmt]
    simp only []
    rw [if_pos h1, fwrite_sound, hu]
    show fwrite [0x00, 0x00] (_write_utf16_units (units ++ [0]) _) = _
    rw [write_utf16_units_terminated units [] hz, fwrite_sound]

/-- C12 at the value `%%` for `TALB`: the entry is not multibyte, and the
content written after the 10-byte frame header is `00 25 00`, not `00`, the
two bytes of the value, `00`. -/
theorem text_frame_content_percent :
    id3_text_tag_node_add_update [] [0x54, 0x41, 0x4C, 0x42] [0x25, 0x25]
      = (NODE_ADD_SUCCESS, [⟨[0x54, 0x41, 0x4C, 0x42], [0x25, 0x25], 4, 0, none⟩])
    ∧ (_write_text_tag OutFile.empty
        ⟨[0x54, 0x41, 0x4C, 0x42], [0x25, 0x25], 4, 0, none⟩).bytes.drop 10
      = [0x00, 0x25, 0x00]
    ∧ (_write_text_tag OutFile.empty
        ⟨[0x54, 0x41, 0x4C, 0x42], [0x25, 0x25], 4, 0, none⟩).bytes.drop 10
      ≠ [0x00] ++ [0x25, 0x25] ++ [0x00] := by
  decide

/-- What `_write_comment_tag` writes: for an entry that is not multibyte and
whose two texts hold no `%`, the `COMM` header, `00`, the three language
bytes, the short description and `00`, the comment and `00`; for a multibyte
entry whose two buffers hold `d_units` and `c_units` (none of them zero) and
their terminating units, the header, `01`, the language, then for each of the
two texts `FF FE`, its units low byte first, and `00 00`. -/
theorem comment_frame_content (node : id3_comment_tag_node) :
    (node.is_utf8 = 0 → 0x25 ∉ node.short_content_description → 0x25 ∉ node.comment →
      _write_comment_tag OutFile.empty node
        = { bytes := [0x43, 0x4F, 0x4D, 0x4D]
              ++ _integer_to_four_byte node.num_id3_bytes _USE_32BIT_FORMAT_SIZE ++ [0x00, 0x00]
              ++ [0x00] ++ (node.language ++ [0, 0, 0]).take 3
              ++ node.short_content_description ++ [0x00] ++ node.comment ++ [0x00],
            fault := false })
    ∧ (node.is_utf8 ≠ 0 → ∀ d_units c_units : List Nat,
        node.short_content_description_utf16 = some (d_units ++ [0]) →
        node.comment_utf16 = some (c_units ++ [0]) → 0 ∉ d_units → 0 ∉ c_units →
        _write_comment_tag OutFile.empty node
          = { bytes := [0x43, 0x4F, 0x4D, 0x4D]
                ++ _integer_to_four_byte node.num_id3_bytes _USE_32BIT_FORMAT_SIZE
                ++ [0x00, 0x00]
                ++ [0x01] ++ (node.language ++ [0, 0, 0]).take 3
                ++ [0xFF, 0xFE] ++ d_units.flatMap (fun u => [u % 256, (u / 256) % 256])
                ++ [0x00, 0x00]
                ++ [0xFF, 0xFE] ++ c_units.flatMap (fun u => [u % 256, (u / 256) % 256])
                ++ [0x00, 0x00],
              fault := false }) := by
  refine ⟨fun h0 hd hc => ?_, fun h1 d_units c_units hdu hcu hdz hcz => ?_⟩
  · rw [write_comment_tag_split, frame_header_written _ (by decide)]
    simp only []
    rw [if_neg (not_not.mpr h0), fwrite_sound, fwrite_sound,
      fprintf_plain _ (format_output_plain _ hd), fwrite_sound, fwrite_sound,
      fprintf_plain _ (format_output_plain _ hc), fwrite_sound, fwrite_sound]
    rfl
  · rw [write_comment_tag_split, frame_header_written _ (by decide)]
    simp only []
    rw [if_pos h1, fwrite_sound, fwrite_sound, fwrite_sound, hdu, hcu]
    show fwrite [0x00, 0x00] (_write_utf16_units (c_units ++ [0]) (fwrite [0xFF, 0xFE]
      (fwrite [0x00, 0x00] (_write_utf16_units (d_units ++ [0]) _)))) = _
    rw [write_utf16_units_terminated d_units [] hdz, fwrite_sound, fwrite_sound,
      write_utf16_units_terminated c_units [] hcz, fwrite_sound]
    rfl

/-- In the UTF-16 case both texts get their own `FF FE` and `00 00`, also the
one without a multi-byte character: the entry (`eng`, `a`, `C3 A9`). -/
theorem comment_frame_both_fields_utf16 :
    id3_comment_tag_node_add_update [] [0x65, 0x6E, 0x67] [0x61] [0xC3, 0xA9]
      = (NODE_ADD_SUCCESS,
          [⟨[0x65, 0x6E, 0x67], [0x61], [0xC3, 0xA9], 16, 1, some [0x61, 0],
            some [0xE9, 0]⟩])
    ∧ (_write_comment_tag OutFile.empty
        ⟨[0x65, 0x6E, 0x67], [0x61], [0xC3, 0xA9], 16, 1, some [0x61, 0], some [0xE9, 0]⟩).bytes
      = [0x43, 0x4F, 0x4D, 0x4D, 0, 0, 0, 16, 0, 0]
        ++ [0x01, 0x65, 0x6E, 0x67]
        ++ [0xFF, 0xFE, 0x61, 0x00, 0x00, 0x00]
        ++ [0xFF, 0xFE, 0xE9, 0x00, 0x00, 0x00] := by
  decide

/-- C13 at the comment `%%` (language `eng`, empty short description): the
entry is not multibyte and is cached with 8 content bytes; the content written
after the 10-byte `COMM` header is `00 65 6E 67 00 25 00`, with one `%` where
the comment has two. -/
theorem comment_frame_content_percent :
    id3_comment_tag_node_add_update [] [0x65, 0x6E, 0x67] [] [0x25, 0x25]
      = (NODE_ADD_SUCCESS, [⟨[0x65, 0x6E, 0x67], [], [0x25, 0x25], 8, 0, none, none⟩])
    ∧ (_write_comment_tag OutFile.empty
        ⟨[0x65, 0x6E, 0x67], [], [0x25, 0x25], 8, 0, none, none⟩).bytes
      = [0x43, 0x4F, 0x4D, 0x4D, 0, 0, 0, 8, 0, 0]
        ++ [0x00, 0x65, 0x6E, 0x67, 0x00, 0x25, 0x00]
    ∧ (_write_comment_tag OutFile.empty
        ⟨[0x65, 0x6E, 0x67], [], [0x25, 0x25], 8, 0, none, none⟩).bytes.drop 10
      ≠ [0x00] ++ [0x65, 0x6E, 0x67] ++ [] ++ [0x00] ++ [0x25, 0x25] ++ [0x00] := by
  decide

/-! ## More facts about the UTF codec -/

set_option maxRecDepth 8192 in
/-- The length announced by a first byte, by range. -/
theorem utf8_char_length_ranges :
    ∀ b < 256,
      (b < 0x80 → _utf8_char_length b = 1)
      ∧ (0xC0 ≤ b → b < 0xE0 → _utf8_char_length b = 2 ∧ b &&& 0x1F = b - 0xC0)
      ∧ (0xE0 ≤ b → b < 0xF0 → _utf8_char_length b = 3 ∧ b &&& 0x0F = b - 0xE0)
      ∧ (0xF0 ≤ b → b < 0xF8 → _utf8_char_length b = 4 ∧ b &&& 0x07 = b - 0xF0) := by
  decide

/-- The two masks of the continuation test on a byte `10xxxxxx`. -/
theorem continuation_byte_masks :
    ∀ r < 64, (0x80 + r) &&& 0xC0 = 0x80 ∧ (0x80 + r) &&& 0x3F = r := by
  decide

/-- One round of the continuation loop on a byte `10xxxxxx` appends its six
bits to the codepoint. -/
theorem fold_continuation_eq (acc r : Nat) (hacc : acc < 2 ^ 26) (hr : r < 64) :
    _utf8_fold_continuation acc (0x80 + r) = some (acc * 64 + r) := by
  obtain ⟨h1, h2⟩ := continuation_byte_masks r hr
  unfold _utf8_fold_continuation
  rw [if_neg (not_not.mpr h1), h2, Nat.shiftLeft_eq, Nat.mod_eq_of_lt (by omega)]
  congr 1
  rw [Nat.lor_comm]
  exact lor_eq_add_of_lt r (acc * 2 ^ 6) 6 hr (by omega) |>.trans (by omega)

/-- The units the conversion writes for a codepoint are its standard UTF-16
encoding. -/
theorem utf16_units_standard (cp : Nat) (h : cp ≤ 0x10FFFF) :
    _utf16_units cp = utf16_encoding cp := by
  unfold _utf16_units utf16_encoding
  by_cases c : cp ≤ 0xFFFF
  · rw [if_pos c, if_pos c, Nat.mod_eq_of_lt (by omega)]
  · rw [if_neg c, if_neg c]
    simp only []
    have e : (cp - 0x10000) % 2 ^ 32 = cp - 0x10000 := Nat.mod_eq_of_lt (by omega)
    rw [e, Nat.shiftRight_eq_div_pow]
    have a : (cp - 0x10000) &&& 0x3FF = (cp - 0x10000) % 2 ^ 10 :=
      Nat.and_pow_two_sub_one_eq_mod (cp - 0x10000) 10
    rw [a, Nat.mod_eq_of_lt (by omega), Nat.mod_eq_of_lt (by omega), Nat.add_comm,
      Nat.add_comm ((cp - 0x10000) % 2 ^ 10)]

/-- The continuation loop on one, two and three bytes `10xxxxxx`. -/
theorem utf16_cont_one (acc r : Nat) (hacc : acc < 2 ^ 26) (hr : r < 64)
    (rest out : List Nat) :
    utf8_to_utf16_le_cont 0 acc ((0x80 + r) :: rest) out
      = utf8_to_utf16_le_loop rest (out ++ _utf16_units (acc * 64 + r)) := by
  rw [utf8_to_utf16_le_cont, fold_continuation_eq acc r hacc hr]

theorem utf16_cont_more (n acc r : Nat) (hacc : acc < 2 ^ 26) (hr : r < 64)
    (rest out : List Nat) :
    utf8_to_utf16_le_cont (n + 1) acc ((0x80 + r) :: rest) out
      = utf8_to_utf16_le_cont n (acc * 64 + r) rest out := by
  rw [utf8_to_utf16_le_cont, fold_continuation_eq acc r hacc hr]

/-- The main loop reads the standard encoding of one codepoint and writes its
standard UTF-16 units. -/
theorem utf16_loop_step (cp : Nat) (h2 : cp ≤ 0x10FFFF) (rest out : List Nat) :
    utf8_to_utf16_le_loop (utf8_encoding cp ++ rest) out
      = utf8_to_utf16_le_loop rest (out ++ utf16_encoding cp) := by
  rw [← utf16_units_standard cp h2]
  unfold utf8_encoding
  by_cases c1 : cp < 0x80
  · rw [if_pos c1]
    show utf8_to_utf16_le_loop (cp :: rest) out = _
    have hl := (utf8_char_length_ranges cp (by omega)).1 c1
    rw [utf8_to_utf16_le_loop, hl, if_neg (by decide), if_pos rfl]
  · rw [if_neg c1]
    by_cases c2 : cp < 0x800
    · rw [if_pos c2]
      show utf8_to_utf16_le_loop ((0xC0 + cp / 64) :: (0x80 + cp % 64) :: rest) out = _
      obtain ⟨hl, hm⟩ := (utf8_char_length_ranges (0xC0 + cp / 64) (by omega)).2.1
        (by omega) (by omega)
      rw [utf8_to_utf16_le_loop, hl, if_neg (by decide), if_neg (by decide), if_pos rfl, hm,
        Nat.add_sub_cancel_left, utf16_cont_one _ _ (by omega) (Nat.mod_lt _ (by decide))]
      congr 3
      omega
    · rw [if_neg c2]
      by_cases c3 : cp < 0x10000
      · rw [if_pos c3]
        show utf8_to_utf16_le_loop
          ((0xE0 + cp / 4096) :: (0x80 + cp / 64 % 64) :: (0x80 + cp % 64) :: rest) out = _
        obtain ⟨hl, hm⟩ := (utf8_char_length_ranges (0xE0 + cp / 4096) (by omega)).2.2.1
          (by omega) (by omega)
        rw [utf8_to_utf16_le_loop, hl, if_neg (by decide), if_neg (by decide),
          if_neg (by decide), if_pos rfl, hm, Nat.add_sub_cancel_left,
          utf16_cont_more _ _ _ (by omega) (Nat.mod_lt _ (by decide)),
          utf16_cont_one _ _ (by omega) (Nat.mod_lt _ (by decide))]
        congr 3
        omega
      · rw [if_neg c3]
        show utf8_to_utf16_le_loop
          ((0xF0 + cp / 262144) :: (0x80 + cp / 4096 % 64) :: (0x80 + cp / 64 % 64)
            :: (0x80 + cp % 64) :: rest) out = _
        obtain ⟨hl, hm⟩ := (utf8_char_length_ranges (0xF0 + cp / 262144) (by omega)).2.2.2
          (by omega) (by omega)
        rw [utf8_to_utf16_le_loop, hl, if_neg (by decide), if_neg (by decide),
          if_neg (by decide), if_neg (by decide), hm, Nat.add_sub_cancel_left,
          utf16_cont_more _ _ _ (by omega) (Nat.mod_lt _ (by decide)),
          utf16_cont_more _ _ _ (by omega) (Nat.mod_lt _ (by decide)),
          utf16_cont_one _ _ (by omega) (Nat.mod_lt _ (by decide))]
        congr 3
        omega

/-- The main loop on the standard encoding of a sequence of codepoints. -/
theorem utf16_loop_standard (cps : List Nat) (h : ∀ cp ∈ cps, cp ≤ 0x10FFFF) (out : List Nat) :
    utf8_to_utf16_le_loop (cps.flatMap utf8_encoding) out
      = some (out ++ cps.flatMap utf16_encoding) := by
  induction cps generalizing out with
  | nil =>
    simp only [List.flatMap_nil, List.append_nil]
    rw [utf8_to_utf16_le_loop]
  | cons cp cps ih =>
    rw [List.flatMap_cons, List.flatMap_cons,
      utf16_loop_step cp (h cp (List.mem_cons_self _ _)),
      ih (fun c hc => h c (List.mem_cons_of_mem _ hc)), List.append_assoc]

/-- The conversion on the standard encoding of a sequence of codepoints. -/
theorem utf16_conversion_standard (cps : List Nat) (h : ∀ cp ∈ cps, cp ≤ 0x10FFFF) :
    utf8_to_utf16_le (cps.flatMap utf8_encoding)
      = ⟨UTF16_PARSE_SUCCESS, some (cps.flatMap utf16_encoding ++ [0]),
          (cps.flatMap utf16_encoding).length % 2 ^ 32⟩ := by
  have hloop := utf16_loop_standard cps h []
  rw [List.nil_append] at hloop
  unfold utf8_to_utf16_le
  rw [hloop]

/-- The two shapes of the classifier on a non-empty string. -/
theorem classifier_cons_one (b : Nat) (rest : List Nat) (h : _utf8_char_length b = 1) :
    utf8_contains_multibyte_sequence (b :: rest) = utf8_contains_multibyte_sequence rest := by
  rw [utf8_contains_multibyte_sequence, h]

theorem classifier_cons_multi (b : Nat) (rest : List Nat) (h : 2 ≤ _utf8_char_length b) :
    utf8_contains_multibyte_sequence (b :: rest) = 1 := by
  rw [utf8_contains_multibyte_sequence]
  split
  · rename_i e; omega
  · rename_i e; omega
  · rfl

/-- The classifier never answers `-1` on the standard encoding of a sequence
of codepoints. -/
theorem classifier_standard (cps : List Nat) (h : ∀ cp ∈ cps, cp ≤ 0x10FFFF) :
    utf8_contains_multibyte_sequence (cps.flatMap utf8_encoding) ≠ -1 := by
  induction cps with
  | nil => decide
  | cons cp cps ih =>
    have h2 : cp ≤ 0x10FFFF := h cp (List.mem_cons_self _ _)
    have ih2 := ih (fun c hc => h c (List.mem_cons_of_mem _ hc))
    rw [List.flatMap_cons]
    unfold utf8_encoding
    by_cases c1 : cp < 0x80
    · rw [if_pos c1]
      show utf8_contains_multibyte_sequence (cp :: _) ≠ -1
      rw [classifier_cons_one _ _ ((utf8_char_length_ranges cp (by omega)).1 c1)]
      exact ih2
    · rw [if_neg c1]
      by_cases c2 : cp < 0x800
      · rw [if_pos c2]
        show utf8_contains_multibyte_sequence ((0xC0 + cp / 64) :: _) ≠ -1
        have hl := ((utf8_char_length_ranges (0xC0 + cp / 64) (by omega)).2.1
          (by omega) (by omega)).1
        rw [classifier_cons_multi _ _ (by omega)]
        decide
      · rw [if_neg c2]
        by_cases c3 : cp < 0x10000
        · rw [if_pos c3]
          show utf8_contains_multibyte_sequence ((0xE0 + cp / 4096) :: _) ≠ -1
          have hl := ((utf8_char_length_ranges (0xE0 + cp / 4096) (by omega)).2.2.1
            (by omega) (by omega)).1
          rw [classifier_cons_multi _ _ (by omega)]
          decide
        · rw [if_neg c3]
          show utf8_contains_multibyte_sequence ((0xF0 + cp / 262144) :: _) ≠ -1
          have hl := ((utf8_char_length_ranges (0xF0 + cp / 262144) (by omega)).2.2.2
            (by omega) (by omega)).1
          rw [classifier_cons_multi _ _ (by omega)]
          decide

/-- A scalar value is at most `0x10FFFF`. -/
theorem scalar_value_le (cp : Nat) (h : is_scalar_value cp) : cp ≤ 0x10FFFF := by
  rcases h with ⟨_, h2⟩ | ⟨_, h2⟩ <;> omega

/-- Well-formed UTF-8 passes the classifier and the conversion. -/
theorem well_formed_passes (s : List Nat) (h : well_formed_utf8 s) :
    utf8_contains_multibyte_sequence s ≠ -1
    ∧ (utf8_to_utf16_le s).outcome = UTF16_PARSE_SUCCESS := by
  obtain ⟨cps, hc, rfl⟩ := h
  have hle : ∀ cp ∈ cps, cp ≤ 0x10FFFF := fun cp hcp => scalar_value_le cp (hc cp hcp)
  refine ⟨classifier_standard cps hle, ?_⟩
  rw [utf16_conversion_standard cps hle]

theorem well_formed_accepted (s : List Nat) (h : well_formed_utf8 s) :
    description_accepted s :=
  ⟨(well_formed_passes s h).1, fun _ => (well_formed_passes s h).2⟩

/-! ## The conversion on well-formed input: claim C30 -/

/-- C30. On the well-formed UTF-8 encoding of a sequence of scalar values
(`U+0001..U+D7FF`, `U+E000..U+10FFFF`, shortest form) `utf8_to_utf16_le`
answers `UTF16_PARSE_SUCCESS`, and the units it leaves in the buffer are the
standard UTF-16 encoding of the sequence (one unit equal to the codepoint up to
`0xFFFF`, the surrogate pair above), followed by the terminating unit. -/
theorem utf8_to_utf16_le_standard (cps : List Nat) (h : ∀ cp ∈ cps, is_scalar_value cp) :
    (utf8_to_utf16_le (cps.flatMap utf8_encoding)).outcome = UTF16_PARSE_SUCCESS
    ∧ (utf8_to_utf16_le (cps.flatMap utf8_encoding)).utf16_output_string
      = some (cps.flatMap utf16_encoding ++ [0]) := by
  have hle : ∀ cp ∈ cps, cp ≤ 0x10FFFF := fun cp hcp => scalar_value_le cp (h cp hcp)
  rw [utf16_conversion_standard cps hle]
  exact ⟨rfl, rfl⟩

/-- Witness for C30: the string `41 C3 A9 E2 82 AC F0 9F 98 80` (`A`, `U+00E9`,
`U+20AC`, `U+1F600`) converts to `0041 00E9 20AC D83D DE00`. -/
theorem utf8_to_utf16_le_standard_witness :
    [0x41, 0xE9, 0x20AC, 0x1F600].flatMap utf8_encoding
      = [0x41, 0xC3, 0xA9, 0xE2, 0x82, 0xAC, 0xF0, 0x9F, 0x98, 0x80]
    ∧ (utf8_to_utf16_le [0x41, 0xC3, 0xA9, 0xE2, 0x82, 0xAC, 0xF0, 0x9F, 0x98, 0x80]).outcome
      = UTF16_PARSE_SUCCESS
    ∧ (utf8_to_utf16_le
        [0x41, 0xC3, 0xA9, 0xE2, 0x82, 0xAC, 0xF0, 0x9F, 0x98, 0x80]).utf16_output_string
      = some [0x41, 0xE9, 0x20AC, 0xD83D, 0xDE00, 0] := by
  have hw := utf8_to_utf16_le_standard [0x41, 0xE9, 0x20AC, 0x1F600] (by decide)
  have he : [0x41, 0xE9, 0x20AC, 0x1F600].flatMap utf8_encoding
      = [0x41, 0xC3, 0xA9, 0xE2, 0x82, 0xAC, 0xF0, 0x9F, 0x98, 0x80] := by decide
  rw [he] at hw
  exact ⟨he, hw.1, hw.2.trans (by decide)⟩

/-! ## Facts about the comment store -/

/-- The conversion returns one of its two codes. -/
theorem utf16_outcome_cases (s : List Nat) :
    (utf8_to_utf16_le s).outcome = UTF16_PARSE_SUCCESS
    ∨ (utf8_to_utf16_le s).outcome = UTF16_PARSE_UTF8_MALFORMED := by
  rcases utf8_to_utf16_le_cases s with ⟨_, e⟩ | ⟨units, _, e⟩
  · right; rw [e]
  · left; rw [e]

/-- A failing metadata pass hands the comment node back as it received it. -/
theorem comment_metadata_failure (node : id3_comment_tag_node)
    (h : (_comment_node_generate_metadata node).1 ≠ UTF8_PARSE_SUCCESS) :
    (_comment_node_generate_metadata node).2 = node := by
  unfold _comment_node_generate_metadata at h ⊢
  simp only at h ⊢
  split
  · rfl
  · split
    · split
      · rfl
      · split
        · rfl
        · rename_i h1 h2 h3 h4
          rw [if_neg h1, if_pos h2, if_neg h3, if_neg h4] at h
          exact absurd rfl h
    · rename_i h1 h2
      rw [if_neg h1, if_neg h2] at h
      exact absurd rfl h

/-- The codes a metadata pass over a comment node can return. -/
theorem comment_metadata_codes (node : id3_comment_tag_node) :
    (_comment_node_generate_metadata node).1 = UTF8_PARSE_SUCCESS
    ∨ (_comment_node_generate_metadata node).1 = UTF8_PARSE_MALFORMED
    ∨ (_comment_node_generate_metadata node).1 = UTF16_PARSE_UTF8_MALFORMED := by
  unfold _comment_node_generate_metadata
  simp only
  split
  · right; left; rfl
  · split
    · split
      · rename_i h3
        rcases utf16_outcome_cases node.short_content_description with e | e
        · exact absurd e h3
        · right; right; exact e
      · split
        · rename_i h4
          rcases utf16_outcome_cases node.comment with e | e
          · exact absurd e h4
          · right; right; exact e
        · left; rfl
    · left; rfl

/-- A successful metadata pass keeps language and both texts and sets the flag
and the size from the encoding chosen by the classifier. -/
theorem comment_metadata_success (node : id3_comment_tag_node)
    (h : (_comment_node_generate_metadata node).1 = UTF8_PARSE_SUCCESS) :
    (_comment_node_generate_metadata node).2.language = node.language
    ∧ (_comment_node_generate_metadata node).2.short_content_description
      = node.short_content_description
    ∧ (_comment_node_generate_metadata node).2.comment = node.comment
    ∧ (utf8_contains_multibyte_sequence node.short_content_description = 0
        ∧ utf8_contains_multibyte_sequence node.comment = 0 →
        (_comment_node_generate_metadata node).2.num_id3_bytes
          = (1 + 3 + node.short_content_description.length + 1 + node.comment.length + 1)
            % 2 ^ 32
        ∧ (_comment_node_generate_metadata node).2.is_utf8 = 0
        ∧ (_comment_node_generate_metadata node).2.short_content_description_utf16 = none
        ∧ (_comment_node_generate_metadata node).2.comment_utf16 = none)
    ∧ (¬ (utf8_contains_multibyte_sequence node.short_content_description = 0
        ∧ utf8_contains_multibyte_sequence node.comment = 0) →
        (_comment_node_generate_metadata node).2.num_id3_bytes
          = (1 + 3
              + (2 + 2 * (utf8_to_utf16_le node.short_content_description).utf16_computed_length
                + 2)
              + (2 + 2 * (utf8_to_utf16_le node.comment).utf16_computed_length + 2)) % 2 ^ 32
        ∧ (_comment_node_generate_metadata node).2.is_utf8 = 1
        ∧ (_comment_node_generate_metadata node).2.short_content_description_utf16
          = (utf8_to_utf16_le node.short_content_description).utf16_output_string
        ∧ (_comment_node_generate_metadata node).2.comment_utf16
          = (utf8_to_utf16_le node.comment).utf16_output_string
        ∧ (utf8_to_utf16_le node.short_content_description).outcome = UTF16_PARSE_SUCCESS
        ∧ (utf8_to_utf16_le node.comment).outcome = UTF16_PARSE_SUCCESS) := by
  unfold _comment_node_generate_metadata at h ⊢
  simp only at h ⊢
  by_cases h1 : utf8_contains_multibyte_sequence node.short_content_description = -1
      ∨ utf8_contains_multibyte_sequence node.comment = -1
  · rw [if_pos h1] at h
    cases h
  · rw [if_neg h1] at h ⊢
    by_cases h2 : utf8_contains_multibyte_sequence node.short_content_description = 1
        ∨ utf8_contains_multibyte_sequence node.comment = 1
    · rw [if_pos h2] at h ⊢
      have hne : ¬ (utf8_contains_multibyte_sequence node.short_content_description = 0
          ∧ utf8_contains_multibyte_sequence node.comment = 0) := by
        rintro ⟨a, b⟩
        rcases h2 with c | c
        · rw [a] at c; cases c
        · rw [b] at c; cases c
      by_cases h3 : (utf8_to_utf16_le node.short_content_description).outcome
          ≠ UTF16_PARSE_SUCCESS
      · rw [if_pos h3] at h
        rcases utf16_outcome_cases node.short_content_description with e | e
        · exact absurd e h3
        · rw [e] at h; cases h
      · rw [if_neg h3] at h ⊢
        by_cases h4 : (utf8_to_utf16_le node.comment).outcome ≠ UTF16_PARSE_SUCCESS
        · rw [if_pos h4] at h
          rcases utf16_outcome_cases node.comment with e | e
          · exact absurd e h4
          · rw [e] at h; cases h
        · rw [if_neg h4]
          refine ⟨rfl, rfl, rfl, fun h0 => absurd h0 hne,
            fun _ => ⟨?_, rfl, rfl, rfl, not_not.mp h3, not_not.mp h4⟩⟩
          simp only [_ENCODING_BYTE_LENGTH, _COMMENT_LANGUAGE_LENGTH,
            _ENCODING_UNICODE_BOM_LENGTH, _ENCODING_UNICODE_NULL_LENGTH]
          congr 1
          omega
    · rw [if_neg h2]
      have h0 : utf8_contains_multibyte_sequence node.short_content_description = 0
          ∧ utf8_contains_multibyte_sequence node.comment = 0 := by
        constructor
        · rcases utf8_contains_multibyte_sequence_range node.short_content_description
            with c | c | c
          · exact absurd (Or.inl c) h1
          · exact c
          · exact absurd (Or.inl c) h2
        · rcases utf8_contains_multibyte_sequence_range node.comment with c | c | c
          · exact absurd (Or.inr c) h1
          · exact c
          · exact absurd (Or.inr c) h2
      refine ⟨rfl, rfl, rfl, fun _ => ⟨?_, rfl, rfl, rfl⟩, fun hn => absurd h0 hn⟩
      simp only [_ENCODING_BYTE_LENGTH, _COMMENT_LANGUAGE_LENGTH, _ENCODING_ISO_NULL_LENGTH]

/-- The metadata pass succeeds when the classifier and the conversion accept
both texts. -/
theorem comment_metadata_accepts (node : id3_comment_tag_node)
    (hs : utf8_contains_multibyte_sequence node.short_content_description ≠ -1)
    (hc : utf8_contains_multibyte_sequence node.comment ≠ -1)
    (hs2 : (utf8_to_utf16_le node.short_content_description).outcome = UTF16_PARSE_SUCCESS)
    (hc2 : (utf8_to_utf16_le node.comment).outcome = UTF16_PARSE_SUCCESS) :
    (_comment_node_generate_metadata node).1 = UTF8_PARSE_SUCCESS := by
  unfold _comment_node_generate_metadata
  simp only
  rw [if_neg (by rintro (a | a); exact hs a; exact hc a)]
  split
  · rw [if_neg (not_not.mpr hs2), if_neg (not_not.mpr hc2)]
  · rfl

/-- The two shapes of a walk over the empty list, and the three over a
non-empty one. -/
theorem comment_walk_nil_ok (language short_content_description comment : List Nat)
    (hf : (_comment_node_generate_metadata
      ⟨language, short_content_description, comment, 0, 0, none, none⟩).1
        = UTF8_PARSE_SUCCESS) :
    _comment_add_update_walk language short_content_description comment []
      = (NODE_ADD_SUCCESS,
          [(_comment_node_generate_metadata
            ⟨language, short_content_description, comment, 0, 0, none, none⟩).2]) := by
  rw [_comment_add_update_walk]
  exact if_neg (not_not.mpr hf)

theorem comment_walk_nil_fail (language short_content_description comment : List Nat)
    (hf : (_comment_node_generate_metadata
      ⟨language, short_content_description, comment, 0, 0, none, none⟩).1
        ≠ UTF8_PARSE_SUCCESS) :
    _comment_add_update_walk language short_content_description comment []
      = ((_comment_node_generate_metadata
          ⟨language, short_content_description, comment, 0, 0, none, none⟩).1, []) := by
  rw [_comment_add_update_walk]
  exact if_pos hf

theorem comment_walk_cons_ok (language short_content_description comment : List Nat)
    (iter_node : id3_comment_tag_node) (next : List id3_comment_tag_node)
    (hm : iter_node.language = language
      ∧ iter_node.short_content_description = short_content_description)
    (hf : (_comment_node_generate_metadata { iter_node with comment := comment }).1
      = UTF8_PARSE_SUCCESS) :
    _comment_add_update_walk language short_content_description comment (iter_node :: next)
      = (NODE_UPDATE_SUCCESS,
          (_comment_node_generate_metadata { iter_node with comment := comment }).2 :: next) := by
  rw [_comment_add_update_walk]
  simp only [if_pos hm, if_neg (not_not.mpr hf)]

theorem comment_walk_cons_fail (language short_content_description comment : List Nat)
    (iter_node : id3_comment_tag_node) (next : List id3_comment_tag_node)
    (hm : iter_node.language = language
      ∧ iter_node.short_content_description = short_content_description)
    (hf : (_comment_node_generate_metadata { iter_node with comment := comment }).1
      ≠ UTF8_PARSE_SUCCESS) :
    _comment_add_update_walk language short_content_description comment (iter_node :: next)
      = (NODE_INVALID_TAG_VALUE, iter_node :: next) := by
  rw [_comment_add_update_walk]
  simp only [if_pos hm, if_pos hf, comment_metadata_failure _ hf]

theorem comment_walk_cons_skip (language short_content_description comment : List Nat)
    (iter_node : id3_comment_tag_node) (next : List id3_comment_tag_node)
    (hm : ¬ (iter_node.language = language
      ∧ iter_node.short_content_description = short_content_description)) :
    _comment_add_update_walk language short_content_description comment (iter_node :: next)
      = ((_comment_add_update_walk language short_content_description comment next).1,
          iter_node :: (_comment_add_update_walk language short_content_description comment
            next).2) := by
  rw [_comment_add_update_walk]
  simp only [if_neg hm]

/-- A code of a metadata pass is not a success code of the store. -/
theorem comment_metadata_code_not_node_success (node : id3_comment_tag_node) :
    (_comment_node_generate_metadata node).1 ≠ NODE_ADD_SUCCESS
    ∧ (_comment_node_generate_metadata node).1 ≠ NODE_UPDATE_SUCCESS := by
  rcases comment_metadata_codes node with h | h | h <;> rw [h] <;> decide

/-- After a successful walk the first node carrying the language and the short
description holds the new comment together with the metadata of a successful
pass over it. -/
theorem comment_walk_success (language short_content_description comment : List Nat)
    (head : List id3_comment_tag_node)
    (hok : (_comment_add_update_walk language short_content_description comment head).1
        = NODE_ADD_SUCCESS
      ∨ (_comment_add_update_walk language short_content_description comment head).1
        = NODE_UPDATE_SUCCESS) :
    ∃ node : id3_comment_tag_node, node.language = language
      ∧ node.short_content_description = short_content_description
      ∧ node.comment = comment
      ∧ (_comment_node_generate_metadata node).1 = UTF8_PARSE_SUCCESS
      ∧ (_comment_add_update_walk language short_content_description comment head).2.find?
          (fun n => decide (n.language = language
            ∧ n.short_content_description = short_content_description))
        = some (_comment_node_generate_metadata node).2 := by
  induction head with
  | nil =>
    by_cases hf : (_comment_node_generate_metadata
        ⟨language, short_content_description, comment, 0, 0, none, none⟩).1 = UTF8_PARSE_SUCCESS
    · rw [comment_walk_nil_ok _ _ _ hf]
      refine ⟨_, rfl, rfl, rfl, hf, ?_⟩
      obtain ⟨e1, e2, -⟩ := comment_metadata_success _ hf
      exact List.find?_cons_of_pos _ (by rw [e1, e2]; exact decide_eq_true ⟨rfl, rfl⟩)
    · rw [comment_walk_nil_fail _ _ _ hf] at hok
      have := comment_metadata_code_not_node_success
        ⟨language, short_content_description, comment, 0, 0, none, none⟩
      rcases hok with hok | hok
      · exact absurd hok this.1
      · exact absurd hok this.2
  | cons iter_node next ih =>
    by_cases hm : iter_node.language = language
        ∧ iter_node.short_content_description = short_content_description
    · by_cases hf : (_comment_node_generate_metadata { iter_node with comment := comment }).1
          = UTF8_PARSE_SUCCESS
      · rw [comment_walk_cons_ok _ _ _ _ _ hm hf]
        refine ⟨{ iter_node with comment := comment }, hm.1, hm.2, rfl, hf, ?_⟩
        obtain ⟨e1, e2, -⟩ := comment_metadata_success _ hf
        exact List.find?_cons_of_pos _ (by rw [e1, e2]; exact decide_eq_true hm)
      · rw [comment_walk_cons_fail _ _ _ _ _ hm hf] at hok
        rcases hok with hok | hok <;> cases hok
    · rw [comment_walk_cons_skip _ _ _ _ _ hm] at hok ⊢
      obtain ⟨node, h1, h2, h3, hs, hfind⟩ := ih hok
      refine ⟨node, h1, h2, h3, hs, ?_⟩
      rw [List.find?_cons_of_neg _ (by simpa using hm)]
      exact hfind

/-- The walk succeeds when the classifier and the conversion accept the short
description and the comment. -/
theorem comment_walk_accepts (language short_content_description comment : List Nat)
    (head : List id3_comment_tag_node)
    (hs : utf8_contains_multibyte_sequence short_content_description ≠ -1)
    (hc : utf8_contains_multibyte_sequence comment ≠ -1)
    (hs2 : (utf8_to_utf16_le short_content_description).outcome = UTF16_PARSE_SUCCESS)
    (hc2 : (utf8_to_utf16_le comment).outcome = UTF16_PARSE_SUCCESS) :
    (_comment_add_update_walk language short_content_description comment head).1
        = NODE_ADD_SUCCESS
      ∨ (_comment_add_update_walk language short_content_description comment head).1
        = NODE_UPDATE_SUCCESS := by
  induction head with
  | nil =>
    rw [comment_walk_nil_ok _ _ _ (comment_metadata_accepts _ hs hc hs2 hc2)]
    exact Or.inl rfl
  | cons iter_node next ih =>
    by_cases hm : iter_node.language = language
        ∧ iter_node.short_content_description = short_content_description
    · have hf : (_comment_node_generate_metadata { iter_node with comment := comment }).1
          = UTF8_PARSE_SUCCESS :=
        comment_metadata_accepts _ (by rw [hm.2]; exact hs) hc (by rw [hm.2]; exact hs2) hc2
      rw [comment_walk_cons_ok _ _ _ _ _ hm hf]
      exact Or.inr rfl
    · rw [comment_walk_cons_skip _ _ _ _ _ hm]
      exact ih

/-- A string in which the classifier finds no multi-byte sequence converts. -/
theorem classifier_zero_converts (s : List Nat) (h : utf8_contains_multibyte_sequence s = 0) :
    (utf8_to_utf16_le s).outcome = UTF16_PARSE_SUCCESS := by
  have hloop : ∀ out, ∃ u, utf8_to_utf16_le_loop s out = some u := by
    induction s with
    | nil => exact fun out => ⟨out, by rw [utf8_to_utf16_le_loop]⟩
    | cons b rest ih =>
      intro out
      rw [utf8_contains_multibyte_sequence] at h
      split at h
      · cases h
      · rename_i hl
        rw [utf8_to_utf16_le_loop, hl, if_neg (by decide), if_pos rfl]
        exact ih h _
      · cases h
  obtain ⟨u, hu⟩ := hloop []
  unfold utf8_to_utf16_le
  rw [hu]

/-- A comment the codec rejects makes the metadata pass fail with one of the
two malformed-input codes, whatever the short description. -/
theorem comment_metadata_rejects (node : id3_comment_tag_node)
    (hrej : utf8_contains_multibyte_sequence node.comment = -1
      ∨ (utf8_to_utf16_le node.comment).outcome ≠ UTF16_PARSE_SUCCESS) :
    (_comment_node_generate_metadata node).1 = UTF8_PARSE_MALFORMED
    ∨ (_comment_node_generate_metadata node).1 = UTF16_PARSE_UTF8_MALFORMED := by
  rcases comment_metadata_codes node with h | h | h
  · exfalso
    obtain ⟨-, -, -, h0, h1⟩ := comment_metadata_success node h
    by_cases hz : utf8_contains_multibyte_sequence node.short_content_description = 0
        ∧ utf8_contains_multibyte_sequence node.comment = 0
    · rcases hrej with r | r
      · rw [hz.2] at r; cases r
      · exact r (classifier_zero_converts _ hz.2)
    · obtain ⟨-, -, -, -, -, hcv⟩ := h1 hz
      rcases hrej with r | r
      · unfold _comment_node_generate_metadata at h
        simp only at h
        rw [if_pos (Or.inr r)] at h
        cases h
      · exact r hcv
  · exact Or.inl h
  · exact Or.inr h

/-! ## The comment store: claims C21, C24, C27 -/

/-- The store operation past its two checks is the walk. -/
theorem comment_add_update_eq_walk (head : List id3_comment_tag_node)
    (language short_content_description comment : List Nat)
    (hl : language.length = 3) (hc : comment ≠ []) :
    id3_comment_tag_node_add_update head language short_content_description comment
      = _comment_add_update_walk language short_content_description comment head := by
  unfold id3_comment_tag_node_add_update
  rw [if_neg]
  rintro (h | h)
  · exact h hl
  · exact hc (List.length_eq_zero.mp h)

/-- The store operation refuses a language that is not 3 bytes long and an
empty comment. -/
theorem comment_add_update_refused (head : List id3_comment_tag_node)
    (language short_content_description comment : List Nat)
    (h : language.length ≠ 3 ∨ comment = []) :
    id3_comment_tag_node_add_update head language short_content_description comment
      = (NODE_INVALID_TAG_VALUE, head) := by
  unfold id3_comment_tag_node_add_update
  rw [if_pos]
  rcases h with h | h
  · exact Or.inl h
  · exact Or.inr (by rw [h]; rfl)

/-- C21. `id3_comment_tag_node_add_update` answers `NODE_INVALID_TAG_VALUE` and
leaves the list as it was whenever the language is not exactly 3 bytes long or
the comment is empty; with a 3-byte language, a non-empty well-formed comment
and the empty short description it answers `NODE_ADD_SUCCESS` or
`NODE_UPDATE_SUCCESS`. -/
theorem comment_add_update_validation :
    (∀ (head : List id3_comment_tag_node) (language short_content_description comment : List Nat),
      language.length ≠ 3 ∨ comment = [] →
      id3_comment_tag_node_add_update head language short_content_description comment
        = (NODE_INVALID_TAG_VALUE, head))
    ∧ (∀ (head : List id3_comment_tag_node) (language comment : List Nat),
      language.length = 3 → comment ≠ [] → well_formed_utf8 comment →
      (id3_comment_tag_node_add_update head language [] comment).1 = NODE_ADD_SUCCESS
      ∨ (id3_comment_tag_node_add_update head language [] comment).1 = NODE_UPDATE_SUCCESS) := by
  refine ⟨comment_add_update_refused, fun head language comment hl hc hw => ?_⟩
  rw [comment_add_update_eq_walk head language [] comment hl hc]
  obtain ⟨h1, h2⟩ := well_formed_passes comment hw
  exact comment_walk_accepts language [] comment head (by decide) h1 (by decide) h2

/-- Witness for C21: the language `en` is refused, the empty comment is
refused, and (`eng`, empty short description, `h U+00E9`) is accepted, on a
list holding one comment. -/
theorem comment_add_update_validation_witness :
    id3_comment_tag_node_add_update [⟨[0x65, 0x6E, 0x67], [], [0x41], 7, 0, none, none⟩]
        [0x65, 0x6E] [] [0x41]
      = (NODE_INVALID_TAG_VALUE, [⟨[0x65, 0x6E, 0x67], [], [0x41], 7, 0, none, none⟩])
    ∧ id3_comment_tag_node_add_update [⟨[0x65, 0x6E, 0x67], [], [0x41], 7, 0, none, none⟩]
        [0x65, 0x6E, 0x67] [] []
      = (NODE_INVALID_TAG_VALUE, [⟨[0x65, 0x6E, 0x67], [], [0x41], 7, 0, none, none⟩])
    ∧ ((id3_comment_tag_node_add_update [⟨[0x65, 0x6E, 0x67], [], [0x41], 7, 0, none, none⟩]
        [0x65, 0x6E, 0x67] [] [0x68, 0xC3, 0xA9]).1 = NODE_ADD_SUCCESS
      ∨ (id3_comment_tag_node_add_update [⟨[0x65, 0x6E, 0x67], [], [0x41], 7, 0, none, none⟩]
        [0x65, 0x6E, 0x67] [] [0x68, 0xC3, 0xA9]).1 = NODE_UPDATE_SUCCESS) :=
  ⟨comment_add_update_validation.1 _ _ _ _ (Or.inl (by decide)),
    comment_add_update_validation.1 _ _ _ _ (Or.inr rfl),
    comment_add_update_validation.2 _ _ _ (by decide) (by decide)
      ⟨[0x68, 0xE9], by decide, by decide⟩⟩

/-- C24. After a successful `id3_comment_tag_node_add_update` (texts of bytes
whose encoded size fits the 32-bit size field) the entry with the language and
the short description holds the comment, and its `num_id3_bytes` is
`1 + 3 + strlen(short description) + 1 + strlen(comment) + 1` with `is_utf8 = 0`
when the classifier finds no multi-byte sequence in either text, and
`1 + 3 + (2 + 2 * d + 2) + (2 + 2 * c + 2)` with `is_utf8 = 1` when it finds one
in at least one of them, `d` and `c` being the lengths computed by
`utf8_to_utf16_le` for the short description and the comment; one of the two
cases holds. -/
theorem comment_add_update_num_id3_bytes (head : List id3_comment_tag_node)
    (language short_content_description comment : List Nat)
    (hb1 : ∀ b ∈ short_content_description, b < 256) (hb2 : ∀ b ∈ comment, b < 256)
    (hsize : 2 * short_content_description.length + 2 * comment.length + 12 < 2 ^ 32)
    (hok : (id3_comment_tag_node_add_update head language short_content_description
          comment).1 = NODE_ADD_SUCCESS
      ∨ (id3_comment_tag_node_add_update head language short_content_description
          comment).1 = NODE_UPDATE_SUCCESS) :
    ∃ e : id3_comment_tag_node,
      (id3_comment_tag_node_add_update head language short_content_description comment).2.find?
          (fun n => decide (n.language = language
            ∧ n.short_content_description = short_content_description)) = some e
      ∧ e.comment = comment
      ∧ (utf8_contains_multibyte_sequence short_content_description = 0
          ∧ utf8_contains_multibyte_sequence comment = 0 →
          e.num_id3_bytes = 1 + 3 + short_content_description.length + 1 + comment.length + 1
          ∧ e.is_utf8 = 0)
      ∧ (utf8_contains_multibyte_sequence short_content_description = 1
          ∨ utf8_contains_multibyte_sequence comment = 1 →
          e.num_id3_bytes
            = 1 + 3
              + (2 + 2 * (utf8_to_utf16_le short_content_description).utf16_computed_length + 2)
              + (2 + 2 * (utf8_to_utf16_le comment).utf16_computed_length + 2)
          ∧ e.is_utf8 = 1)
      ∧ ((utf8_contains_multibyte_sequence short_content_description = 0
            ∧ utf8_contains_multibyte_sequence comment = 0)
          ∨ utf8_contains_multibyte_sequence short_content_description = 1
          ∨ utf8_contains_multibyte_sequence comment = 1) := by
  have hvalid : language.length = 3 ∧ comment ≠ [] := by
    by_contra hn
    have hr : language.length ≠ 3 ∨ comment = [] := by
      by_cases h1 : language.length = 3
      · by_cases h2 : comment = []
        · exact Or.inr h2
        · exact absurd ⟨h1, h2⟩ hn
      · exact Or.inl h1
    rw [comment_add_update_refused head language short_content_description comment hr] at hok
    rcases hok with hok | hok <;> cases hok
  rw [comment_add_update_eq_walk head language short_content_description comment
    hvalid.1 hvalid.2] at hok ⊢
  obtain ⟨node, -, hsd, hcm, hs, hfind⟩ :=
    comment_walk_success language short_content_description comment head hok
  obtain ⟨-, -, hc2, h0, h1⟩ := comment_metadata_success node hs
  rw [hsd, hcm] at h0 h1
  have hL1 := utf16_computed_length_le short_content_description hb1
  have hL2 := utf16_computed_length_le comment hb2
  have hcases : (utf8_contains_multibyte_sequence short_content_description = 0
        ∧ utf8_contains_multibyte_sequence comment = 0)
      ∨ utf8_contains_multibyte_sequence short_content_description = 1
      ∨ utf8_contains_multibyte_sequence comment = 1 := by
    by_cases hz : utf8_contains_multibyte_sequence short_content_description = 0
        ∧ utf8_contains_multibyte_sequence comment = 0
    · exact Or.inl hz
    · right
      have hn1 : utf8_contains_multibyte_sequence short_content_description ≠ -1
          ∧ utf8_contains_multibyte_sequence comment ≠ -1 := by
        unfold _comment_node_generate_metadata at hs
        simp only at hs
        rw [hsd, hcm] at hs
        constructor
        · intro hm
          rw [if_pos (Or.inl hm)] at hs
          cases hs
        · intro hm
          rw [if_pos (Or.inr hm)] at hs
          cases hs
      rcases utf8_contains_multibyte_sequence_range short_content_description with a | a | a
      · exact absurd a hn1.1
      · rcases utf8_contains_multibyte_sequence_range comment with b | b | b
        · exact absurd b hn1.2
        · exact absurd ⟨a, b⟩ hz
        · exact Or.inr b
      · exact Or.inl a
  refine ⟨_, hfind, hc2.trans hcm, fun hc => ?_, fun hc => ?_, hcases⟩
  · obtain ⟨e1, e2, -⟩ := h0 hc
    rw [e1, Nat.mod_eq_of_lt (by omega)]
    exact ⟨rfl, e2⟩
  · have hne : ¬ (utf8_contains_multibyte_sequence short_content_description = 0
        ∧ utf8_contains_multibyte_sequence comment = 0) := by
      rintro ⟨a, b⟩
      rcases hc with c | c
      · rw [a] at c; cases c
      · rw [b] at c; cases c
    obtain ⟨e1, e2, -⟩ := h1 hne
    rw [e1, Nat.mod_eq_of_lt (by omega)]
    exact ⟨rfl, e2⟩

/-- Witness for C24: (`eng`, empty short description, `C3 A9`) on an empty
list: the entry has `num_id3_bytes = 14` and `is_utf8 = 1`. -/
theorem comment_add_update_num_id3_bytes_witness :
    ∃ e : id3_comment_tag_node,
      (id3_comment_tag_node_add_update [] [0x65, 0x6E, 0x67] [] [0xC3, 0xA9]).2.find?
          (fun n => decide (n.language = [0x65, 0x6E, 0x67]
            ∧ n.short_content_description = [])) = some e
      ∧ e.num_id3_bytes = 14 ∧ e.is_utf8 = 1 := by
  obtain ⟨e, hf, -, -, h1, -⟩ :=
    comment_add_update_num_id3_bytes [] [0x65, 0x6E, 0x67] [] [0xC3, 0xA9]
      (by decide) (by decide) (by decide) (by decide)
  exact ⟨e, hf, h1 (by decide)⟩

/-- A comment the codec rejects, with a 3-byte language: when no entry has the
language and the short description the call answers one of the two
malformed-input codes; when an entry has them it answers
`NODE_INVALID_TAG_VALUE`.  The list is left as it was in both cases. -/
theorem comment_add_update_malformed (head : List id3_comment_tag_node)
    (language short_content_description comment : List Nat)
    (hl : language.length = 3) (hc : comment ≠ [])
    (hrej : utf8_contains_multibyte_sequence comment = -1
      ∨ (utf8_to_utf16_le comment).outcome ≠ UTF16_PARSE_SUCCESS) :
    ((∀ e ∈ head, ¬ (e.language = language
        ∧ e.short_content_description = short_content_description)) →
      (id3_comment_tag_node_add_update head language short_content_description comment
          = (UTF8_PARSE_MALFORMED, head)
        ∨ id3_comment_tag_node_add_update head language short_content_description comment
          = (UTF16_PARSE_UTF8_MALFORMED, head)))
    ∧ ((∃ e ∈ head, e.language = language
        ∧ e.short_content_description = short_content_description) →
      id3_comment_tag_node_add_update head language short_content_description comment
        = (NODE_INVALID_TAG_VALUE, head)) := by
  rw [comment_add_update_eq_walk head language short_content_description comment hl hc]
  have hfail : ∀ node : id3_comment_tag_node, node.comment = comment →
      (_comment_node_generate_metadata node).1 ≠ UTF8_PARSE_SUCCESS := by
    intro node hn
    rcases comment_metadata_rejects node (by rw [hn]; exact hrej) with h | h <;>
      rw [h] <;> decide
  constructor
  · intro hno
    induction head with
    | nil =>
      rw [comment_walk_nil_fail _ _ _ (hfail _ rfl)]
      rcases comment_metadata_rejects
        ⟨language, short_content_description, comment, 0, 0, none, none⟩ hrej with h | h
      · exact Or.inl (by rw [h])
      · exact Or.inr (by rw [h])
    | cons iter_node next ih =>
      rw [comment_walk_cons_skip _ _ _ _ _ (hno iter_node (List.mem_cons_self _ _))]
      rcases ih (fun e he => hno e (List.mem_cons_of_mem _ he)) with h | h
      · exact Or.inl (by rw [h])
      · exact Or.inr (by rw [h])
  · intro hex
    induction head with
    | nil =>
      obtain ⟨e, he, -⟩ := hex
      exact absurd he (List.not_mem_nil e)
    | cons iter_node next ih =>
      by_cases hm : iter_node.language = language
          ∧ iter_node.short_content_description = short_content_description
      · exact comment_walk_cons_fail _ _ _ _ _ hm (hfail _ rfl)
      · rw [comment_walk_cons_skip _ _ _ _ _ hm]
        obtain ⟨e, he, hk⟩ := hex
        rcases List.mem_cons.mp he with h | h
        · subst h
          exact absurd hk hm
        · rw [ih ⟨e, h, hk⟩]

/-- C27 at the comment `FF` and at the comment `C3 A9 FF` (language `eng`,
empty short description).  On an empty list the calls answer
`UTF8_PARSE_MALFORMED` and `UTF16_PARSE_UTF8_MALFORMED`; on the list holding
the entry that (`eng`, empty, `A`) adds, both answer `NODE_INVALID_TAG_VALUE`. -/
theorem comment_update_malformed_code :
    id3_comment_tag_node_add_update [] [0x65, 0x6E, 0x67] [] [0xFF]
      = (UTF8_PARSE_MALFORMED, [])
    ∧ id3_comment_tag_node_add_update [] [0x65, 0x6E, 0x67] [] [0xC3, 0xA9, 0xFF]
      = (UTF16_PARSE_UTF8_MALFORMED, [])
    ∧ id3_comment_tag_node_add_update [] [0x65, 0x6E, 0x67] [] [0x41]
      = (NODE_ADD_SUCCESS, [⟨[0x65, 0x6E, 0x67], [], [0x41], 7, 0, none, none⟩])
    ∧ id3_comment_tag_node_add_update [⟨[0x65, 0x6E, 0x67], [], [0x41], 7, 0, none, none⟩]
        [0x65, 0x6E, 0x67] [] [0xFF]
      = (NODE_INVALID_TAG_VALUE, [⟨[0x65, 0x6E, 0x67], [], [0x41], 7, 0, none, none⟩])
    ∧ id3_comment_tag_node_add_update [⟨[0x65, 0x6E, 0x67], [], [0x41], 7, 0, none, none⟩]
        [0x65, 0x6E, 0x67] [] [0xC3, 0xA9, 0xFF]
      = (NODE_INVALID_TAG_VALUE, [⟨[0x65, 0x6E, 0x67], [], [0x41], 7, 0, none, none⟩]) := by
  decide

/-! ## Deleting entries: claims C28, C29 -/

/-- A list either has no element with a property, or splits at the first
element that has it. -/
theorem first_match_split {α : Type} (p : α → Prop) (l : List α) :
    (∀ x ∈ l, ¬ p x)
    ∨ ∃ pre x post, l = pre ++ x :: post ∧ (∀ y ∈ pre, ¬ p y) ∧ p x := by
  induction l with
  | nil => exact Or.inl (fun x hx => absurd hx (List.not_mem_nil x))
  | cons a l ih =>
    by_cases ha : p a
    · exact Or.inr ⟨[], a, l, rfl, fun y hy => absurd hy (List.not_mem_nil y), ha⟩
    · rcases ih with h | ⟨pre, x, post, h1, h2, h3⟩
      · left
        intro x hx
        rcases List.mem_cons.mp hx with e | e
        · rw [e]; exact ha
        · exact h x e
      · right
        refine ⟨a :: pre, x, post, by rw [h1]; rfl, ?_, h3⟩
        intro y hy
        rcases List.mem_cons.mp hy with e | e
        · rw [e]; exact ha
        · exact h2 y e

/-- The delete walk over a list with no entry of the name. -/
theorem text_delete_walk_miss (tag_name : List Nat) (head : List id3_text_tag_node)
    (h : ∀ x ∈ head, x.tag_name ≠ tag_name) :
    _text_delete_walk tag_name head = (NODE_NOT_FOUND, head) := by
  induction head with
  | nil => rfl
  | cons iter_node next ih =>
    rw [_text_delete_walk, if_neg (h iter_node (List.mem_cons_self _ _)),
      ih (fun x hx => h x (List.mem_cons_of_mem _ hx))]

/-- The delete walk unlinks the first entry of the name. -/
theorem text_delete_walk_hit (tag_name : List Nat) (pre post : List id3_text_tag_node)
    (e : id3_text_tag_node) (hpre : ∀ x ∈ pre, x.tag_name ≠ tag_name)
    (he : e.tag_name = tag_name) :
    _text_delete_walk tag_name (pre ++ e :: post) = (NODE_DELETE_SUCCESS, pre ++ post) := by
  induction pre with
  | nil =>
    show _text_delete_walk tag_name (e :: post) = _
    rw [_text_delete_walk, if_pos he]
    rfl
  | cons a pre ih =>
    show _text_delete_walk tag_name (a :: (pre ++ e :: post)) = _
    rw [_text_delete_walk, if_neg (hpre a (List.mem_cons_self _ _)),
      ih (fun x hx => hpre x (List.mem_cons_of_mem _ hx))]
    rfl

/-- C28. `id3_text_tag_node_delete` has exactly three outcomes.  On the empty
list it answers `NODE_INVALID_HEAD`.  On a non-empty list with no entry of the
name it answers `NODE_NOT_FOUND` and leaves the list as it was.  Otherwise it
answers `NODE_DELETE_SUCCESS` and the new list is the old one without its
(first) entry of the name, every other entry unchanged and in its place; when
the names in the list are distinct, as they are in every list the store builds,
no entry of the name is left. -/
theorem text_delete_outcomes :
    (∀ tag_name : List Nat, id3_text_tag_node_delete [] tag_name = (NODE_INVALID_HEAD, []))
    ∧ (∀ (head : List id3_text_tag_node) (tag_name : List Nat),
        head ≠ [] → (∀ x ∈ head, x.tag_name ≠ tag_name) →
        id3_text_tag_node_delete head tag_name = (NODE_NOT_FOUND, head))
    ∧ (∀ (pre post : List id3_text_tag_node) (e : id3_text_tag_node) (tag_name : List Nat),
        (∀ x ∈ pre, x.tag_name ≠ tag_name) → e.tag_name = tag_name →
        id3_text_tag_node_delete (pre ++ e :: post) tag_name
            = (NODE_DELETE_SUCCESS, pre ++ post)
          ∧ (((pre ++ e :: post).map (fun x => x.tag_name)).Nodup →
              ∀ x ∈ pre ++ post, x.tag_name ≠ tag_name))
    ∧ (∀ (head : List id3_text_tag_node) (tag_name : List Nat),
        head = [] ∨ (head ≠ [] ∧ ∀ x ∈ head, x.tag_name ≠ tag_name)
        ∨ ∃ pre e post, head = pre ++ e :: post
            ∧ (∀ x ∈ pre, x.tag_name ≠ tag_name) ∧ e.tag_name = tag_name) := by
  refine ⟨fun _ => rfl, fun head tag_name hne hno => ?_,
    fun pre post e tag_name hpre he => ⟨?_, fun hnd x hx => ?_⟩, fun head tag_name => ?_⟩
  · cases head with
    | nil => exact absurd rfl hne
    | cons a l => exact text_delete_walk_miss tag_name (a :: l) hno
  · have hw := text_delete_walk_hit tag_name pre post e hpre he
    cases pre with
    | nil => exact hw
    | cons a l => exact hw
  · rcases List.mem_append.mp hx with h | h
    · exact hpre x h
    · intro hxn
      rw [List.map_append, List.map_cons, List.nodup_append] at hnd
      have h1 := (List.nodup_cons.mp hnd.2.1).1
      apply h1
      rw [he, ← hxn]
      exact List.mem_map_of_mem _ h
  · by_cases hne : head = []
    · exact Or.inl hne
    · rcases first_match_split (fun x : id3_text_tag_node => x.tag_name = tag_name) head
        with h | ⟨pre, x, post, h1, h2, h3⟩
      · exact Or.inr (Or.inl ⟨hne, h⟩)
      · exact Or.inr (Or.inr ⟨pre, x, post, h1, h2, h3⟩)

/-- Witness for C28: on the list `TALB`, `TIT2`, `TPE1`, deleting `TCON`
answers `NODE_NOT_FOUND`, and deleting `TIT2` leaves `TALB`, `TPE1`. -/
theorem text_delete_outcomes_witness :
    id3_text_tag_node_delete
        [⟨[0x54, 0x41, 0x4C, 0x42], [0x41], 3, 0, none⟩,
          ⟨[0x54, 0x49, 0x54, 0x32], [0x42], 3, 0, none⟩,
          ⟨[0x54, 0x50, 0x45, 0x31], [0x43], 3, 0, none⟩]
        [0x54, 0x43, 0x4F, 0x4E]
      = (NODE_NOT_FOUND,
          [⟨[0x54, 0x41, 0x4C, 0x42], [0x41], 3, 0, none⟩,
            ⟨[0x54, 0x49, 0x54, 0x32], [0x42], 3, 0, none⟩,
            ⟨[0x54, 0x50, 0x45, 0x31], [0x43], 3, 0, none⟩])
    ∧ id3_text_tag_node_delete
        ([⟨[0x54, 0x41, 0x4C, 0x42], [0x41], 3, 0, none⟩]
          ++ ⟨[0x54, 0x49, 0x54, 0x32], [0x42], 3, 0, none⟩
            :: [⟨[0x54, 0x50, 0x45, 0x31], [0x43], 3, 0, none⟩])
        [0x54, 0x49, 0x54, 0x32]
      = (NODE_DELETE_SUCCESS,
          [⟨[0x54, 0x41, 0x4C, 0x42], [0x41], 3, 0, none⟩]
            ++ [⟨[0x54, 0x50, 0x45, 0x31], [0x43], 3, 0, none⟩]) :=
  ⟨text_delete_outcomes.2.1 _ _ (by decide) (by decide),
    (text_delete_outcomes.2.2.1 _ _ _ _ (by decide) (by decide)).1⟩

/-- The delete walk over a picture list with no entry of the type and the
description. -/
theorem picture_delete_walk_miss (picture_type : Nat) (description : List Nat)
    (head : List id3_picture_tag_node)
    (h : ∀ x ∈ head, ¬ (x.picture_type = picture_type ∧ x.description = description)) :
    _picture_delete_walk picture_type description head = (NODE_NOT_FOUND, head) := by
  induction head with
  | nil => rfl
  | cons iter_node next ih =>
    rw [_picture_delete_walk, if_neg (h iter_node (List.mem_cons_self _ _)),
      ih (fun x hx => h x (List.mem_cons_of_mem _ hx))]

/-- The delete walk unlinks the first entry of the type and the description. -/
theorem picture_delete_walk_hit (picture_type : Nat) (description : List Nat)
    (pre post : List id3_picture_tag_node) (e : id3_picture_tag_node)
    (hpre : ∀ x ∈ pre, ¬ (x.picture_type = picture_type ∧ x.description = description))
    (he : e.picture_type = picture_type ∧ e.description = description) :
    _picture_delete_walk picture_type description (pre ++ e :: post)
      = (NODE_DELETE_SUCCESS, pre ++ post) := by
  induction pre with
  | nil =>
    show _picture_delete_walk picture_type description (e :: post) = _
    rw [_picture_delete_walk, if_pos he]
    rfl
  | cons a pre ih =>
    show _picture_delete_walk picture_type description (a :: (pre ++ e :: post)) = _
    rw [_picture_delete_walk, if_neg (hpre a (List.mem_cons_self _ _)),
      ih (fun x hx => hpre x (List.mem_cons_of_mem _ hx))]
    rfl

/-- C29, as stated, fails at an icon: the list holds the one entry of type
`0x01` and description `a`; `id3_picture_tag_node_delete` with type `0x01` and
the description `b` answers `NODE_NOT_FOUND` and leaves the entry in the
list. -/
theorem picture_delete_icon_counterexample :
    id3_picture_tag_node_delete
        [⟨[0x78], 1, [0x61], 8, 0, none, 0, none, some [1, 2], 2, false, false⟩] 1 [0x62]
      = (NODE_NOT_FOUND, [⟨[0x78], 1, [0x61], 8, 0, none, 0, none, some [1, 2], 2, false, false⟩])
    ∧ id3_picture_tag_node_add_update (fun _ => none) [] [0x78] 1 [0x61] none (some [1, 2]) 2
      = (NODE_ADD_SUCCESS, [⟨[0x78], 1, [0x61], 8, 0, none, 0, none, some [1, 2], 2, false, false⟩]) := by
  decide

/-- C29, amended.  `id3_picture_tag_node_delete` locates the entry by type and
description together, for the two icon types as for every other type: when no
entry has both, it answers `NODE_NOT_FOUND` on a non-empty list (so also for an
icon type that an entry has with another description) and leaves the list as it
was; otherwise it answers `NODE_DELETE_SUCCESS` and unlinks the first entry
that has both. -/
theorem picture_delete_by_type_and_description :
    (∀ (picture_type : Nat) (description : List Nat),
      id3_picture_tag_node_delete [] picture_type description = (NODE_INVALID_HEAD, []))
    ∧ (∀ (head : List id3_picture_tag_node) (picture_type : Nat) (description : List Nat),
        head ≠ [] →
        (∀ x ∈ head, ¬ (x.picture_type = picture_type ∧ x.description = description)) →
        id3_picture_tag_node_delete head picture_type description = (NODE_NOT_FOUND, head))
    ∧ (∀ (pre post : List id3_picture_tag_node) (e : id3_picture_tag_node)
        (picture_type : Nat) (description : List Nat),
        (∀ x ∈ pre, ¬ (x.picture_type = picture_type ∧ x.description = description)) →
        e.picture_type = picture_type → e.description = description →
        id3_picture_tag_node_delete (pre ++ e :: post) picture_type description
          = (NODE_DELETE_SUCCESS, pre ++ post)) := by
  refine ⟨fun _ _ => rfl, fun head picture_type description hne hno => ?_,
    fun pre post e picture_type description hpre h1 h2 => ?_⟩
  · cases head with
    | nil => exact absurd rfl hne
    | cons a l => exact picture_delete_walk_miss picture_type description (a :: l) hno
  · have hw := picture_delete_walk_hit picture_type description pre post e hpre ⟨h1, h2⟩
    cases pre with
    | nil => exact hw
    | cons a l => exact hw

/-- Witness for the amended C29: on the list holding the icon (`0x01`, `a`) and
the picture (`0x03`, `c`), deleting (`0x02`, `a`) answers `NODE_NOT_FOUND`, and
deleting (`0x01`, `a`) leaves the picture (`0x03`, `c`). -/
theorem picture_delete_by_type_and_description_witness :
    id3_picture_tag_node_delete
        [⟨[0x78], 1, [0x61], 8, 0, none, 0, none, some [1, 2], 2, false, false⟩,
          ⟨[0x78], 3, [0x63], 8, 0, none, 0, none, some [3, 4], 2, false, false⟩] 2 [0x61]
      = (NODE_NOT_FOUND,
          [⟨[0x78], 1, [0x61], 8, 0, none, 0, none, some [1, 2], 2, false, false⟩,
            ⟨[0x78], 3, [0x63], 8, 0, none, 0, none, some [3, 4], 2, false, false⟩])
    ∧ id3_picture_tag_node_delete
        ([] ++ ⟨[0x78], 1, [0x61], 8, 0, none, 0, none, some [1, 2], 2, false, false⟩
          :: [⟨[0x78], 3, [0x63], 8, 0, none, 0, none, some [3, 4], 2, false, false⟩]) 1 [0x61]
      = (NODE_DELETE_SUCCESS,
          [] ++ [⟨[0x78], 3, [0x63], 8, 0, none, 0, none, some [3, 4], 2, false, false⟩]) :=
  ⟨picture_delete_by_type_and_description.2.1 _ _ _ (by decide) (by decide),
    picture_delete_by_type_and_description.2.2 _ _ _ _ _ (by decide) rfl rfl⟩

/-! ## More facts about the picture store -/

/-- The store operation refuses an empty mime type, a type above `0x14`, and a
call that gives both a file path and a buffer. -/
theorem picture_add_update_refused (fs : FileSystem) (head : List id3_picture_tag_node)
    (mime_type : List Nat) (picture_type : Nat) (description : List Nat)
    (picture_file_path picture_binary_data : Option (List Nat))
    (picture_binary_data_bytes : Nat)
    (h : mime_type = [] ∨ picture_type > 0x14
      ∨ (picture_file_path.isSome = true ∧ picture_binary_data.isSome = true)) :
    id3_picture_tag_node_add_update fs head mime_type picture_type description
        picture_file_path picture_binary_data picture_binary_data_bytes
      = (NODE_INVALID_TAG_VALUE, head) := by
  unfold id3_picture_tag_node_add_update
  by_cases c1 : mime_type.length = 0 ∨ picture_type > APIC_TYPE_PUBLISHER_STUDIO_LOGOTYPE
  · rw [if_pos c1]
  · rw [if_neg c1]
    rcases h with h | h | h
    · exact absurd (Or.inl (by rw [h]; rfl)) c1
    · exact absurd (Or.inr h) c1
    · rw [if_pos h]

/-- The store operation past its checks is the walk; a call that gives neither
a file path nor a buffer passes the checks. -/
theorem picture_add_update_past_checks (fs : FileSystem) (head : List id3_picture_tag_node)
    (mime_type : List Nat) (picture_type : Nat) (description : List Nat)
    (picture_file_path picture_binary_data : Option (List Nat))
    (picture_binary_data_bytes : Nat)
    (h1 : mime_type ≠ []) (h2 : picture_type ≤ 0x14)
    (h3 : picture_file_path = none ∨ picture_binary_data = none) :
    id3_picture_tag_node_add_update fs head mime_type picture_type description
        picture_file_path picture_binary_data picture_binary_data_bytes
      = _picture_add_update_walk fs mime_type picture_type description picture_file_path
          picture_binary_data picture_binary_data_bytes head := by
  unfold id3_picture_tag_node_add_update
  have c1 : ¬ (mime_type.length = 0 ∨ picture_type > APIC_TYPE_PUBLISHER_STUDIO_LOGOTYPE) := by
    rintro (h | h)
    · exact h1 (List.length_eq_zero.mp h)
    · exact absurd h2 (Nat.not_le.mpr h)
  have c2 : ¬ (picture_file_path.isSome = true ∧ picture_binary_data.isSome = true) := by
    rintro ⟨a, b⟩
    rcases h3 with h | h
    · rw [h] at a; cases a
    · rw [h] at b; cases b
  rw [if_neg c1, if_neg c2]

/-- The metadata pass on a node stored as a file whose path does not open
answers `NODE_FILE_ERROR`, the description being accepted. -/
theorem picture_metadata_file_error (fs : FileSystem) (node : id3_picture_tag_node)
    (hd : description_accepted node.description)
    (hs : node.is_picture_stored_as_file ≠ 0)
    (hf : node.picture_file_path.bind fs = none) :
    (_picture_node_generate_metadata fs node).1 = NODE_FILE_ERROR := by
  obtain ⟨n2, h⟩ := picture_text_metadata_accepted node hd
  obtain ⟨-, -, -, k4, k5, -, -⟩ := picture_text_metadata_ok node n2 h
  unfold _picture_node_generate_metadata
  simp only [h]
  rw [if_pos (by rw [k4]; exact hs), k5, hf]

/-- The size the metadata pass computes for a node that holds a buffer: the
size of the text part in the encoding chosen by the classifier, plus the
node's `picture_binary_data_bytes`. -/
theorem picture_metadata_buffer_size (fs : FileSystem) (node : id3_picture_tag_node)
    (hd : description_accepted node.description)
    (hs : node.is_picture_stored_as_file = 0) :
    (utf8_contains_multibyte_sequence node.description = 0 →
      (_picture_node_generate_metadata fs node).2.num_id3_bytes
        = ((1 + node.mime_type.length + 1 + 1 + node.description.length + 1) % 2 ^ 32
            + node.picture_binary_data_bytes) % 2 ^ 32
      ∧ (_picture_node_generate_metadata fs node).2.is_utf8 = 0)
    ∧ (utf8_contains_multibyte_sequence node.description = 1 →
      (_picture_node_generate_metadata fs node).2.num_id3_bytes
        = ((1 + node.mime_type.length + 1 + 1 + 2
              + (utf8_to_utf16_le node.description).utf16_computed_length * 2 + 2) % 2 ^ 32
            + node.picture_binary_data_bytes) % 2 ^ 32
      ∧ (_picture_node_generate_metadata fs node).2.is_utf8 = 1) := by
  obtain ⟨d1, d2⟩ := hd
  refine ⟨fun h0 => ?_, fun h1 => ?_⟩
  · have ht : _picture_node_text_metadata node
        = .ok { node with
                is_utf8 := 0
                description_utf16 := none
                num_id3_bytes :=
                  (1 + node.mime_type.length + 1 + 1 + node.description.length + 1) % 2 ^ 32 } := by
      unfold _picture_node_text_metadata
      simp only
      rw [if_neg d1, if_neg (by rw [h0]; decide)]
      rfl
    unfold _picture_node_generate_metadata
    simp only [ht]
    rw [if_neg (not_not.mpr hs)]
    exact ⟨rfl, rfl⟩
  · have ht : _picture_node_text_metadata node
        = .ok { node with
                is_utf8 := 1
                description_utf16 := (utf8_to_utf16_le node.description).utf16_output_string
                num_id3_bytes :=
                  (1 + node.mime_type.length + 1 + 1 + 2
                    + (utf8_to_utf16_le node.description).utf16_computed_length * 2 + 2)
                    % 2 ^ 32 } := by
      unfold _picture_node_text_metadata
      simp only
      rw [if_neg d1, if_pos h1, if_neg (not_not.mpr (d2 h1))]
      rfl
    unfold _picture_node_generate_metadata
    simp only [ht]
    rw [if_neg (not_not.mpr hs)]
    exact ⟨rfl, rfl⟩

/-! ## The picture store: claims C22, C23 -/

/-- C22. `id3_picture_tag_node_add_update` answers `NODE_INVALID_TAG_VALUE` and
leaves the list as it was whenever the mime type is empty, or the type is
above `0x14`, or both a file path and a buffer are given; with a non-empty
mime type, a type from `0x00` to `0x14`, a well-formed (possibly empty)
description and a buffer only, it answers `NODE_ADD_SUCCESS` or
`NODE_UPDATE_SUCCESS`. -/
theorem picture_add_update_validation :
    (∀ (fs : FileSystem) (head : List id3_picture_tag_node) (mime_type : List Nat)
        (picture_type : Nat) (description : List Nat)
        (picture_file_path picture_binary_data : Option (List Nat))
        (picture_binary_data_bytes : Nat),
      mime_type = [] ∨ picture_type > 0x14
        ∨ (picture_file_path.isSome = true ∧ picture_binary_data.isSome = true) →
      id3_picture_tag_node_add_update fs head mime_type picture_type description
          picture_file_path picture_binary_data picture_binary_data_bytes
        = (NODE_INVALID_TAG_VALUE, head))
    ∧ (∀ (fs : FileSystem) (head : List id3_picture_tag_node) (mime_type : List Nat)
        (picture_type : Nat) (description data : List Nat) (picture_binary_data_bytes : Nat),
      mime_type ≠ [] → picture_type ≤ 0x14 → well_formed_utf8 description →
      (id3_picture_tag_node_add_update fs head mime_type picture_type description
          none (some data) picture_binary_data_bytes).1 = NODE_ADD_SUCCESS
      ∨ (id3_picture_tag_node_add_update fs head mime_type picture_type description
          none (some data) picture_binary_data_bytes).1 = NODE_UPDATE_SUCCESS) := by
  refine ⟨picture_add_update_refused, ?_⟩
  intro fs head mime_type picture_type description data n h1 h2 hw
  have hv : picture_call_valid fs mime_type picture_type description none (some data) :=
    ⟨h1, h2, Bool.false_ne_true, well_formed_accepted description hw,
      fun p hp => by cases hp⟩
  rcases first_match_split (picture_key_matches picture_type description) head
    with hno | ⟨pre, old, post, hh, hpre, hm⟩
  · obtain ⟨e, he, -⟩ := picture_add_update_adds fs head mime_type picture_type description
      none (some data) n hno hv
    rw [he]
    exact Or.inl rfl
  · obtain ⟨e, he, -⟩ := picture_add_update_updates fs pre post old mime_type picture_type
      description none (some data) n hpre hm hv
    rw [hh, he]
    exact Or.inr rfl

/-- Witness for C22: on a list holding one picture, the empty mime type, the
type `0x15` and a call with both sources are refused, and the type `0x14` with
the empty description and a buffer is accepted. -/
theorem picture_add_update_validation_witness :
    id3_picture_tag_node_add_update (fun _ => none)
        [⟨[0x78], 3, [0x61], 8, 0, none, 0, none, some [1, 2], 2, false, false⟩]
        [] 3 [0x61] none (some [7]) 1
      = (NODE_INVALID_TAG_VALUE, [⟨[0x78], 3, [0x61], 8, 0, none, 0, none, some [1, 2], 2, false, false⟩])
    ∧ id3_picture_tag_node_add_update (fun _ => none)
        [⟨[0x78], 3, [0x61], 8, 0, none, 0, none, some [1, 2], 2, false, false⟩]
        [0x78] 0x15 [0x61] none (some [7]) 1
      = (NODE_INVALID_TAG_VALUE, [⟨[0x78], 3, [0x61], 8, 0, none, 0, none, some [1, 2], 2, false, false⟩])
    ∧ id3_picture_tag_node_add_update (fun _ => none)
        [⟨[0x78], 3, [0x61], 8, 0, none, 0, none, some [1, 2], 2, false, false⟩]
        [0x78] 3 [0x61] (some [0x70]) (some [7]) 1
      = (NODE_INVALID_TAG_VALUE, [⟨[0x78], 3, [0x61], 8, 0, none, 0, none, some [1, 2], 2, false, false⟩])
    ∧ ((id3_picture_tag_node_add_update (fun _ => none)
          [⟨[0x78], 3, [0x61], 8, 0, none, 0, none, some [1, 2], 2, false, false⟩]
          [0x78] 0x14 [] none (some [7]) 1).1 = NODE_ADD_SUCCESS
      ∨ (id3_picture_tag_node_add_update (fun _ => none)
          [⟨[0x78], 3, [0x61], 8, 0, none, 0, none, some [1, 2], 2, false, false⟩]
          [0x78] 0x14 [] none (some [7]) 1).1 = NODE_UPDATE_SUCCESS) :=
  ⟨picture_add_update_validation.1 _ _ _ _ _ _ _ _ (Or.inl rfl),
    picture_add_update_validation.1 _ _ _ _ _ _ _ _ (Or.inr (Or.inl (by decide))),
    picture_add_update_validation.1 _ _ _ _ _ _ _ _ (Or.inr (Or.inr ⟨rfl, rfl⟩)),
    picture_add_update_validation.2 _ _ _ _ _ _ _ (by decide) (by decide)
      ⟨[], by decide, by decide⟩⟩

/-- A call that gives neither a file path nor a buffer, with a non-empty mime
type, a type up to `0x14` and an accepted description, on a list with no
matching entry: the candidate is linked, with no image source. -/
theorem picture_add_without_source (fs : FileSystem) (head : List id3_picture_tag_node)
    (mime_type : List Nat) (picture_type : Nat) (description : List Nat)
    (picture_binary_data_bytes : Nat)
    (h1 : mime_type ≠ []) (h2 : picture_type ≤ 0x14) (hd : description_accepted description)
    (hno : ∀ e ∈ head, ¬ picture_key_matches picture_type description e) :
    ∃ e : id3_picture_tag_node,
      id3_picture_tag_node_add_update fs head mime_type picture_type description
          none none picture_binary_data_bytes
        = (NODE_ADD_SUCCESS, head ++ [e])
      ∧ e.picture_file_path = none ∧ e.picture_binary_data = none := by
  rw [picture_add_update_past_checks fs head _ _ _ _ _ _ h1 h2 (Or.inl rfl)]
  have hs := picture_walk_skip_prefix fs mime_type picture_type description none
    none picture_binary_data_bytes head [] hno
  rw [List.append_nil] at hs
  have hok : (_picture_node_generate_metadata fs
      (picture_new_node mime_type picture_type description none none
        picture_binary_data_bytes)).1 = UTF8_PARSE_SUCCESS :=
    picture_metadata_ok fs _ hd (fun h => absurd rfl h)
  rw [hs, picture_walk_nil, if_neg (not_not.mpr hok)]
  obtain ⟨-, -, -, -, k5, k6, -⟩ := picture_metadata_keeps fs
    (picture_new_node mime_type picture_type description none none picture_binary_data_bytes)
  exact ⟨_, rfl, k5, k6⟩

/-- C23 at two calls that give neither a file path nor a buffer.  On an empty
list the call answers `NODE_ADD_SUCCESS` and links an entry with no image; on
the list holding the entry (type 3, description `a`, a 2-byte buffer) the call
with the same type and description answers `NODE_UPDATE_SUCCESS` and replaces
the mime type. -/
theorem picture_add_update_without_source :
    id3_picture_tag_node_add_update (fun _ => none) [] [0x78] 3 [0x61] none none 0
      = (NODE_ADD_SUCCESS, [⟨[0x78], 3, [0x61], 6, 0, none, 0, none, none, 0, false, false⟩])
    ∧ id3_picture_tag_node_add_update (fun _ => none)
        [⟨[0x78], 3, [0x61], 8, 0, none, 0, none, some [1, 2], 2, false, false⟩]
        [0x79, 0x7A] 3 [0x61] none none 0
      = (NODE_UPDATE_SUCCESS,
          [⟨[0x79, 0x7A], 3, [0x61], 9, 0, none, 0, none, some [1, 2], 2, false, false⟩]) := by
  decide

/-! ## The picture store: claims C25, C26 -/

/-- A valid call that gives a buffer and `n` as its length, on a list with no
matching entry (sizes that fit the 32-bit size field): the new entry records
`n` as its image byte count and its `num_id3_bytes` is
`1 + strlen(mime type) + 1 + 1 + D + n`, `D` being `strlen(description) + 1`
when the classifier finds no multi-byte sequence and `2 + 2 * u + 2` otherwise,
`u` the length computed by `utf8_to_utf16_le`. -/
theorem picture_add_buffer_size (fs : FileSystem) (head : List id3_picture_tag_node)
    (mime_type : List Nat) (picture_type : Nat) (description data : List Nat) (n : Nat)
    (h1 : mime_type ≠ []) (h2 : picture_type ≤ 0x14) (hd : description_accepted description)
    (hb : ∀ b ∈ description, b < 256)
    (hsize : mime_type.length + 2 * description.length + n + 8 < 2 ^ 32)
    (hno : ∀ e ∈ head, ¬ picture_key_matches picture_type description e) :
    ∃ e : id3_picture_tag_node,
      id3_picture_tag_node_add_update fs head mime_type picture_type description
          none (some data) n
        = (NODE_ADD_SUCCESS, head ++ [e])
      ∧ e.picture_binary_data_bytes = n
      ∧ (utf8_contains_multibyte_sequence description = 0 →
          e.num_id3_bytes = 1 + mime_type.length + 1 + 1 + (description.length + 1) + n)
      ∧ (utf8_contains_multibyte_sequence description = 1 →
          e.num_id3_bytes
            = 1 + mime_type.length + 1 + 1
              + (2 + 2 * (utf8_to_utf16_le description).utf16_computed_length + 2) + n) := by
  rw [picture_add_update_past_checks fs head _ _ _ _ _ _ h1 h2 (Or.inl rfl)]
  have hs := picture_walk_skip_prefix fs mime_type picture_type description none
    (some data) n head [] hno
  rw [List.append_nil] at hs
  have hok : (_picture_node_generate_metadata fs
      (picture_new_node mime_type picture_type description none (some data) n)).1
        = UTF8_PARSE_SUCCESS :=
    picture_metadata_ok fs _ hd (fun h => absurd rfl h)
  rw [hs, picture_walk_nil, if_neg (not_not.mpr hok)]
  obtain ⟨-, -, -, -, -, -, k7⟩ := picture_metadata_keeps fs
    (picture_new_node mime_type picture_type description none (some data) n)
  obtain ⟨s0, s1⟩ := picture_metadata_buffer_size fs
    (picture_new_node mime_type picture_type description none (some data) n) hd rfl
  have hL := utf16_computed_length_le description hb
  refine ⟨_, rfl, k7, fun h0 => ?_, fun hm => ?_⟩
  · rw [(s0 h0).1]
    show ((1 + mime_type.length + 1 + 1 + description.length + 1) % 2 ^ 32 + n) % 2 ^ 32 = _
    rw [Nat.mod_eq_of_lt (by omega), Nat.mod_eq_of_lt (by omega)]
    omega
  · rw [(s1 hm).1]
    show ((1 + mime_type.length + 1 + 1 + 2
      + (utf8_to_utf16_le description).utf16_computed_length * 2 + 2) % 2 ^ 32 + n) % 2 ^ 32 = _
    rw [Nat.mod_eq_of_lt (by omega), Nat.mod_eq_of_lt (by omega)]
    omega

/-- C25 at two updates that give a buffer.  First: the icon `0x01` added with a
4-byte buffer is set again with a 1-byte buffer; the call answers
`NODE_UPDATE_SUCCESS` and the entry holds the new buffer with
`picture_binary_data_bytes` still 4 and `num_id3_bytes = 6 + 4`.  Second: the
entry (type 3, `a`) stored as the 3-byte file `p` is set again with a 2-byte
buffer; the entry then holds the buffer with `picture_binary_data_bytes = 0`
and `num_id3_bytes = 6` (and still points to the block of the path, which the
call has released). -/
theorem picture_buffer_update_stale_size :
    id3_picture_tag_node_add_update (fun _ => none) [] [0x78] 1 [0x61] none
        (some [1, 2, 3, 4]) 4
      = (NODE_ADD_SUCCESS, [⟨[0x78], 1, [0x61], 10, 0, none, 0, none, some [1, 2, 3, 4], 4, false, false⟩])
    ∧ id3_picture_tag_node_add_update (fun _ => none)
        [⟨[0x78], 1, [0x61], 10, 0, none, 0, none, some [1, 2, 3, 4], 4, false, false⟩]
        [0x78] 1 [0x62] none (some [7]) 1
      = (NODE_UPDATE_SUCCESS, [⟨[0x78], 1, [0x62], 10, 0, none, 0, none, some [7], 4, false, false⟩])
    ∧ id3_picture_tag_node_add_update (fun p => if p = [0x70] then some [1, 2, 3] else none) []
        [0x78] 3 [0x61] (some [0x70]) none 0
      = (NODE_ADD_SUCCESS, [⟨[0x78], 3, [0x61], 9, 0, none, 1, some [0x70], none, 0, false, false⟩])
    ∧ id3_picture_tag_node_add_update (fun p => if p = [0x70] then some [1, 2, 3] else none)
        [⟨[0x78], 3, [0x61], 9, 0, none, 1, some [0x70], none, 0, false, false⟩]
        [0x78] 3 [0x61] none (some [7, 7]) 2
      = (NODE_UPDATE_SUCCESS,
          [⟨[0x78], 3, [0x61], 6, 0, none, 0, some [0x70], some [7, 7], 0, false, true⟩]) := by
  decide

/-- A call that gives a file path that does not open, with a non-empty mime
type, a type up to `0x14` and an accepted description: on a list with no
matching entry it answers `NODE_INVALID_TAG_VALUE` and leaves the list as it
was; on a list with a matching entry it answers `NODE_FILE_ERROR`. -/
theorem picture_unopenable_file (fs : FileSystem) (head : List id3_picture_tag_node)
    (mime_type : List Nat) (picture_type : Nat) (description path : List Nat)
    (picture_binary_data_bytes : Nat)
    (h1 : mime_type ≠ []) (h2 : picture_type ≤ 0x14) (hd : description_accepted description)
    (hf : fs path = none) :
    ((∀ e ∈ head, ¬ picture_key_matches picture_type description e) →
      id3_picture_tag_node_add_update fs head mime_type picture_type description
          (some path) none picture_binary_data_bytes
        = (NODE_INVALID_TAG_VALUE, head))
    ∧ ((∃ e ∈ head, picture_key_matches picture_type description e) →
      (id3_picture_tag_node_add_update fs head mime_type picture_type description
          (some path) none picture_binary_data_bytes).1 = NODE_FILE_ERROR) := by
  rw [picture_add_update_past_checks fs head _ _ _ _ _ _ h1 h2 (Or.inr rfl)]
  constructor
  · intro hno
    have hs := picture_walk_skip_prefix fs mime_type picture_type description (some path)
      none picture_binary_data_bytes head [] hno
    rw [List.append_nil] at hs
    have hfail : (_picture_node_generate_metadata fs
        (picture_new_node mime_type picture_type description (some path) none
          picture_binary_data_bytes)).1 ≠ UTF8_PARSE_SUCCESS := by
      rw [picture_metadata_file_error fs
        (picture_new_node mime_type picture_type description (some path) none
          picture_binary_data_bytes) hd Nat.one_ne_zero hf]
      decide
    rw [hs, picture_walk_nil, if_pos hfail, List.append_nil]
  · rintro ⟨e, he, hk⟩
    rcases first_match_split (picture_key_matches picture_type description) head
      with hno | ⟨pre, old, post, hh, hpre, hm⟩
    · exact absurd hk (hno e he)
    · rw [hh, picture_walk_skip_prefix fs mime_type picture_type description (some path)
        none picture_binary_data_bytes pre (old :: post) hpre]
      have hcode : (_picture_node_generate_metadata fs
          (picture_staged_node old mime_type picture_type description (some path) none)).1
            = NODE_FILE_ERROR := by
        apply picture_metadata_file_error
        · unfold picture_staged_node
          simp only
          by_cases hc : picture_type = APIC_TYPE_FILE_ICON
              ∨ picture_type = APIC_TYPE_OTHER_FILE_ICON
          · rw [if_pos hc]; exact hd
          · rw [if_neg hc]
            rcases hm.2 with h | h | h
            · exact absurd (Or.inl h) hc
            · exact absurd (Or.inr h) hc
            · rw [h]; exact hd
        · exact Nat.one_ne_zero
        · exact hf
      rcases picture_walk_cons_hit fs mime_type picture_type description (some path)
        none picture_binary_data_bytes old post hm with ⟨hok, -⟩ | ⟨-, kept, -, -, -, -, hw⟩
      · rw [hcode] at hok
        cases hok
      · rw [hw]
        exact hcode

/-- An update that fails on a file that does not open, for a type that is not
an icon type: the call answers `NODE_FILE_ERROR` and the entry it matched is
left, where it stands, with its type, the bytes of its description, and the
description block released. -/
theorem picture_unopenable_update_releases (fs : FileSystem)
    (pre post : List id3_picture_tag_node) (old : id3_picture_tag_node)
    (mime_type : List Nat) (picture_type : Nat) (description path : List Nat)
    (picture_binary_data_bytes : Nat)
    (h1 : mime_type ≠ []) (h2 : picture_type ≤ 0x14) (hd : description_accepted description)
    (hf : fs path = none)
    (hicon : ¬ (picture_type = APIC_TYPE_FILE_ICON ∨ picture_type = APIC_TYPE_OTHER_FILE_ICON))
    (hpre : ∀ e ∈ pre, ¬ picture_key_matches picture_type description e)
    (hm : picture_key_matches picture_type description old) :
    ∃ kept : id3_picture_tag_node,
      kept.picture_type = old.picture_type ∧ kept.description = old.description
      ∧ kept.description_released = true
      ∧ id3_picture_tag_node_add_update fs (pre ++ old :: post) mime_type picture_type
          description (some path) none picture_binary_data_bytes
        = (NODE_FILE_ERROR, pre ++ kept :: post) := by
  rw [picture_add_update_past_checks fs _ _ _ _ _ _ _ h1 h2 (Or.inr rfl),
    picture_walk_skip_prefix fs mime_type picture_type description (some path)
      none picture_binary_data_bytes pre (old :: post) hpre]
  have hcode : (_picture_node_generate_metadata fs
      (picture_staged_node old mime_type picture_type description (some path) none)).1
        = NODE_FILE_ERROR := by
    apply picture_metadata_file_error
    · unfold picture_staged_node
      simp only
      rw [if_neg hicon]
      rcases hm.2 with h | h | h
      · exact absurd (Or.inl h) hicon
      · exact absurd (Or.inr h) hicon
      · rw [h]; exact hd
    · exact Nat.one_ne_zero
    · exact hf
  rcases picture_walk_cons_hit fs mime_type picture_type description (some path)
    none picture_binary_data_bytes old post hm with ⟨hok, -⟩ | ⟨-, kept, k1, k2, -, k4, hw⟩
  · rw [hcode] at hok
    cases hok
  · rw [hw, hcode]
    exact ⟨kept, k1, k2, k4 hicon, rfl⟩

/-- C26 at the path `p` that does not open (type 3, description `a`).  On an
empty list the call answers `NODE_INVALID_TAG_VALUE`; on the list holding the
entry (type 3, `a`, a 2-byte buffer) it answers `NODE_FILE_ERROR`. -/
theorem picture_add_unopenable_file_code :
    id3_picture_tag_node_add_update (fun _ => none) [] [0x78] 3 [0x61] (some [0x70]) none 0
      = (NODE_INVALID_TAG_VALUE, [])
    ∧ (id3_picture_tag_node_add_update (fun _ => none)
        [⟨[0x78], 3, [0x61], 8, 0, none, 0, none, some [1, 2], 2, false, false⟩]
        [0x78] 3 [0x61] (some [0x70]) none 0).1 = NODE_FILE_ERROR := by
  decide

/-! ## The conversion: buffer, length and byte order -/

set_option maxRecDepth 8192 in
/-- The bytes by class: length 0, length 1, the continuation test, and the
largest length. -/
theorem utf8_byte_classes :
    ∀ b < 256,
      (_utf8_char_length b = 0 ↔ (0xB8 ≤ b ∧ b ≤ 0xBF) ∨ (0xF8 ≤ b ∧ b ≤ 0xFF))
      ∧ (_utf8_char_length b = 1 ↔ b < 0x80)
      ∧ (b &&& 0xC0 = 0x80 ↔ 0x80 ≤ b ∧ b < 0xC0)
      ∧ _utf8_char_length b ≤ 4 := by
  decide

/-- One round of the continuation loop, on any byte: a byte that is not
`10xxxxxx` ends the conversion, a byte `10xxxxxx` appends its six bits. -/
theorem fold_continuation_cases (acc c : Nat) (hacc : acc < 2 ^ 26) (hc : c < 256) :
    (¬ (0x80 ≤ c ∧ c < 0xC0) ∧ _utf8_fold_continuation acc c = none)
    ∨ ((0x80 ≤ c ∧ c < 0xC0) ∧ _utf8_fold_continuation acc c = some (acc * 64 + c % 64)) := by
  by_cases h : 0x80 ≤ c ∧ c < 0xC0
  · right
    refine ⟨h, ?_⟩
    have e : c = 0x80 + (c - 0x80) := by omega
    have r : c % 64 = c - 0x80 := by omega
    rw [r]
    calc _utf8_fold_continuation acc c
        = _utf8_fold_continuation acc (0x80 + (c - 0x80)) := by rw [← e]
      _ = some (acc * 64 + (c - 0x80)) := fold_continuation_eq acc (c - 0x80) hacc (by omega)
  · left
    refine ⟨h, ?_⟩
    unfold _utf8_fold_continuation
    rw [if_pos]
    intro hm
    exact h (((utf8_byte_classes c hc).2.2.1).mp hm)

/-- Every unit the conversion writes for a codepoint fits 16 bits. -/
theorem utf16_units_lt (cp : Nat) : ∀ x ∈ _utf16_units cp, x < 2 ^ 16 := by
  intro x hx
  unfold _utf16_units at hx
  split at hx
  · rw [List.mem_singleton] at hx
    rw [hx]
    exact Nat.mod_lt _ (by decide)
  · simp only [List.mem_cons, List.mem_singleton, List.not_mem_nil, or_false] at hx
    rcases hx with hx | hx <;> rw [hx] <;> exact Nat.mod_lt _ (by decide)

/-- Both loops of the conversion only append to the units written so far; what
they append is at most one unit per byte read (the continuation loop may use
the slot of the first byte of its character), each unit fitting 16 bits. -/
theorem utf16_loop_appends (s : List Nat) (hs : ∀ b ∈ s, b < 256) :
    (∀ out u, utf8_to_utf16_le_loop s out = some u →
      ∃ v, u = out ++ v ∧ v.length ≤ s.length ∧ ∀ x ∈ v, x < 2 ^ 16)
    ∧ (∀ n cp out u, utf8_to_utf16_le_cont n cp s out = some u →
      ∃ v, u = out ++ v ∧ v.length ≤ s.length + 1 ∧ ∀ x ∈ v, x < 2 ^ 16) := by
  induction s with
  | nil =>
    refine ⟨fun out u h => ?_, fun n cp out u h => ?_⟩
    · rw [utf8_to_utf16_le_loop] at h
      injection h with h
      subst h
      exact ⟨[], by simp, by simp, fun x hx => absurd hx (List.not_mem_nil x)⟩
    · rw [utf8_to_utf16_le_cont] at h
      cases h
  | cons c s ih =>
    have hc : c < 256 := hs c (List.mem_cons_self _ _)
    obtain ⟨ihl, ihc⟩ := ih (fun b hb => hs b (List.mem_cons_of_mem _ hb))
    have step : ∀ (cp : Nat) (out u : List Nat),
        utf8_to_utf16_le_loop s (out ++ _utf16_units cp) = some u →
        ∃ v, u = out ++ v ∧ v.length ≤ s.length + (_utf16_units cp).length
          ∧ ∀ x ∈ v, x < 2 ^ 16 := by
      intro cp out u h
      obtain ⟨v, hv, hl, hx⟩ := ihl _ _ h
      refine ⟨_utf16_units cp ++ v, by rw [hv, List.append_assoc], ?_, ?_⟩
      · rw [List.length_append]; omega
      · intro x hm
        rcases List.mem_append.mp hm with hm | hm
        · exact utf16_units_lt cp x hm
        · exact hx x hm
    refine ⟨fun out u h => ?_, fun n cp out u h => ?_⟩
    · rw [utf8_to_utf16_le_loop] at h
      simp only [List.length_cons]
      split at h
      · cases h
      · split at h
        · obtain ⟨v, hv, hl, hx⟩ := step _ _ _ h
          rw [utf16_units_length_one c (by omega)] at hl
          exact ⟨v, hv, hl, hx⟩
        · split at h
          · exact ihc _ _ _ _ h
          · split at h
            · exact ihc _ _ _ _ h
            · exact ihc _ _ _ _ h
    · simp only [List.length_cons]
      cases n with
      | zero =>
        rw [utf8_to_utf16_le_cont] at h
        split at h
        · cases h
        · rename_i cp2 _
          obtain ⟨v, hv, hl, hx⟩ := step _ _ _ h
          have := utf16_units_length_le cp2
          exact ⟨v, hv, by omega, hx⟩
      | succ n =>
        rw [utf8_to_utf16_le_cont] at h
        split at h
        · cases h
        · obtain ⟨v, hv, hl, hx⟩ := ihc _ _ _ _ h
          exact ⟨v, hv, by omega, hx⟩

/-- A successful conversion of a byte string: the buffer is the units followed
by the unit 0, there are at most as many units as bytes, each fits 16 bits, and
the computed length is their number. -/
theorem utf16_conversion_success (s : List Nat) (hs : ∀ b ∈ s, b < 256)
    (hlen : s.length < 2 ^ 32)
    (hok : (utf8_to_utf16_le s).outcome = UTF16_PARSE_SUCCESS) :
    ∃ units, utf8_to_utf16_le_loop s [] = some units
      ∧ utf8_to_utf16_le s = ⟨UTF16_PARSE_SUCCESS, some (units ++ [0]), units.length⟩
      ∧ units.length ≤ s.length ∧ ∀ x ∈ units, x < 2 ^ 16 := by
  rcases utf8_to_utf16_le_cases s with ⟨_, e⟩ | ⟨units, hl, e⟩
  · rw [e] at hok
    cases hok
  · obtain ⟨v, hv, hle, hx⟩ := (utf16_loop_appends s hs).1 [] units hl
    rw [List.nil_append] at hv
    subst hv
    refine ⟨units, hl, ?_, hle, hx⟩
    rw [e, Nat.mod_eq_of_lt (by omega)]

/-- The conversion of a string of bytes below `0x80` writes every byte as one
unit. -/
theorem utf16_loop_ascii (s : List Nat) (hs : ∀ b ∈ s, b < 0x80) (out : List Nat) :
    utf8_to_utf16_le_loop s out = some (out ++ s) := by
  induction s generalizing out with
  | nil => rw [utf8_to_utf16_le_loop, List.append_nil]
  | cons b s ih =>
    have hb : b < 0x80 := hs b (List.mem_cons_self _ _)
    have hl := (utf8_char_length_ranges b (by omega)).1 hb
    have hu : _utf16_units b = [b] := by
      unfold _utf16_units
      rw [if_pos (by omega), Nat.mod_eq_of_lt (by omega)]
    rw [utf8_to_utf16_le_loop, hl, if_neg (by decide), if_pos rfl, hu,
      ih (fun x hx => hs x (List.mem_cons_of_mem _ hx)), List.append_assoc]
    rfl

/-- C35. Whenever `utf8_to_utf16_le` answers `UTF16_PARSE_SUCCESS` (on a byte
string shorter than `2 ^ 32`) with the computed length `L`, the buffer holds
the `L` units produced from the input followed by the unit 0 at index `L`, so
`L` does not count the terminator; for an input whose bytes are all below
`0x80`, `L` is the byte length and unit `i` is byte `i`. -/
theorem utf16_success_buffer :
    (∀ s : List Nat, (∀ b ∈ s, b < 256) → s.length < 2 ^ 32 →
      (utf8_to_utf16_le s).outcome = UTF16_PARSE_SUCCESS →
      ∃ units buffer, utf8_to_utf16_le_loop s [] = some units
        ∧ (utf8_to_utf16_le s).utf16_output_string = some buffer
        ∧ units.length = (utf8_to_utf16_le s).utf16_computed_length
        ∧ buffer.take (utf8_to_utf16_le s).utf16_computed_length = units
        ∧ buffer.drop (utf8_to_utf16_le s).utf16_computed_length = [0]
        ∧ buffer.length = (utf8_to_utf16_le s).utf16_computed_length + 1)
    ∧ (∀ s : List Nat, (∀ b ∈ s, b < 0x80) → s.length < 2 ^ 32 →
      utf8_to_utf16_le s = ⟨UTF16_PARSE_SUCCESS, some (s ++ [0]), s.length⟩) := by
  constructor
  · intro s hs hlen hok
    obtain ⟨units, hl, e, -, -⟩ := utf16_conversion_success s hs hlen hok
    rw [e]
    exact ⟨units, units ++ [0], hl, rfl, rfl, by simp, by simp, by simp⟩
  · intro s hs hlen
    have hl := utf16_loop_ascii s hs []
    rw [List.nil_append] at hl
    unfold utf8_to_utf16_le
    rw [hl]
    show (⟨UTF16_PARSE_SUCCESS, some (s ++ [0]), s.length % 2 ^ 32⟩ : utf16_result) = _
    rw [Nat.mod_eq_of_lt hlen]

/-- Witness for C35: `41 C3 A9` converts to the units `0041 00E9` with the
computed length 2 and the unit 0 at index 2; `41 42` converts to `0041 0042`. -/
theorem utf16_success_buffer_witness :
    (∃ units buffer, utf8_to_utf16_le_loop [0x41, 0xC3, 0xA9] [] = some units
        ∧ (utf8_to_utf16_le [0x41, 0xC3, 0xA9]).utf16_output_string = some buffer
        ∧ units.length = (utf8_to_utf16_le [0x41, 0xC3, 0xA9]).utf16_computed_length
        ∧ buffer.take (utf8_to_utf16_le [0x41, 0xC3, 0xA9]).utf16_computed_length = units
        ∧ buffer.drop (utf8_to_utf16_le [0x41, 0xC3, 0xA9]).utf16_computed_length = [0]
        ∧ buffer.length = (utf8_to_utf16_le [0x41, 0xC3, 0xA9]).utf16_computed_length + 1)
    ∧ utf8_to_utf16_le [0x41, 0x42] = ⟨UTF16_PARSE_SUCCESS, some ([0x41, 0x42] ++ [0]), 2⟩ :=
  ⟨utf16_success_buffer.1 [0x41, 0xC3, 0xA9] (by decide) (by decide) (by decide),
    utf16_success_buffer.2 [0x41, 0x42] (by decide) (by decide)⟩

/-- C39. On every byte string on which `utf8_to_utf16_le` succeeds, the number
of units written is at most the byte length of the input, so the units and the
terminator fit the `strlen + 1` units that the function allocates: every index
written, the last being that of the terminator, is below `strlen + 1`. -/
theorem utf16_units_fit_buffer (s : List Nat) (hs : ∀ b ∈ s, b < 256)
    (hok : (utf8_to_utf16_le s).outcome = UTF16_PARSE_SUCCESS) :
    ∃ units, (utf8_to_utf16_le s).utf16_output_string = some (units ++ [0])
      ∧ units.length ≤ s.length
      ∧ (units ++ [0]).length ≤ s.length + 1
      ∧ ∀ i, i < (units ++ [0]).length → i < s.length + 1 := by
  rcases utf8_to_utf16_le_cases s with ⟨_, e⟩ | ⟨units, hl, e⟩
  · rw [e] at hok
    cases hok
  · obtain ⟨v, hv, hle, -⟩ := (utf16_loop_appends s hs).1 [] units hl
    rw [List.nil_append] at hv
    subst hv
    rw [e]
    have hlen : (units ++ [0]).length ≤ s.length + 1 := by
      rw [List.length_append]
      exact Nat.add_le_add_right hle 1
    exact ⟨units, rfl, hle, hlen, fun i hi => Nat.lt_of_lt_of_le hi hlen⟩

/-- Witness for C39: the 4 bytes `F0 9F 98 80` give 2 units. -/
theorem utf16_units_fit_buffer_witness :
    ∃ units, (utf8_to_utf16_le [0xF0, 0x9F, 0x98, 0x80]).utf16_output_string
        = some (units ++ [0])
      ∧ units.length ≤ 4 ∧ (units ++ [0]).length ≤ 4 + 1
      ∧ ∀ i, i < (units ++ [0]).length → i < 4 + 1 :=
  utf16_units_fit_buffer [0xF0, 0x9F, 0x98, 0x80] (by decide) (by decide)

/-- The swap of the two bytes of a unit, in arithmetic: the low byte becomes
the high byte and the high byte the low one. -/
theorem swap_bytes16_eq (v : Nat) (hv : v < 2 ^ 16) :
    swap_bytes16 v = (v % 256) * 256 + v / 256 := by
  unfold swap_bytes16
  rw [Nat.shiftRight_eq_div_pow, Nat.shiftLeft_eq,
    lor_eq_add_of_lt (v / 2 ^ 8) (v * 2 ^ 8) 8 (by omega) (by omega)]
  omega

/-- The expression `utf8_to_utf16_be` evaluates on a `uint16_t` is the swap. -/
theorem swap_code_eq (v : Nat) (hv : v < 2 ^ 16) :
    ((v >>> 8) ||| ((v <<< 8) % 2 ^ 16)) % 2 ^ 16 = swap_bytes16 v := by
  rw [swap_bytes16_eq v hv, Nat.shiftRight_eq_div_pow, Nat.shiftLeft_eq,
    lor_eq_add_of_lt (v / 2 ^ 8) (v * 2 ^ 8 % 2 ^ 16) 8 (by omega) (by omega)]
  omega

/-- Swapping twice gives the unit back. -/
theorem swap_bytes16_involutive (v : Nat) (hv : v < 2 ^ 16) :
    swap_bytes16 (swap_bytes16 v) = v := by
  have h1 := swap_bytes16_eq v hv
  have h2 := swap_bytes16_eq (swap_bytes16 v) (by rw [h1]; omega)
  rw [h2, h1]
  omega

/-- The big-endian conversion of a byte string, by the outcome of the
little-endian one. -/
theorem utf16_be_cases (s : List Nat) (hs : ∀ b ∈ s, b < 256) (hlen : s.length < 2 ^ 32) :
    (utf8_to_utf16_le s = ⟨UTF16_PARSE_UTF8_MALFORMED, none, 0⟩
      ∧ utf8_to_utf16_be s = ⟨UTF16_PARSE_UTF8_MALFORMED, none, 0⟩)
    ∨ ∃ units, (∀ x ∈ units, x < 2 ^ 16)
      ∧ utf8_to_utf16_le s = ⟨UTF16_PARSE_SUCCESS, some (units ++ [0]), units.length⟩
      ∧ utf8_to_utf16_be s
        = ⟨UTF16_PARSE_SUCCESS, some (units.map swap_bytes16 ++ [0]), units.length⟩ := by
  rcases utf8_to_utf16_le_cases s with ⟨_, e⟩ | ⟨units0, _, e0⟩
  · left
    refine ⟨e, ?_⟩
    unfold utf8_to_utf16_be
    simp only [e]
    rfl
  · right
    obtain ⟨units, -, e, -, hx⟩ := utf16_conversion_success s hs hlen (by rw [e0])
    refine ⟨units, hx, e, ?_⟩
    unfold utf8_to_utf16_be
    simp only [e]
    rw [if_neg (by decide)]
    simp only [List.take_left', List.drop_left']
    rw [List.map_congr_left (fun x hm => swap_code_eq x (hx x hm))]

/-! ## Byte order: claim C36 -/

/-- C36. On every byte string (shorter than `2 ^ 32`) `utf8_to_utf16_be`
answers the code of `utf8_to_utf16_le` and computes the same length; when the
code is not `UTF16_PARSE_SUCCESS` both leave no buffer; on success the buffer
of `utf8_to_utf16_be` is the buffer of `utf8_to_utf16_le` with the two bytes of
every unit swapped, `(v >> 8) | (v << 8)` reduced to 16 bits, the terminator
staying 0, and swapping its units again gives the units of
`utf8_to_utf16_le`. -/
theorem utf16_be_is_swapped_le (s : List Nat) (hs : ∀ b ∈ s, b < 256)
    (hlen : s.length < 2 ^ 32) :
    (utf8_to_utf16_be s).outcome = (utf8_to_utf16_le s).outcome
    ∧ (utf8_to_utf16_be s).utf16_computed_length = (utf8_to_utf16_le s).utf16_computed_length
    ∧ ((utf8_to_utf16_le s).outcome ≠ UTF16_PARSE_SUCCESS →
        (utf8_to_utf16_le s).utf16_output_string = none
        ∧ (utf8_to_utf16_be s).utf16_output_string = none)
    ∧ ((utf8_to_utf16_le s).outcome = UTF16_PARSE_SUCCESS →
        ∃ units, (utf8_to_utf16_le s).utf16_output_string = some (units ++ [0])
          ∧ (utf8_to_utf16_be s).utf16_output_string
            = some (units.map swap_bytes16 ++ [0])
          ∧ swap_bytes16 0 = 0
          ∧ (units.map swap_bytes16).map swap_bytes16 = units
          ∧ ∀ v ∈ units, swap_bytes16 v = (v % 256) * 256 + v / 256) := by
  rcases utf16_be_cases s hs hlen with ⟨e1, e2⟩ | ⟨units, hx, e1, e2⟩
  · rw [e1, e2]
    exact ⟨rfl, rfl, fun _ => ⟨rfl, rfl⟩, fun h => by cases h⟩
  · rw [e1, e2]
    refine ⟨rfl, rfl, fun h => absurd rfl h, fun _ => ⟨units, rfl, rfl, by decide, ?_,
      fun v hv => swap_bytes16_eq v (hx v hv)⟩⟩
    rw [List.map_map]
    calc units.map (swap_bytes16 ∘ swap_bytes16)
        = units.map id :=
          List.map_congr_left (fun x hm => swap_bytes16_involutive x (hx x hm))
      _ = units := List.map_id units

/-- Witness for C36: `41 E2 82 AC` gives `0041 20AC` little-endian and
`4100 AC20` big-endian. -/
theorem utf16_be_is_swapped_le_witness :
    (utf8_to_utf16_le [0x41, 0xE2, 0x82, 0xAC]).utf16_output_string
      = some [0x0041, 0x20AC, 0]
    ∧ (utf8_to_utf16_be [0x41, 0xE2, 0x82, 0xAC]).utf16_output_string
      = some [0x4100, 0xAC20, 0]
    ∧ (utf8_to_utf16_be [0x41, 0xE2, 0x82, 0xAC]).outcome
      = (utf8_to_utf16_le [0x41, 0xE2, 0x82, 0xAC]).outcome
    ∧ (utf8_to_utf16_be [0x41, 0xE2, 0x82, 0xAC]).utf16_computed_length
      = (utf8_to_utf16_le [0x41, 0xE2, 0x82, 0xAC]).utf16_computed_length := by
  obtain ⟨h1, h2, -, -⟩ :=
    utf16_be_is_swapped_le [0x41, 0xE2, 0x82, 0xAC] (by decide) (by decide)
  exact ⟨by decide, by decide, h1, h2⟩

/-! ## Surrogate pairs: claim C31 -/

/-- One round of the continuation loop, the last of its character: a byte
that is not `10xxxxxx` (or the end of the string, in `utf8_to_utf16_le_cont`
itself) ends the conversion; a byte `10xxxxxx` completes the codepoint. -/
theorem utf16_cont_zero_cases (acc c : Nat) (rest out : List Nat)
    (hacc : acc < 2 ^ 26) (hc : c < 256) :
    (¬ (0x80 ≤ c ∧ c < 0xC0) ∧ utf8_to_utf16_le_cont 0 acc (c :: rest) out = none)
    ∨ ((0x80 ≤ c ∧ c < 0xC0)
      ∧ utf8_to_utf16_le_cont 0 acc (c :: rest) out
        = utf8_to_utf16_le_loop rest (out ++ _utf16_units (acc * 64 + c % 64))) := by
  rcases fold_continuation_cases acc c hacc hc with ⟨h, e⟩ | ⟨h, e⟩
  · exact Or.inl ⟨h, by rw [utf8_to_utf16_le_cont, e]⟩
  · exact Or.inr ⟨h, by rw [utf8_to_utf16_le_cont, e]⟩

/-- One round of the continuation loop, with rounds to follow. -/
theorem utf16_cont_succ_cases (n acc c : Nat) (rest out : List Nat)
    (hacc : acc < 2 ^ 26) (hc : c < 256) :
    (¬ (0x80 ≤ c ∧ c < 0xC0) ∧ utf8_to_utf16_le_cont (n + 1) acc (c :: rest) out = none)
    ∨ ((0x80 ≤ c ∧ c < 0xC0)
      ∧ utf8_to_utf16_le_cont (n + 1) acc (c :: rest) out
        = utf8_to_utf16_le_cont n (acc * 64 + c % 64) rest out) := by
  rcases fold_continuation_cases acc c hacc hc with ⟨h, e⟩ | ⟨h, e⟩
  · exact Or.inl ⟨h, by rw [utf8_to_utf16_le_cont, e]⟩
  · exact Or.inr ⟨h, by rw [utf8_to_utf16_le_cont, e]⟩

/-- The main loop on a string of four bytes whose first announces four: it
ends the conversion unless the three others are `10xxxxxx`, and then writes
the units of the codepoint made of the low 3 bits of the first byte and the low
6 bits of each of the others. -/
theorem four_byte_loop (b0 c1 c2 c3 : Nat) (h1 : c1 < 256) (h2 : c2 < 256)
    (h3 : c3 < 256) (hl : _utf8_char_length b0 = 4) :
    (¬ ((0x80 ≤ c1 ∧ c1 < 0xC0) ∧ (0x80 ≤ c2 ∧ c2 < 0xC0) ∧ (0x80 ≤ c3 ∧ c3 < 0xC0))
      ∧ utf8_to_utf16_le_loop [b0, c1, c2, c3] [] = none)
    ∨ (((0x80 ≤ c1 ∧ c1 < 0xC0) ∧ (0x80 ≤ c2 ∧ c2 < 0xC0) ∧ (0x80 ≤ c3 ∧ c3 < 0xC0))
      ∧ utf8_to_utf16_le_loop [b0, c1, c2, c3] []
        = some (_utf16_units
            (b0 % 8 * 262144 + c1 % 64 * 4096 + c2 % 64 * 64 + c3 % 64))) := by
  have hm : b0 &&& 0x07 = b0 % 8 := Nat.and_pow_two_sub_one_eq_mod b0 3
  rw [utf8_to_utf16_le_loop, hl, if_neg (by decide), if_neg (by decide), if_neg (by decide),
    if_neg (by decide), hm]
  rcases utf16_cont_succ_cases 1 (b0 % 8) c1 [c2, c3] [] (by omega) h1 with ⟨n1, e1⟩ | ⟨k1, e1⟩
  · exact Or.inl ⟨fun h => n1 h.1, e1⟩
  · rw [e1]
    rcases utf16_cont_succ_cases 0 (b0 % 8 * 64 + c1 % 64) c2 [c3] [] (by omega) h2
      with ⟨n2, e2⟩ | ⟨k2, e2⟩
    · exact Or.inl ⟨fun h => n2 h.2.1, e2⟩
    · rw [e2]
      rcases utf16_cont_zero_cases ((b0 % 8 * 64 + c1 % 64) * 64 + c2 % 64) c3 [] []
        (by omega) h3 with ⟨n3, e3⟩ | ⟨k3, e3⟩
      · exact Or.inl ⟨fun h => n3 h.2.2, e3⟩
      · rw [e3, utf8_to_utf16_le_loop, List.nil_append]
        refine Or.inr ⟨⟨k1, k2, k3⟩, ?_⟩
        congr 2
        omega

/-- The units the conversion writes for a codepoint above `0xFFFF` that fits
21 bits. -/
theorem utf16_units_pair (cp : Nat) (h1 : 0xFFFF < cp) (h2 : cp < 2 ^ 21) :
    _utf16_units cp = [0xD800 + (cp - 0x10000) / 1024, 0xDC00 + cp % 1024] := by
  unfold _utf16_units
  rw [if_neg (by omega)]
  simp only []
  have e : (cp - 0x10000) % 2 ^ 32 = cp - 0x10000 := Nat.mod_eq_of_lt (by omega)
  have a : (cp - 0x10000) &&& 0x3FF = (cp - 0x10000) % 2 ^ 10 :=
    Nat.and_pow_two_sub_one_eq_mod (cp - 0x10000) 10
  have x1 : (cp - 0x10000) / 2 ^ 10 + 0xD800 = 0xD800 + (cp - 0x10000) / 1024 := by omega
  have x2 : (cp - 0x10000) % 2 ^ 10 + 0xDC00 = 0xDC00 + cp % 1024 := by omega
  rw [e, Nat.shiftRight_eq_div_pow, a, Nat.mod_eq_of_lt (by omega), Nat.mod_eq_of_lt (by omega),
    x1, x2]

/-- C31, as stated, fails: the 4-byte sequence `F4 90 80 80` is accepted and
decodes to the codepoint `0x110000`; the two units written are `DC00 DC00`, the
first of which is not in `D800..DBFF`. -/
theorem four_byte_surrogate_counterexample :
    utf8_to_utf16_le [0xF4, 0x90, 0x80, 0x80]
      = ⟨UTF16_PARSE_SUCCESS, some [0xDC00, 0xDC00, 0], 2⟩
    ∧ 0xF4 % 8 * 262144 + 0x90 % 64 * 4096 + 0x80 % 64 * 64 + 0x80 % 64 = 0x110000 := by
  decide

/-- C31, amended.  For every sequence of four bytes whose first announces four
bytes (by `_utf8_char_length`) and which `utf8_to_utf16_le` accepts, the three
other bytes are `10xxxxxx`; when the codepoint `cp` it decodes to (the low 3
bits of the first byte, then the low 6 bits of each of the others) is above
`0xFFFF`, two units are written, `D800 + (cp - 0x10000) / 1024` and
`DC00 + cp % 1024`; the second lies in `DC00..DFFF`; the first lies in
`D800..DBFF` when `cp ≤ 0x10FFFF`, and in `DC00..DFBF` when `cp` is above
`0x10FFFF`. -/
theorem four_byte_surrogate_pair (b0 c1 c2 c3 : Nat) (h1 : c1 < 256)
    (h2 : c2 < 256) (h3 : c3 < 256) (hl : _utf8_char_length b0 = 4)
    (hok : (utf8_to_utf16_le [b0, c1, c2, c3]).outcome = UTF16_PARSE_SUCCESS)
    (hcp : 0xFFFF < b0 % 8 * 262144 + c1 % 64 * 4096 + c2 % 64 * 64 + c3 % 64) :
    ((0x80 ≤ c1 ∧ c1 < 0xC0) ∧ (0x80 ≤ c2 ∧ c2 < 0xC0) ∧ (0x80 ≤ c3 ∧ c3 < 0xC0))
    ∧ ∃ hi lo, (utf8_to_utf16_le [b0, c1, c2, c3]).utf16_output_string = some [hi, lo, 0]
      ∧ hi = 0xD800
          + (b0 % 8 * 262144 + c1 % 64 * 4096 + c2 % 64 * 64 + c3 % 64 - 0x10000) / 1024
      ∧ lo = 0xDC00 + (b0 % 8 * 262144 + c1 % 64 * 4096 + c2 % 64 * 64 + c3 % 64) % 1024
      ∧ (0xDC00 ≤ lo ∧ lo ≤ 0xDFFF)
      ∧ (b0 % 8 * 262144 + c1 % 64 * 4096 + c2 % 64 * 64 + c3 % 64 ≤ 0x10FFFF →
          0xD800 ≤ hi ∧ hi ≤ 0xDBFF)
      ∧ (0x10FFFF < b0 % 8 * 262144 + c1 % 64 * 4096 + c2 % 64 * 64 + c3 % 64 →
          0xDC00 ≤ hi ∧ hi ≤ 0xDFBF) := by
  rcases four_byte_loop b0 c1 c2 c3 h1 h2 h3 hl with ⟨-, e⟩ | ⟨hc, e⟩
  · unfold utf8_to_utf16_le at hok
    rw [e] at hok
    cases hok
  · refine ⟨hc, ?_⟩
    unfold utf8_to_utf16_le
    rw [e, utf16_units_pair _ hcp (by omega)]
    refine ⟨_, _, rfl, rfl, rfl, by omega, fun h => by omega, fun h => by omega⟩

/-- Witness for the amended C31: `F0 9F 98 80` (`U+1F600`) is written as
`D83D DE00`. -/
theorem four_byte_surrogate_pair_witness :
    (utf8_to_utf16_le [0xF0, 0x9F, 0x98, 0x80]).utf16_output_string
      = some [0xD83D, 0xDE00, 0]
    ∧ ∃ hi lo, (utf8_to_utf16_le [0xF0, 0x9F, 0x98, 0x80]).utf16_output_string
        = some [hi, lo, 0]
      ∧ (0xDC00 ≤ lo ∧ lo ≤ 0xDFFF) ∧ (0xD800 ≤ hi ∧ hi ≤ 0xDBFF) := by
  obtain ⟨-, hi, lo, ho, -, -, hlo, hhi, -⟩ :=
    four_byte_surrogate_pair 0xF0 0x9F 0x98 0x80 (by decide) (by decide) (by decide)
      (by decide) (by decide) (by decide)
  exact ⟨by decide, hi, lo, ho, hlo, hhi (by decide)⟩

/-! ## The classifier: claims C33, C34 -/

/-- The classifier on a string of bytes below `0x80`. -/
theorem classifier_ascii (s : List Nat) (hs : ∀ b ∈ s, b < 0x80) :
    utf8_contains_multibyte_sequence s = 0 := by
  induction s with
  | nil => rfl
  | cons b s ih =>
    have hb : b < 0x80 := hs b (List.mem_cons_self _ _)
    rw [classifier_cons_one b s ((utf8_char_length_ranges b (by omega)).1 hb)]
    exact ih (fun x hx => hs x (List.mem_cons_of_mem _ hx))

/-- The classifier decides at the first byte that is not below `0x80`: `-1`
for a byte in `B8..BF` or `F8..FF`, `1` for every other one, whatever
follows. -/
theorem classifier_first_high_byte (pre post : List Nat) (b : Nat)
    (hpre : ∀ x ∈ pre, x < 0x80) (hb : 0x80 ≤ b) (hb2 : b < 256) :
    utf8_contains_multibyte_sequence (pre ++ b :: post)
      = if (0xB8 ≤ b ∧ b ≤ 0xBF) ∨ (0xF8 ≤ b ∧ b ≤ 0xFF) then -1 else 1 := by
  induction pre with
  | nil =>
    obtain ⟨k0, k1, -, -⟩ := utf8_byte_classes b hb2
    show utf8_contains_multibyte_sequence (b :: post) = _
    by_cases h : (0xB8 ≤ b ∧ b ≤ 0xBF) ∨ (0xF8 ≤ b ∧ b ≤ 0xFF)
    · rw [if_pos h, utf8_contains_multibyte_sequence, k0.mpr h]
    · rw [if_neg h]
      apply classifier_cons_multi
      have n0 : _utf8_char_length b ≠ 0 := fun e => h (k0.mp e)
      have n1 : _utf8_char_length b ≠ 1 := fun e => by have := k1.mp e; omega
      omega
  | cons a pre ih =>
    have ha : a < 0x80 := hpre a (List.mem_cons_self _ _)
    show utf8_contains_multibyte_sequence (a :: (pre ++ b :: post)) = _
    rw [classifier_cons_one a _ ((utf8_char_length_ranges a (by omega)).1 ha)]
    exact ih (fun x hx => hpre x (List.mem_cons_of_mem _ hx))

/-- The lengths of the standard lead patterns are the lengths that
`_utf8_char_length` gives the bytes matching a pattern. -/
theorem standard_lead_length_eq (b : Nat) (h : standard_lead_length b ≠ 0) :
    b < 0xF8 ∧ _utf8_char_length b = standard_lead_length b := by
  unfold standard_lead_length at h ⊢
  by_cases c1 : b < 0x80
  · rw [if_pos c1]
    exact ⟨by omega, (utf8_char_length_ranges b (by omega)).1 c1⟩
  · rw [if_neg c1] at h ⊢
    by_cases c2 : 0xC0 ≤ b ∧ b < 0xE0
    · rw [if_pos c2]
      exact ⟨by omega, ((utf8_char_length_ranges b (by omega)).2.1 c2.1 c2.2).1⟩
    · rw [if_neg c2] at h ⊢
      by_cases c3 : 0xE0 ≤ b ∧ b < 0xF0
      · rw [if_pos c3]
        exact ⟨by omega, ((utf8_char_length_ranges b (by omega)).2.2.1 c3.1 c3.2).1⟩
      · rw [if_neg c3] at h ⊢
        by_cases c4 : 0xF0 ≤ b ∧ b < 0xF8
        · rw [if_pos c4]
          exact ⟨by omega, ((utf8_char_length_ranges b (by omega)).2.2.2 c4.1 c4.2).1⟩
        · rw [if_neg c4] at h
          exact absurd rfl h

/-- C33 at four strings.  `C3` (a lead byte, then the end of the string),
`C3 41` (a lead byte, then a byte that is not `10xxxxxx`), `41 E2 82` (a lead
byte with one of its two continuation bytes) and `80` (a byte matching none of
the lead patterns): `utf8_contains_multibyte_sequence` answers 1 on each, not
`-1`; `utf8_to_utf16_le` rejects the first three. -/
theorem classifier_accepts_malformed :
    utf8_contains_multibyte_sequence [0xC3] = 1
    ∧ utf8_contains_multibyte_sequence [0xC3, 0x41] = 1
    ∧ utf8_contains_multibyte_sequence [0x41, 0xE2, 0x82] = 1
    ∧ utf8_contains_multibyte_sequence [0x80] = 1
    ∧ standard_lead_length 0xC3 = 2 ∧ standard_lead_length 0xE2 = 3
    ∧ standard_lead_length 0x80 = 0
    ∧ (utf8_to_utf16_le [0xC3]).outcome = UTF16_PARSE_UTF8_MALFORMED
    ∧ (utf8_to_utf16_le [0xC3, 0x41]).outcome = UTF16_PARSE_UTF8_MALFORMED
    ∧ (utf8_to_utf16_le [0x41, 0xE2, 0x82]).outcome = UTF16_PARSE_UTF8_MALFORMED := by
  decide

/-- C34. On a string of bytes `utf8_contains_multibyte_sequence` answers 0 if
and only if every byte is below `0x80`; on a structurally valid UTF-8 string
(characters made of a byte matching a lead pattern and the `10xxxxxx` bytes it
requires) that holds at least one character of more than one byte, wherever it
stands, it answers 1. -/
theorem classifier_ascii_or_multibyte :
    (∀ s : List Nat, (∀ b ∈ s, b < 256) →
      (utf8_contains_multibyte_sequence s = 0 ↔ ∀ b ∈ s, b < 0x80))
    ∧ (∀ chars : List (List Nat), (∀ c ∈ chars, is_utf8_character c) →
        (∃ c ∈ chars, 1 < c.length) →
        structurally_valid_utf8 chars.flatten
        ∧ utf8_contains_multibyte_sequence chars.flatten = 1) := by
  constructor
  · intro s hs
    refine ⟨fun h0 => ?_, classifier_ascii s⟩
    rcases first_match_split (fun b : Nat => ¬ b < 0x80) s with h | ⟨pre, b, post, e, hpre, hb⟩
    · exact fun b hb => not_not.mp (h b hb)
    · exfalso
      have hb2 : b < 256 := hs b (by rw [e]; simp)
      rw [e, classifier_first_high_byte pre post b (fun x hx => not_not.mp (hpre x hx))
        (by omega) hb2] at h0
      split at h0 <;> cases h0
  · intro chars hall hex
    refine ⟨⟨chars, hall, rfl⟩, ?_⟩
    induction chars with
    | nil =>
      obtain ⟨c, hc, -⟩ := hex
      exact absurd hc (List.not_mem_nil c)
    | cons c chars ih =>
      have hc := hall c (List.mem_cons_self _ _)
      rw [List.flatten_cons]
      cases c with
      | nil => exact absurd hc (by unfold is_utf8_character; exact not_false)
      | cons b conts =>
        unfold is_utf8_character at hc
        obtain ⟨hlen, -⟩ := hc
        obtain ⟨-, hk⟩ := standard_lead_length_eq b (by omega)
        show utf8_contains_multibyte_sequence (b :: (conts ++ chars.flatten)) = 1
        cases conts with
        | nil =>
          rw [List.nil_append, classifier_cons_one b _ (by rw [hk, hlen]; rfl)]
          apply ih (fun x hx => hall x (List.mem_cons_of_mem _ hx))
          obtain ⟨x, hx, hl⟩ := hex
          rcases List.mem_cons.mp hx with e | e
          · rw [e] at hl
            exact absurd hl (Nat.lt_irrefl 1)
          · exact ⟨x, e, hl⟩
        | cons c1 conts =>
          apply classifier_cons_multi
          rw [hk, hlen]
          simp only [List.length_cons]
          omega

/-- Witness for C34: `41 42` gives 0, and the valid string `41 C3 A9 42`,
whose second character has two bytes, gives 1. -/
theorem classifier_ascii_or_multibyte_witness :
    utf8_contains_multibyte_sequence [0x41, 0x42] = 0
    ∧ utf8_contains_multibyte_sequence [[0x41], [0xC3, 0xA9], [0x42]].flatten = 1
    ∧ [[0x41], [0xC3, 0xA9], [0x42]].flatten = [0x41, 0xC3, 0xA9, 0x42] :=
  ⟨(classifier_ascii_or_multibyte.1 [0x41, 0x42] (by decide)).mpr (by decide),
    (classifier_ascii_or_multibyte.2 [[0x41], [0xC3, 0xA9], [0x42]] (by decide)
      ⟨[0xC3, 0xA9], by decide, by decide⟩).2,
    rfl⟩

/-! ## Which strings the conversion rejects: claims C32, C38 -/

/-- The continuation test of `utf8_to_utf16_le` on a byte. -/
theorem fold_continuation_byte (acc c : Nat) (hc : c < 256) :
    (is_continuation_byte c → ∃ cp, _utf8_fold_continuation acc c = some cp)
    ∧ (¬ is_continuation_byte c → _utf8_fold_continuation acc c = none) := by
  have hk := (utf8_byte_classes c hc).2.2.1
  unfold _utf8_fold_continuation is_continuation_byte
  constructor
  · intro h
    rw [if_neg (not_not.mpr (hk.mpr h))]
    exact ⟨_, rfl⟩
  · intro h
    rw [if_pos (fun e => h (hk.mp e))]

theorem continuation_run_zero (rest : List Nat) : continuation_run 0 rest :=
  ⟨Nat.zero_le _, fun c hc => by rw [List.take_zero] at hc; exact absurd hc (List.not_mem_nil c)⟩

theorem continuation_run_nil (m : Nat) : ¬ continuation_run (m + 1) [] := by
  rintro ⟨h, -⟩
  exact absurd h (by simp)

theorem continuation_run_cons (m c : Nat) (rest : List Nat) :
    continuation_run (m + 1) (c :: rest) ↔ is_continuation_byte c ∧ continuation_run m rest := by
  unfold continuation_run
  rw [List.take_succ_cons, List.length_cons]
  constructor
  · rintro ⟨h1, h2⟩
    exact ⟨h2 c (List.mem_cons_self _ _), by omega, fun x hx => h2 x (List.mem_cons_of_mem _ hx)⟩
  · rintro ⟨h0, h1, h2⟩
    refine ⟨by omega, fun x hx => ?_⟩
    rcases List.mem_cons.mp hx with e | e
    · rw [e]; exact h0
    · exact h2 x e

/-- The continuation loop ends the conversion exactly when one of the bytes it
has to read is missing or is not `10xxxxxx`, or when the main loop does on what
follows them. -/
theorem utf16_cont_none_iff (N : Nat)
    (HP : ∀ t : List Nat, t.length ≤ N → (∀ b ∈ t, b < 256) →
      ∀ out, utf8_to_utf16_le_loop t out = none ↔ ScanMeetsMalformed t)
    (n : Nat) (rest : List Nat) (hlen : rest.length ≤ N) (hs : ∀ b ∈ rest, b < 256)
    (acc : Nat) (out : List Nat) :
    utf8_to_utf16_le_cont n acc rest out = none
      ↔ (continuation_run (n + 1) rest → ScanMeetsMalformed (rest.drop (n + 1))) := by
  induction n generalizing rest acc with
  | zero =>
    cases rest with
    | nil =>
      rw [utf8_to_utf16_le_cont]
      exact ⟨fun _ h => absurd h (continuation_run_nil 0), fun _ => rfl⟩
    | cons c rest =>
      have hc : c < 256 := hs c (List.mem_cons_self _ _)
      have hs2 : ∀ b ∈ rest, b < 256 := fun b hb => hs b (List.mem_cons_of_mem _ hb)
      have hl2 : rest.length ≤ N := by rw [List.length_cons] at hlen; omega
      obtain ⟨f1, f2⟩ := fold_continuation_byte acc c hc
      rw [utf8_to_utf16_le_cont, continuation_run_cons, List.drop_succ_cons, List.drop_zero]
      by_cases hk : is_continuation_byte c
      · obtain ⟨cp, e⟩ := f1 hk
        rw [e]
        simp only []
        rw [HP rest hl2 hs2]
        exact ⟨fun h _ => h, fun h => h ⟨hk, continuation_run_zero rest⟩⟩
      · rw [f2 hk]
        exact ⟨fun _ h => absurd h.1 hk, fun _ => rfl⟩
  | succ n ih =>
    cases rest with
    | nil =>
      rw [utf8_to_utf16_le_cont]
      exact ⟨fun _ h => absurd h (continuation_run_nil (n + 1)), fun _ => rfl⟩
    | cons c rest =>
      have hc : c < 256 := hs c (List.mem_cons_self _ _)
      have hs2 : ∀ b ∈ rest, b < 256 := fun b hb => hs b (List.mem_cons_of_mem _ hb)
      have hl2 : rest.length ≤ N := by rw [List.length_cons] at hlen; omega
      obtain ⟨f1, f2⟩ := fold_continuation_byte acc c hc
      rw [utf8_to_utf16_le_cont, continuation_run_cons, List.drop_succ_cons]
      by_cases hk : is_continuation_byte c
      · obtain ⟨cp, e⟩ := f1 hk
        rw [e]
        simp only []
        rw [ih rest hl2 hs2]
        exact ⟨fun h hr => h hr.2, fun h hr => h ⟨hk, hr⟩⟩
      · rw [f2 hk]
        exact ⟨fun _ h => absurd h.1 hk, fun _ => rfl⟩

/-- What the scan says of a string that starts with a byte of length `k ≥ 1`:
it meets a malformed character exactly when the `k - 1` next bytes, if they are
all there and `10xxxxxx`, are followed by a string in which it meets one. -/
theorem scan_cons_iff (b : Nat) (rest : List Nat) (hb : b < 256)
    (hk : _utf8_char_length b ≠ 0) :
    ScanMeetsMalformed (b :: rest)
      ↔ (continuation_run (_utf8_char_length b - 1) rest →
          ScanMeetsMalformed (rest.drop (_utf8_char_length b - 1))) := by
  constructor
  · intro h
    cases h with
    | bad_start _ _ hr => exact absurd (((utf8_byte_classes b hb).1).mpr hr) hk
    | bad_continuation _ _ _ hn => exact fun hr => absurd hr hn
    | later _ _ _ _ hd => exact fun _ => hd
  · intro h
    by_cases hr : continuation_run (_utf8_char_length b - 1) rest
    · exact ScanMeetsMalformed.later b rest hk hr (h hr)
    · refine ScanMeetsMalformed.bad_continuation b rest ?_ hr
      by_contra hlt
      have e : _utf8_char_length b - 1 = 0 := by omega
      rw [e] at hr
      exact hr (continuation_run_zero rest)

/-- The main loop ends the conversion exactly on the strings in which the scan
meets a malformed character. -/
theorem utf16_loop_none_iff (N : Nat) :
    ∀ s : List Nat, s.length ≤ N → (∀ b ∈ s, b < 256) →
      ∀ out, utf8_to_utf16_le_loop s out = none ↔ ScanMeetsMalformed s := by
  induction N with
  | zero =>
    intro s hlen _ out
    have e : s = [] := List.length_eq_zero.mp (by omega)
    subst e
    rw [utf8_to_utf16_le_loop]
    exact ⟨fun h => (by cases h), fun h => (by cases h)⟩
  | succ N ih =>
    intro s hlen hs out
    cases s with
    | nil =>
      rw [utf8_to_utf16_le_loop]
      exact ⟨fun h => (by cases h), fun h => (by cases h)⟩
    | cons b rest =>
      have hb : b < 256 := hs b (List.mem_cons_self _ _)
      have hs2 : ∀ x ∈ rest, x < 256 := fun x hx => hs x (List.mem_cons_of_mem _ hx)
      have hl2 : rest.length ≤ N := by rw [List.length_cons] at hlen; omega
      obtain ⟨k0, -, -, k4⟩ := utf8_byte_classes b hb
      rw [utf8_to_utf16_le_loop]
      by_cases c0 : _utf8_char_length b = 0
      · rw [if_pos c0]
        exact ⟨fun _ => ScanMeetsMalformed.bad_start b rest (k0.mp c0), fun _ => rfl⟩
      · rw [if_neg c0, scan_cons_iff b rest hb c0]
        by_cases c1 : _utf8_char_length b = 1
        · rw [if_pos c1, c1, ih rest hl2 hs2]
          exact ⟨fun h _ => h, fun h => h (continuation_run_zero rest)⟩
        · rw [if_neg c1]
          by_cases c2 : _utf8_char_length b = 2
          · rw [if_pos c2, c2]
            exact utf16_cont_none_iff N ih 0 rest hl2 hs2 _ out
          · rw [if_neg c2]
            by_cases c3 : _utf8_char_length b = 3
            · rw [if_pos c3, c3]
              exact utf16_cont_none_iff N ih 1 rest hl2 hs2 _ out
            · rw [if_neg c3]
              have c4 : _utf8_char_length b = 4 := by omega
              rw [c4]
              exact utf16_cont_none_iff N ih 2 rest hl2 hs2 _ out

/-- C38. On a byte string `utf8_to_utf16_le` answers
`UTF16_PARSE_UTF8_MALFORMED` exactly when the scan from character start to
character start meets a start byte in `B8..BF` or `F8..FF`, or a start byte
announcing `k > 1` bytes (by `_utf8_char_length`) of which one of the next
`k - 1` bytes is not `10xxxxxx` or is missing because the string ends; on every
other byte string it answers `UTF16_PARSE_SUCCESS`. -/
theorem conversion_malformed_iff (s : List Nat) (hs : ∀ b ∈ s, b < 256) :
    ((utf8_to_utf16_le s).outcome = UTF16_PARSE_UTF8_MALFORMED ↔ ScanMeetsMalformed s)
    ∧ ((utf8_to_utf16_le s).outcome = UTF16_PARSE_SUCCESS ↔ ¬ ScanMeetsMalformed s) := by
  have hiff := utf16_loop_none_iff s.length s (Nat.le_refl _) hs []
  rcases utf8_to_utf16_le_cases s with ⟨hl, e⟩ | ⟨units, hl, e⟩
  · have hm : ScanMeetsMalformed s := hiff.mp hl
    rw [e]
    exact ⟨⟨fun _ => hm, fun _ => rfl⟩, ⟨fun h => (by cases h), fun h => absurd hm h⟩⟩
  · have hm : ¬ ScanMeetsMalformed s := by
      intro h
      rw [hiff.mpr h] at hl
      cases hl
    rw [e]
    exact ⟨⟨fun h => (by cases h), fun h => absurd h hm⟩, ⟨fun _ => hm, fun _ => rfl⟩⟩

/-- Witness for C38: in `41 E2 82` the scan passes `41` and meets `E2`, which
announces 3 bytes and is followed by one; the conversion answers
`UTF16_PARSE_UTF8_MALFORMED`. -/
theorem conversion_malformed_iff_witness :
    (utf8_to_utf16_le [0x41, 0xE2, 0x82]).outcome = UTF16_PARSE_UTF8_MALFORMED
    ∧ ScanMeetsMalformed [0x41, 0xE2, 0x82]
    ∧ ¬ ScanMeetsMalformed [0x41, 0xE2, 0x82, 0xAC] :=
  ⟨by decide,
    (conversion_malformed_iff [0x41, 0xE2, 0x82] (by decide)).1.mp (by decide),
    (conversion_malformed_iff [0x41, 0xE2, 0x82, 0xAC] (by decide)).2.mp (by decide)⟩

/-- A structurally valid string that starts with the byte `b`: `b` matches a
lead pattern and is followed by the `10xxxxxx` bytes the pattern requires,
after which the string is structurally valid again. -/
theorem structurally_valid_cons (b : Nat) (rest : List Nat)
    (h : structurally_valid_utf8 (b :: rest)) :
    standard_lead_length b ≠ 0
    ∧ ∃ conts rest2, rest = conts ++ rest2 ∧ standard_lead_length b = conts.length + 1
      ∧ (∀ x ∈ conts, is_continuation_byte x) ∧ structurally_valid_utf8 rest2 := by
  obtain ⟨chars, hall, e⟩ := h
  cases chars with
  | nil => cases e
  | cons c chars =>
    have hc := hall c (List.mem_cons_self _ _)
    cases c with
    | nil => exact absurd hc (by unfold is_utf8_character; exact not_false)
    | cons b2 conts =>
      unfold is_utf8_character at hc
      rw [List.flatten_cons, List.cons_append] at e
      injection e with e1 e2
      subst e1
      exact ⟨by omega, conts, chars.flatten, e2, hc.1, hc.2,
        ⟨chars, fun x hx => hall x (List.mem_cons_of_mem _ hx), rfl⟩⟩

/-- C32 at three strings in which a character starts with a byte `10xxxxxx`,
which matches none of the lead patterns: `41 9F BF`, `A9 80 80` and
`B1 80 80 80` are not structurally valid, and `utf8_to_utf16_le` answers
`UTF16_PARSE_SUCCESS` on each, reading `9F`, `A9` and `B1` as the first byte of
a character of 2, 3 and 4 bytes and writing `07FF`, `9000` and `D8C0 DC00`. -/
theorem conversion_accepts_continuation_start :
    utf8_to_utf16_le [0x41, 0x9F, 0xBF] = ⟨UTF16_PARSE_SUCCESS, some [0x41, 0x7FF, 0], 2⟩
    ∧ utf8_to_utf16_le [0xA9, 0x80, 0x80] = ⟨UTF16_PARSE_SUCCESS, some [0x9000, 0], 1⟩
    ∧ utf8_to_utf16_le [0xB1, 0x80, 0x80, 0x80]
      = ⟨UTF16_PARSE_SUCCESS, some [0xD8C0, 0xDC00, 0], 2⟩
    ∧ standard_lead_length 0x9F = 0 ∧ standard_lead_length 0xA9 = 0
    ∧ standard_lead_length 0xB1 = 0
    ∧ _utf8_char_length 0x9F = 2 ∧ _utf8_char_length 0xA9 = 3 ∧ _utf8_char_length 0xB1 = 4
    ∧ ¬ structurally_valid_utf8 [0x41, 0x9F, 0xBF]
    ∧ ¬ structurally_valid_utf8 [0xA9, 0x80, 0x80]
    ∧ ¬ structurally_valid_utf8 [0xB1, 0x80, 0x80, 0x80] := by
  refine ⟨by decide, by decide, by decide, by decide, by decide, by decide, by decide,
    by decide, by decide, fun h => ?_, fun h => ?_, fun h => ?_⟩
  · obtain ⟨-, conts, rest2, e, hl, -, hv⟩ := structurally_valid_cons _ _ h
    have hn : conts = [] := List.length_eq_zero.mp (by
      have : standard_lead_length 0x41 = 1 := by decide
      omega)
    subst hn
    rw [List.nil_append] at e
    subst e
    exact (structurally_valid_cons _ _ hv).1 (by decide)
  · exact (structurally_valid_cons _ _ h).1 (by decide)
  · exact (structurally_valid_cons _ _ h).1 (by decide)

/-! ## The text store: claims C37, C40 -/

/-- Every name in a list the text store builds is allow-listed. -/
theorem text_reachable_allow_listed (l : List id3_text_tag_node) (h : TextReachable l) :
    ∀ e ∈ l, e.tag_name ∈ TEXT_TAGS := by
  induction h with
  | empty => exact fun e he => absurd he (List.not_mem_nil e)
  | add_update head tag_name tag_value _ ih =>
    intro e he
    have hmem : e.tag_name
        ∈ (id3_text_tag_node_add_update head tag_name tag_value).2.map (fun x => x.tag_name) :=
      List.mem_map_of_mem _ he
    rcases text_add_update_names head tag_name tag_value with hsame | ⟨hn, -, happ⟩
    · rw [hsame] at hmem
      obtain ⟨x, hx, hxe⟩ := List.mem_map.mp hmem
      rw [← hxe]
      exact ih x hx
    · rw [happ] at hmem
      rcases List.mem_append.mp hmem with hm | hm
      · obtain ⟨x, hx, hxe⟩ := List.mem_map.mp hm
        rw [← hxe]
        exact ih x hx
      · rw [List.mem_singleton] at hm
        rw [hm]
        exact hn
  | delete head tag_name _ ih =>
    exact fun e he => ih e ((text_delete_sublist head tag_name).subset he)

/-- C37, as stated, fails: `id3_text_tag_node_add_update` with the name `TXXX`
and the value `A` on an empty list answers `NODE_INVALID_TAG_NAME`, not
`NODE_ADD_SUCCESS`, and adds nothing. -/
theorem text_add_update_txxx_counterexample :
    id3_text_tag_node_add_update [] [0x54, 0x58, 0x58, 0x58] [0x41]
      = (NODE_INVALID_TAG_NAME, []) := by
  decide

/-- C37, amended.  `TXXX` is not one of the 38 names of `TEXT_TAGS`:
`id3_text_tag_node_add_update` with the name `TXXX` answers
`NODE_INVALID_TAG_NAME` on every list and for every value and leaves the list
as it was, and no list the text store builds holds an entry named `TXXX`. -/
theorem text_add_update_txxx_refused :
    [0x54, 0x58, 0x58, 0x58] ∉ TEXT_TAGS
    ∧ (∀ (head : List id3_text_tag_node) (tag_value : List Nat),
        id3_text_tag_node_add_update head [0x54, 0x58, 0x58, 0x58] tag_value
          = (NODE_INVALID_TAG_NAME, head))
    ∧ (∀ l : List id3_text_tag_node, TextReachable l →
        ∀ e ∈ l, e.tag_name ≠ [0x54, 0x58, 0x58, 0x58]) := by
  have hn : [0x54, 0x58, 0x58, 0x58] ∉ TEXT_TAGS := by decide
  refine ⟨hn, fun head tag_value => text_add_update_invalid_name head _ tag_value hn,
    fun l hl e he h => ?_⟩
  have := text_reachable_allow_listed l hl e he
  rw [h] at this
  exact hn this

/-- Witness for the amended C37: a second `TXXX` call on the list that the
first one left, after `TALB` was added, is refused as well, and that list holds
no `TXXX` entry. -/
theorem text_add_update_txxx_refused_witness :
    id3_text_tag_node_add_update
        (id3_text_tag_node_add_update
          (id3_text_tag_node_add_update [] [0x54, 0x41, 0x4C, 0x42] [0x41]).2
          [0x54, 0x58, 0x58, 0x58] [0x42]).2
        [0x54, 0x58, 0x58, 0x58] [0x43]
      = (NODE_INVALID_TAG_NAME,
          (id3_text_tag_node_add_update
            (id3_text_tag_node_add_update [] [0x54, 0x41, 0x4C, 0x42] [0x41]).2
            [0x54, 0x58, 0x58, 0x58] [0x42]).2)
    ∧ ∀ e ∈ (id3_text_tag_node_add_update
          (id3_text_tag_node_add_update [] [0x54, 0x41, 0x4C, 0x42] [0x41]).2
          [0x54, 0x58, 0x58, 0x58] [0x42]).2,
        e.tag_name ≠ [0x54, 0x58, 0x58, 0x58] :=
  ⟨text_add_update_txxx_refused.2.1 _ _,
    text_add_update_txxx_refused.2.2 _
      (TextReachable.add_update _ _ _ (TextReachable.add_update _ _ _ TextReachable.empty))⟩

/-- C40. On a text list with no entry named `t`, a successful
`id3_text_tag_node_add_update` with the name `t` (which is then allow-listed,
the value accepted, and the code `NODE_ADD_SUCCESS`) followed by
`id3_text_tag_node_delete` with the name `t` answers `NODE_DELETE_SUCCESS` and
leaves the list that was there before the two calls: the same entries, with
their values and metadata, in the same order. -/
theorem text_add_then_delete (head : List id3_text_tag_node) (tag_name tag_value : List Nat)
    (hno : ∀ e ∈ head, e.tag_name ≠ tag_name)
    (hok : (id3_text_tag_node_add_update head tag_name tag_value).1 = NODE_ADD_SUCCESS
      ∨ (id3_text_tag_node_add_update head tag_name tag_value).1 = NODE_UPDATE_SUCCESS) :
    (id3_text_tag_node_add_update head tag_name tag_value).1 = NODE_ADD_SUCCESS
    ∧ id3_text_tag_node_delete (id3_text_tag_node_add_update head tag_name tag_value).2 tag_name
      = (NODE_DELETE_SUCCESS, head) := by
  obtain ⟨hn, hv⟩ := text_add_update_success_valid head tag_name tag_value hok
  rw [text_add_update_eq_walk head tag_name tag_value hn hv] at hok ⊢
  rcases text_walk_effect tag_name tag_value head hok with
    ⟨-, e, he, -, hw⟩ | ⟨pre, post, old, new, hh, -, hold, -, -, -⟩
  · rw [hw]
    refine ⟨rfl, ?_⟩
    have hd := text_delete_walk_hit tag_name head [] e hno he
    rw [List.append_nil] at hd
    show id3_text_tag_node_delete (head ++ [e]) tag_name = _
    cases head with
    | nil => exact hd
    | cons a l => exact hd
  · exact absurd hold (hno old (by rw [hh]; simp))

/-- Witness for C40: on the list holding `TALB`, `TIT2` is added and then
deleted. -/
theorem text_add_then_delete_witness :
    id3_text_tag_node_delete
        (id3_text_tag_node_add_update [⟨[0x54, 0x41, 0x4C, 0x42], [0x41], 3, 0, none⟩]
          [0x54, 0x49, 0x54, 0x32] [0xC3, 0xA9]).2
        [0x54, 0x49, 0x54, 0x32]
      = (NODE_DELETE_SUCCESS, [⟨[0x54, 0x41, 0x4C, 0x42], [0x41], 3, 0, none⟩]) :=
  (text_add_then_delete [⟨[0x54, 0x41, 0x4C, 0x42], [0x41], 3, 0, none⟩]
    [0x54, 0x49, 0x54, 0x32] [0xC3, 0xA9] (by decide) (Or.inl (by decide))).2

end ID3
